import Mathlib

/-!
# Social-Hub: the real-time connection registry and fan-out

A shallow embedding of `backend/handlers/websocket.go` together with the helpers it
calls (`CreateNotification`, `UpdateUnreadCounts`, `database.SaveMessage`,
`database.GetMessagesForUser`, `database.GetUserIDBySession`) and of the session store
of `backend/sessions/session.go`.  The tables `messages`, `sessions` and `group_members`
are lists of rows on which the statements of the code are evaluated.

* Go maps are association lists with unique keys (`AList`).  A Go map that is the value of
  another map is a reference: mutating it in place is `AList.replace` on the outer map.
* A `*Connection` is a pointer (`ConnPtr`) into a heap of `Connection` values.  The
  transport handle `conn` of a `Connection` is created together with it and is never
  shared, so a write on `c.conn` is recorded as a write on the pointer `c`.
* The database, the clock and the sockets are outside the program: their answers are
  read from an `Env`, and every call that has an effect outside the registry is
  appended to the `trace` of the state.
* Go ranges over a map in an unspecified order; the model ranges in stored order.
-/

set_option linter.dupNamespace false

namespace SocialHub

/-- A Go `map[K]V`. -/
abbrev GoMap (K : Type) (V : Type) := AList (fun _ : K => V)

/-- A `*Connection`. -/
abbrev ConnPtr := Nat

/-- The struct `Connection` (the transport handle is the pointer itself). -/
structure Connection where
  userID : Int
  nickname : String
  groups : GoMap Int Bool

/-- The struct `ChatMessage`. -/
structure ChatMessage where
  To : String
  Message : String
deriving DecidableEq, Repr

/-- The struct `GroupChatMessage`. -/
structure GroupChatMessage where
  GroupID : Int
  Content : String
deriving DecidableEq, Repr

/-- The struct `GroupSubscription`. -/
structure GroupSubscription where
  GroupID : Int
deriving DecidableEq, Repr

/-- The struct `ChatResponse`. -/
structure ChatResponse where
  From : String
  To : String
  Message : String
  Timestamp : String
deriving DecidableEq, Repr

/-- The struct `GroupChatResponse`. -/
structure GroupChatResponse where
  Sender : String
  Content : String
  Timestamp : String
  GroupID : Int
deriving DecidableEq, Repr

/-- The struct `database.Message` (the columns read by `GetMessagesForUser`). -/
structure Message where
  MessageID : Int
  Sender : String
  Message : String
  Timestamp : String
deriving DecidableEq, Repr

/-- The `Data` field of an outbound `WebSocketMessage`. -/
inductive Payload where
  | chat (r : ChatResponse)
  | groupChat (r : GroupChatResponse)
  | notificationUpdate (groupID : Int)
  | notification (typ : String) (message : String) (relatedID : Option Int) (timestamp : Int)
  | followStatus (status : String)
  | userListUpdate
  | requestUpdate
deriving DecidableEq, Repr

/-- The struct `WebSocketMessage`, outbound (`typ` is the field `Type`). -/
structure WebSocketMessage where
  typ : String
  Data : Payload
deriving DecidableEq, Repr

/-- What the program does to the outside world, in the order it does it. -/
inductive Event where
  /-- A `WriteJSON` / `WriteMessage` on the transport of `c`; `ok` is false when it errs. -/
  | write (c : ConnPtr) (m : WebSocketMessage) (ok : Bool)
  /-- The call `conn.conn.Close()`. -/
  | close (c : ConnPtr)
  /-- The call `database.SaveMessage`. -/
  | saveMessage (recipient sender message timestamp : String) (ok : Bool)
  /-- The query `SELECT COUNT(*) FROM group_members WHERE group_id = ? AND user_id = ?`. -/
  | queryMemberCount (groupID userID : Int)
  /-- The statement `INSERT INTO group_messages`. -/
  | insertGroupMessage (groupID userID : Int) (content timestamp : String) (ok : Bool)
  /-- A committed `unread_count + 1` of `group_message_notifications`. -/
  | unreadIncrement (groupID userID : Int)
  /-- The statement `INSERT INTO notifications`. -/
  | insertNotification (userID : Int) (typ message : String) (relatedID : Option Int) (ok : Bool)
deriving DecidableEq, Repr

/-- The answers of the database, the clock and the sockets during one handler call. -/
structure Env where
  /-- The value of `time.Now()` formatted as RFC3339. -/
  timestamp : String
  /-- The value of `time.Now().Unix()`. -/
  unixTime : Int
  /-- Whether a write of this frame on this connection succeeds -/
  writeOk : ConnPtr → WebSocketMessage → Bool
  /-- Whether `database.SaveMessage recipient sender message timestamp` returns nil -/
  saveMessageOk : String → String → String → String → Bool
  /-- The scanned membership count of (group, user); `none` when `Scan` errs -/
  memberCount : Int → Int → Option Int
  /-- Whether the insert into `group_messages` of (group, user, content) succeeds -/
  insertGroupMessageOk : Int → Int → String → Bool
  /-- The query `SELECT uid FROM users WHERE nickname = ?`. -/
  recipientID : String → Option Int
  /-- The query `SELECT group_name FROM groups WHERE group_id = ?`. -/
  groupName : Int → Option String
  /-- The rows of `SELECT user_id FROM group_members WHERE group_id = ? AND user_id != ?`
  in `handleGroupChat`; a row is `none` when its `Scan` errs -/
  notifyMembers : Int → Int → Option (List (Option Int))
  /-- Whether the insert into `notifications` succeeds -/
  insertNotificationOk : Int → String → String → Option Int → Bool
  /-- Whether `database.Db.Begin()` succeeds. -/
  txBeginOk : Bool
  /-- The rows of the member query inside the transaction of `UpdateUnreadCounts` -/
  txMembers : Int → Int → Option (List (Option Int))
  /-- Whether the `INSERT OR REPLACE` of the counter of (group, user) succeeds -/
  txUpsertOk : Int → Int → Bool
  /-- Whether `tx.Commit()` succeeds. -/
  txCommitOk : Bool
  /-- The rows of the member query of `BroadcastNotificationUpdate` -/
  updateMembers : Int → Int → Option (List (Option Int))
  /-- The query `SELECT nickname FROM users WHERE uid = ?`. -/
  nicknameOf : Int → Option String
  /-- The result of `database.GetMessagesForUser`. -/
  pendingMessages : String → Option (List Message)

/-- The process state: the heap of connections, the two routing tables
`userConnections` and `groupConnections`, and the trace of outside effects. -/
structure State where
  heap : ConnPtr → Connection
  next : ConnPtr
  userConnections : GoMap String ConnPtr
  groupConnections : GoMap Int (GoMap Int ConnPtr)
  trace : List Event

/-- The state at process start: `make(map...)` twice, nothing allocated. -/
def initState : State :=
  { heap := fun _ => { userID := 0, nickname := "", groups := ∅ }
    next := 0
    userConnections := ∅
    groupConnections := ∅
    trace := [] }

/-- Go `len(m)`. -/
def len {K V : Type} (m : GoMap K V) : Nat := m.entries.length

/-- Go `m[k]` for a map of maps: the nil (empty) map when the key is absent. -/
def innerOf (gc : GoMap Int (GoMap Int ConnPtr)) (g : Int) : GoMap Int ConnPtr :=
  (gc.lookup g).getD ∅

/-- Appends one event to the trace. -/
def emit (e : Event) (s : State) : State :=
  { s with trace := s.trace ++ [e] }

/-- The call `c.conn.WriteJSON(m)` (also `WriteMessage`): the attempt is recorded, the answer is
whether it succeeded. -/
def writeJSON (env : Env) (c : ConnPtr) (m : WebSocketMessage) (s : State) : Bool × State :=
  (env.writeOk c m, emit (Event.write c m (env.writeOk c m)) s)

/-- The function `UnifiedWebSocketHandler`, lines 102-109: allocate the `Connection`
with an empty `groups` and store it under its nickname. -/
def register (userID : Int) (nickname : String) (s : State) : ConnPtr × State :=
  let connection := s.next
  (connection,
    { s with
      heap := Function.update s.heap connection
        { userID := userID, nickname := nickname, groups := ∅ }
      next := s.next + 1
      userConnections := s.userConnections.insert nickname connection })

/-- The function `UnifiedWebSocketHandler`, lines 112-125: push the stored messages of
the nickname; the results of the writes are ignored. -/
def pushPending (env : Env) (connection : ConnPtr) (s : State) : State :=
  match env.pendingMessages (s.heap connection).nickname with
  | none => s
  | some pendingMessages =>
    pendingMessages.foldl
      (fun st msg =>
        (writeJSON env connection
          { typ := "chat"
            Data := Payload.chat
              { From := msg.Sender, To := (s.heap connection).nickname,
                Message := msg.Message, Timestamp := msg.Timestamp } } st).2)
      s

/-- The function `BroadcastNotificationToUser`: the first registered connection of the user, if any,
is written one `notification` frame; a failed write is only logged. -/
def BroadcastNotificationToUser (env : Env) (userID : Int) (notificationType : String)
    (message : String) (relatedID : Option Int) (s : State) : State :=
  match s.userConnections.entries.find? (fun e => decide ((s.heap e.2).userID = userID)) with
  | none => s
  | some e =>
    (writeJSON env e.2
      { typ := "notification"
        Data := Payload.notification notificationType message relatedID env.unixTime } s).2

/-- The function `CreateNotification`: insert the row, and only when that succeeded push it live.
The result is whether it returned a nil error. -/
def CreateNotification (env : Env) (userID : Int) (notificationType : String)
    (message : String) (relatedID : Option Int) (s : State) : Bool × State :=
  let ok := env.insertNotificationOk userID notificationType message relatedID
  let s1 := emit (Event.insertNotification userID notificationType message relatedID ok) s
  if ok then
    (true, BroadcastNotificationToUser env userID notificationType message relatedID s1)
  else
    (false, s1)

/-- The function `CreateNewMessageNotification`. -/
def CreateNewMessageNotification (env : Env) (recipientID : Int) (senderNickname : String)
    (s : State) : Bool × State :=
  CreateNotification env recipientID "new_message"
    (senderNickname ++ " sent you a new message") none s

/-- The function `CreateGroupMessageNotification`. -/
def CreateGroupMessageNotification (env : Env) (groupMemberID : Int) (groupID : Int)
    (groupName : String) (senderNickname : String) (s : State) : Bool × State :=
  CreateNotification env groupMemberID "group_message"
    (senderNickname ++ " sent a message in the group '" ++ groupName ++ "'") (some groupID) s

/-- The function `handlePrivateChat`, lines 180-191: the live write to the connection
registered under `To`, if there is one; a failed write is only logged. -/
def deliverChat (env : Env) (nickname : String) (chatMsg : ChatMessage) (timestamp : String)
    (s : State) : State :=
  match s.userConnections.lookup chatMsg.To with
  | some recipientConn =>
    (writeJSON env recipientConn
      { typ := "chat"
        Data := Payload.chat
          { From := nickname, To := chatMsg.To,
            Message := chatMsg.Message, Timestamp := timestamp } } s).2
  | none => s

/-- The function `handlePrivateChat`, lines 193-202: the notification of the recipient. -/
def notifyRecipient (env : Env) (nickname : String) (chatMsg : ChatMessage) (s : State) :
    State :=
  match env.recipientID chatMsg.To with
  | none => s
  | some recipientID => (CreateNewMessageNotification env recipientID nickname s).2

/-- The function `handlePrivateChat`; `data` is `none` when the payload does not decode
into a `ChatMessage`. -/
def handlePrivateChat (env : Env) (conn : ConnPtr) (data : Option ChatMessage)
    (s : State) : State :=
  match data with
  | none => s
  | some chatMsg =>
    let nickname := (s.heap conn).nickname
    let timestamp := env.timestamp
    let saved := env.saveMessageOk chatMsg.To nickname chatMsg.Message timestamp
    let s1 := emit (Event.saveMessage chatMsg.To nickname chatMsg.Message timestamp saved) s
    if saved then
      notifyRecipient env nickname chatMsg (deliverChat env nickname chatMsg timestamp s1)
    else s1

/-- The function `handleGroupSubscription`; `data` is `none` when the payload does not decode. -/
def handleGroupSubscription (env : Env) (conn : ConnPtr) (data : Option GroupSubscription)
    (s : State) : State :=
  match data with
  | none => s
  | some sub =>
    let c := s.heap conn
    let s1 := emit (Event.queryMemberCount sub.GroupID c.userID) s
    match env.memberCount sub.GroupID c.userID with
    | none => s1
    | some memberCount =>
      if memberCount = 0 then s1
      else
        let heap1 := Function.update s1.heap conn
          { c with groups := c.groups.insert sub.GroupID true }
        let gc1 :=
          if s1.groupConnections.lookup sub.GroupID = none then
            s1.groupConnections.insert sub.GroupID ∅
          else s1.groupConnections
        let gc2 := gc1.replace sub.GroupID ((innerOf gc1 sub.GroupID).insert c.userID conn)
        { s1 with heap := heap1, groupConnections := gc2 }

/-- The block shared by `handleGroupUnsubscription` (lines 250-255) and `cleanup`
(lines 345-350): delete the user from the group's set and prune the set when empty. -/
def dropMember (gc : GoMap Int (GoMap Int ConnPtr)) (groupID : Int) (userID : Int) :
    GoMap Int (GoMap Int ConnPtr) :=
  match gc.lookup groupID with
  | none => gc
  | some inner =>
    let gc1 := gc.replace groupID (inner.erase userID)
    if len (innerOf gc1 groupID) = 0 then gc1.erase groupID else gc1

/-- The function `handleGroupUnsubscription`; `data` is `none` when the payload does not decode. -/
def handleGroupUnsubscription (conn : ConnPtr) (data : Option GroupSubscription)
    (s : State) : State :=
  match data with
  | none => s
  | some sub =>
    let c := s.heap conn
    { s with
      heap := Function.update s.heap conn { c with groups := c.groups.erase sub.GroupID }
      groupConnections := dropMember s.groupConnections sub.GroupID c.userID }

/-- One iteration of the loop of `broadcastToGroup` on the entry (userID, conn). -/
def broadcastOne (env : Env) (groupID : Int) (message : GroupChatResponse)
    (st : State) (e : Sigma (fun _ : Int => ConnPtr)) : State :=
  let r := writeJSON env e.2 { typ := "group_chat", Data := Payload.groupChat message } st
  if r.1 then r.2
  else
    let st1 := emit (Event.close e.2) r.2
    { st1 with
      groupConnections :=
        st1.groupConnections.replace groupID ((innerOf st1.groupConnections groupID).erase e.1) }

/-- The function `broadcastToGroup`: range over the set of the group; a failed write closes that
transport and deletes that entry from the set. -/
def broadcastToGroup (env : Env) (groupID : Int) (message : GroupChatResponse)
    (s : State) : State :=
  match s.groupConnections.lookup groupID with
  | none => s
  | some groupConns => groupConns.entries.foldl (broadcastOne env groupID message) s

/-- One iteration of the loop of `BroadcastNotificationUpdate` on a row. -/
def notificationUpdateOne (env : Env) (groupID : Int) (st : State) (row : Option Int) :
    State :=
  match row with
  | none => st
  | some userID =>
    match env.nicknameOf userID with
    | none => st
    | some nickname =>
      match st.userConnections.lookup nickname with
      | none => st
      | some conn =>
        let r := writeJSON env conn
          { typ := "notification_update", Data := Payload.notificationUpdate groupID } st
        if r.1 then r.2
        else { r.2 with userConnections := r.2.userConnections.erase nickname }

/-- The function `BroadcastNotificationUpdate`. -/
def BroadcastNotificationUpdate (env : Env) (groupID : Int) (senderID : Int)
    (s : State) : State :=
  match env.updateMembers groupID senderID with
  | none => s
  | some rows => rows.foldl (notificationUpdateOne env groupID) s

/-- The users whose counter `UpdateUnreadCounts` increments inside its transaction:
the rows that scan and whose upsert succeeds. -/
def unreadTargets (env : Env) (groupID : Int) (rows : List (Option Int)) : List Int :=
  rows.filterMap (fun row =>
    match row with
    | none => none
    | some userID => if env.txUpsertOk groupID userID then some userID else none)

/-- The function `UpdateUnreadCounts`: the result is whether it returned a nil error. -/
def UpdateUnreadCounts (env : Env) (groupID : Int) (senderID : Int) (s : State) :
    Bool × State :=
  if !env.txBeginOk then (false, s)
  else
    match env.txMembers groupID senderID with
    | none => (false, s)
    | some rows =>
      if !env.txCommitOk then (false, s)
      else
        let s1 := (unreadTargets env groupID rows).foldl
          (fun st userID => emit (Event.unreadIncrement groupID userID) st) s
        (true, BroadcastNotificationUpdate env groupID senderID s1)

/-- One iteration of the notification loop at the end of `handleGroupChat`. -/
def groupNotifyOne (env : Env) (groupID : Int) (groupName : String) (nickname : String)
    (st : State) (row : Option Int) : State :=
  match row with
  | none => st
  | some memberID =>
    (CreateGroupMessageNotification env memberID groupID groupName nickname st).2

/-- The function `handleGroupChat`, lines 302-325: one notification per other member. -/
def notifyGroupMembers (env : Env) (groupID : Int) (userID : Int) (nickname : String)
    (s : State) : State :=
  let groupName := (env.groupName groupID).getD "Unknown Group"
  match env.notifyMembers groupID userID with
  | none => s
  | some rows => rows.foldl (groupNotifyOne env groupID groupName nickname) s

/-- The function `handleGroupChat`; `data` is `none` when the payload does not decode. -/
def handleGroupChat (env : Env) (conn : ConnPtr) (data : Option GroupChatMessage)
    (s : State) : State :=
  match data with
  | none => s
  | some groupMsg =>
    let c := s.heap conn
    if (c.groups.lookup groupMsg.GroupID).getD false = false then s
    else
      let timestamp := env.timestamp
      let ok := env.insertGroupMessageOk groupMsg.GroupID c.userID groupMsg.Content
      let s1 := emit
        (Event.insertGroupMessage groupMsg.GroupID c.userID groupMsg.Content timestamp ok) s
      if ok then
        let s2 := (UpdateUnreadCounts env groupMsg.GroupID c.userID s1).2
        let response : GroupChatResponse :=
          { Sender := c.nickname, Content := groupMsg.Content,
            Timestamp := timestamp, GroupID := groupMsg.GroupID }
        let s3 := broadcastToGroup env groupMsg.GroupID response s2
        notifyGroupMembers env groupMsg.GroupID c.userID c.nickname s3
      else s1

/-- The function `cleanup`. -/
def cleanup (conn : ConnPtr) (s : State) : State :=
  let c := s.heap conn
  { s with
    userConnections := s.userConnections.erase c.nickname
    groupConnections :=
      c.groups.keys.foldl (fun gc groupID => dropMember gc groupID c.userID)
        s.groupConnections }

/-- The payload of an inbound frame as each handler decodes it (`json.Marshal` of the
envelope's `data` followed by `json.Unmarshal` into the handler's struct); `none` when
either step errs. -/
structure RawData where
  asChat : Option ChatMessage
  asSubscription : Option GroupSubscription
  asGroupChat : Option GroupChatMessage

/-- The `switch wsMsg.Type` of the read loop. -/
def dispatch (env : Env) (connection : ConnPtr) (typ : String) (data : RawData)
    (s : State) : State :=
  if typ = "chat" then handlePrivateChat env connection data.asChat s
  else if typ = "group_subscribe" ∨ typ = "subscribe" then
    handleGroupSubscription env connection data.asSubscription s
  else if typ = "group_unsubscribe" ∨ typ = "unsubscribe" then
    handleGroupUnsubscription connection data.asSubscription s
  else if typ = "group_chat" then handleGroupChat env connection data.asGroupChat s
  else s

/-- The outcome of one `conn.ReadMessage()` of the read loop, with the answers of the
outside world while the frame it returned is handled. -/
inductive Inbound where
  /-- The read errs: the loop breaks. -/
  | readError
  /-- The envelope is not valid JSON: `continue`. -/
  | malformed
  /-- An envelope with its `type` and `data`. -/
  | frame (env : Env) (typ : String) (data : RawData)

/-- The function `UnifiedWebSocketHandler`, lines 127-156: the read loop, then `cleanup`.
The list holds what the successive reads return; when it is used up the loop is
blocked in `ReadMessage`. -/
def readLoop (connection : ConnPtr) : List Inbound → State → State
  | [], s => s
  | Inbound.readError :: _, s => cleanup connection s
  | Inbound.malformed :: rest, s => readLoop connection rest s
  | Inbound.frame env typ data :: rest, s =>
    readLoop connection rest (dispatch env connection typ data s)

/-- The `type` of the frame an event writes, when the event is a write. -/
def Event.writeTyp : Event → Option String
  | Event.write _ m _ => some m.typ
  | _ => none

/-- The event writes no frame, or one whose `type` is among the allowed ones. -/
def Quiet (allowed : List String) (e : Event) : Prop :=
  ∀ ty, e.writeTyp = some ty → ty ∈ allowed

/-- The trace of the second state is that of the first followed by events that all
satisfy `P`. -/
def Ext (P : Event → Prop) (s s' : State) : Prop :=
  ∃ evs, s'.trace = s.trace ++ evs ∧ ∀ e ∈ evs, P e

/-- The writes of frames of the given `type` among the events, in order: the connection
written and the frame. -/
def writesOfType (ty : String) (evs : List Event) : List (ConnPtr × WebSocketMessage) :=
  evs.filterMap (fun e =>
    match e with
    | Event.write c m _ => if m.typ = ty then some (c, m) else none
    | _ => none)

/-- All writes among the events, in order: the connection written and the frame. -/
def writesOf (evs : List Event) : List (ConnPtr × WebSocketMessage) :=
  evs.filterMap (fun e =>
    match e with
    | Event.write c m _ => some (c, m)
    | _ => none)

/-- The events the second trace has after the first. -/
def newEvents (s s' : State) : List Event := s'.trace.drop s.trace.length

/-- One atomic step of the server: a client connects (lines 102-125), one inbound frame
of a live connection is dispatched (lines 136-153), or the read loop of a connection
has ended and `cleanup` runs (line 156). -/
inductive Step : State → State → Prop where
  | connect (env : Env) (s : State) (userID : Int) (nickname : String) :
      Step s (pushPending env (register userID nickname s).1 (register userID nickname s).2)
  | frame (env : Env) (s : State) (c : ConnPtr) (typ : String) (data : RawData) :
      c < s.next → Step s (dispatch env c typ data s)
  | cleanup (s : State) (c : ConnPtr) : c < s.next → Step s (cleanup c s)

/-- The states the server can be in: those reached from `initState` by steps. -/
def Reachable (s : State) : Prop := Relation.ReflTransGen Step initState s

/-- The state with further events appended to its trace and nothing else changed. -/
def addTrace (evs : List Event) (s : State) : State :=
  { s with trace := s.trace ++ evs }

/-- The second state differs from the first only by events appended to the trace. -/
def TraceOnly (s s' : State) : Prop := ∃ evs, s' = addTrace evs s

/-- Every entry of the group table `gc'` is an entry of the group table `gc`. -/
def SubGC (gc' gc : GoMap Int (GoMap Int ConnPtr)) : Prop :=
  ∀ g inner' u c, gc'.lookup g = some inner' → inner'.lookup u = some c →
    ∃ inner, gc.lookup g = some inner ∧ inner.lookup u = some c

/-- After `dropMember` on a group, the user is not in that group's set and the set,
if still in the table, is not empty. -/
def Dropped (u g : Int) (gc : GoMap Int (GoMap Int ConnPtr)) : Prop :=
  ∀ inner, gc.lookup g = some inner → inner.lookup u = none ∧ len inner ≠ 0

/-- The second state has the heap and the allocation of the first, and its group table
has at most the entries of the first. -/
def Shrinks (s s' : State) : Prop :=
  s'.heap = s.heap ∧ s'.next = s.next ∧ SubGC s'.groupConnections s.groupConnections

/-- The invariant of the group table: an entry under (group, user) holds an allocated
connection of that user whose own `groups` lists the group. -/
def Inv (s : State) : Prop :=
  ∀ g inner u c, s.groupConnections.lookup g = some inner → inner.lookup u = some c →
    c < s.next ∧ (s.heap c).userID = u ∧ g ∈ (s.heap c).groups

/-- An environment in which every call succeeds, every user is a member of every group,
and the database holds no users, no group names and no stored messages. -/
def calmEnv : Env :=
  { timestamp := "2025-06-18T14:16:56Z"
    unixTime := 1750256216
    writeOk := fun _ _ => true
    saveMessageOk := fun _ _ _ _ => true
    memberCount := fun _ _ => some 1
    insertGroupMessageOk := fun _ _ _ => true
    recipientID := fun _ => none
    groupName := fun _ => none
    notifyMembers := fun _ _ => some []
    insertNotificationOk := fun _ _ _ _ => true
    txBeginOk := true
    txMembers := fun _ _ => some []
    txUpsertOk := fun _ _ => true
    txCommitOk := true
    updateMembers := fun _ _ => some []
    nicknameOf := fun _ => none
    pendingMessages := fun _ => some [] }

/-- The state after user 1 connected as "ann" (connection 0). -/
def annState : State := (register 1 "ann" initState).2

/-- The state after user 1 connected as "ann" twice: connection 0, then connection 1. -/
def annTwiceState : State := (register 1 "ann" annState).2

/-- The state after "ann" (connection 0) subscribed to group 7. -/
def annInGroupState : State :=
  handleGroupSubscription calmEnv 0 (some { GroupID := 7 }) annState

/-- The environment `calmEnv` with a database that refuses every message insert. -/
def failEnv : Env :=
  { calmEnv with
    saveMessageOk := fun _ _ _ _ => false
    insertGroupMessageOk := fun _ _ _ => false }

/-- The environment `calmEnv` with a database in which nobody is a member of any group. -/
def strangerEnv : Env :=
  { calmEnv with memberCount := fun _ _ => some 0 }

/-- The second trace is the first followed by events whose writes of frames of the given
`type` are exactly `ws`, in order. -/
def Wrote (ty : String) (ws : List (ConnPtr × WebSocketMessage)) (s s' : State) : Prop :=
  ∃ evs, s'.trace = s.trace ++ evs ∧ writesOfType ty evs = ws

/-- The frame `handlePrivateChat` writes to the recipient. -/
def chatFrame (sender : String) (m : ChatMessage) (timestamp : String) : WebSocketMessage :=
  { typ := "chat"
    Data := Payload.chat
      { From := sender, To := m.To, Message := m.Message, Timestamp := timestamp } }

/-- The frame `broadcastToGroup` writes for a group message. -/
def groupChatFrame (message : GroupChatResponse) : WebSocketMessage :=
  { typ := "group_chat", Data := Payload.groupChat message }

/-- The environment `calmEnv` with a database that knows the user "bob" as user 2. -/
def bobEnv : Env :=
  { calmEnv with recipientID := fun n => if n = "bob" then some 2 else none }

/-- The state after "ann" (user 1, connection 0) and "bob" (user 2, connection 1)
connected. -/
def annBobState : State := (register 2 "bob" annState).2

/-- A row of the table `messages` as `database.SaveMessage` writes it; `message_id` is
the key the database assigns. -/
structure MessageRow where
  message_id : Int
  recipient : String
  sender : String
  message : String
  timestamp : String
deriving DecidableEq, Repr

/-- The statement `INSERT INTO messages (recipient, sender, message, timestamp)` of
`database.SaveMessage` when it succeeds: one more row, with the next key. -/
def insertMessage (table : List MessageRow) (recipient sender message timestamp : String) :
    List MessageRow :=
  table ++ [{ message_id := table.length + 1, recipient := recipient, sender := sender,
              message := message, timestamp := timestamp }]

/-- One event applied to the table `messages`: only a `SaveMessage` that returned nil
changes it (nothing in the repository deletes from the table: `MarkMessagesAsDelivered`
is never called). -/
def applyToMessages (table : List MessageRow) (e : Event) : List MessageRow :=
  match e with
  | Event.saveMessage recipient sender message timestamp true =>
    insertMessage table recipient sender message timestamp
  | _ => table

/-- The table `messages` after the events of a trace, from the empty table. -/
def messagesTable (trace : List Event) : List MessageRow :=
  trace.foldl applyToMessages []

/-- The function `database.GetMessagesForUser` on a table that answers:
`SELECT message_id, sender, message, timestamp FROM messages WHERE recipient = ?`. -/
def GetMessagesForUser (table : List MessageRow) (recipient : String) : List Message :=
  (table.filter (fun row => decide (row.recipient = recipient))).map
    (fun row =>
      { MessageID := row.message_id, Sender := row.sender, Message := row.message,
        Timestamp := row.timestamp })

/-- The frame lines 117-123 of `UnifiedWebSocketHandler` build for a stored message. -/
def pendingFrame (nickname : String) (msg : Message) : WebSocketMessage :=
  { typ := "chat"
    Data := Payload.chat
      { From := msg.Sender, To := nickname, Message := msg.Message,
        Timestamp := msg.Timestamp } }

/-- A row of the table `sessions`; `expires_at` is a time in seconds. -/
structure SessionRow where
  session : String
  user_id : Int
  expires_at : Int
deriving DecidableEq, Repr

/-- The function `database.GetUserIDBySession` on a table that answers:
`SELECT user_id FROM sessions WHERE session = ?`, scanned from the first row; `none` is
the error of `Scan` when there is no row. -/
def GetUserIDBySession (sessions : List SessionRow) (sessionID : String) : Option Int :=
  (sessions.find? (fun row => decide (row.session = sessionID))).map (fun row => row.user_id)

/-- What `UnifiedWebSocketHandler` finds outside the registry when a request arrives. -/
structure UpgradeRequest where
  /-- The value of the cookie `session_id`; `none` when `r.Cookie` errs. -/
  cookie : Option String
  /-- The table `sessions`. -/
  sessions : List SessionRow
  /-- The result of `database.GetNickname`; `none` when it errs. -/
  nicknameOf : Int → Option String
  /-- Whether `upgrader.Upgrade` succeeds. -/
  upgradeOk : Bool

/-- How `UnifiedWebSocketHandler` answers the request. -/
inductive Outcome where
  /-- The call `http.Error(w, ..., status)`. -/
  | httpError (status : Nat)
  /-- The upgrade erred: the handler returns. -/
  | upgradeFailed
  /-- The request was upgraded and served as this connection. -/
  | upgraded (connection : ConnPtr)
deriving DecidableEq, Repr

/-- The function `UnifiedWebSocketHandler`: resolve the session (lines 74-87), the
nickname (lines 89-93), upgrade (lines 95-99), register (lines 102-109), push the stored
messages (lines 112-125), then run the read loop on what the connection receives
(lines 127-156). -/
def UnifiedWebSocketHandler (env : Env) (req : UpgradeRequest) (inbound : List Inbound)
    (s : State) : Outcome × State :=
  match req.cookie with
  | none => (Outcome.httpError 401, s)
  | some sessionID =>
    match GetUserIDBySession req.sessions sessionID with
    | none => (Outcome.httpError 401, s)
    | some userID =>
      let nickname := (req.nicknameOf userID).getD "Guest"
      if req.upgradeOk then
        let r := register userID nickname s
        (Outcome.upgraded r.1, readLoop r.1 inbound (pushPending env r.1 r.2))
      else (Outcome.upgradeFailed, s)

/-- The (group, user) pairs for which the membership check of a subscribe command
succeeds while the frame is dispatched: at most one, for a `subscribe` or
`group_subscribe` frame whose payload decodes and whose count is scanned and not 0. -/
def verifiedBy (env : Env) (c : ConnPtr) (typ : String) (data : RawData) (s : State) :
    List (Int × Int) :=
  if typ = "group_subscribe" ∨ typ = "subscribe" then
    match data.asSubscription with
    | none => []
    | some sub =>
      match env.memberCount sub.GroupID (s.heap c).userID with
      | none => []
      | some memberCount =>
        if memberCount = 0 then [] else [(sub.GroupID, (s.heap c).userID)]
  else []

/-- A run of the server from `initState`, with the (group, user) pairs whose membership
check succeeded in a subscribe command along the way. -/
inductive Run : State → List (Int × Int) → Prop where
  | init : Run initState []
  | connect (env : Env) (s : State) (log : List (Int × Int)) (userID : Int)
      (nickname : String) : Run s log →
      Run (pushPending env (register userID nickname s).1 (register userID nickname s).2) log
  | frame (env : Env) (s : State) (log : List (Int × Int)) (c : ConnPtr) (typ : String)
      (data : RawData) : Run s log → c < s.next →
      Run (dispatch env c typ data s) (verifiedBy env c typ data s ++ log)
  | cleanup (s : State) (log : List (Int × Int)) (c : ConnPtr) : Run s log → c < s.next →
      Run (cleanup c s) log

/-- The environment `calmEnv` with sockets on which every write fails. -/
def deafEnv : Env :=
  { calmEnv with writeOk := fun _ _ => false }

/-- The state after "ann" (connection 0) subscribed to group 7 and "bob" (connection 1)
subscribed to groups 7 and 8. -/
def crowdState : State :=
  handleGroupSubscription calmEnv 1 (some { GroupID := 8 })
    (handleGroupSubscription calmEnv 1 (some { GroupID := 7 })
      (handleGroupSubscription calmEnv 0 (some { GroupID := 7 }) annBobState))

/-- The state after "ann" (connection 0), with "bob" (connection 1) connected but not
subscribed, subscribed to group 7. -/
def annSubscribedBobNot : State :=
  handleGroupSubscription calmEnv 0 (some { GroupID := 7 }) annBobState

/-- The environment `calmEnv` with a dead connection 1: every write on it fails. -/
def bobDeafEnv : Env :=
  { calmEnv with writeOk := fun c _ => decide (c ≠ 1) }

/-- The set of a group after the loop of `broadcastToGroup` went over the entries `l`:
the entries whose write failed are deleted. -/
def survivors (env : Env) (message : GroupChatResponse)
    (l : List (Sigma (fun _ : Int => ConnPtr))) (cur : GoMap Int ConnPtr) : GoMap Int ConnPtr :=
  l.foldl
    (fun m e => if env.writeOk e.2 (groupChatFrame message) = true then m else m.erase e.1)
    cur

/-- The events of the loop of `broadcastToGroup` over the entries `l`: one write per
entry, followed by the close of the transport when the write failed. -/
def broadcastEvents (env : Env) (message : GroupChatResponse)
    (l : List (Sigma (fun _ : Int => ConnPtr))) : List Event :=
  l.flatMap (fun e =>
    if env.writeOk e.2 (groupChatFrame message) = true then
      [Event.write e.2 (groupChatFrame message) true]
    else
      [Event.write e.2 (groupChatFrame message) false, Event.close e.2])

/-- The environment `base` with a database whose table `messages` is the one the trace
has produced. -/
def dbEnv (base : Env) (trace : List Event) : Env :=
  { base with
    pendingMessages := fun recipient =>
      some (GetMessagesForUser (messagesTable trace) recipient) }

/-- The events lines 112-125 of `UnifiedWebSocketHandler` produce for the stored
messages `msgs` of `nickname`: one write of a chat frame per message, in order. -/
def pendingWrites (env : Env) (connection : ConnPtr) (nickname : String)
    (msgs : List Message) : List Event :=
  msgs.map (fun msg =>
    Event.write connection (pendingFrame nickname msg)
      (env.writeOk connection (pendingFrame nickname msg)))

/-- The state after "ann" sent the chat "hi" to the connected "bob", who received it
live. -/
def deliveredState : State :=
  handlePrivateChat calmEnv 0 (some { To := "bob", Message := "hi" }) annBobState

/-- The state after "bob", having received the chat live, disconnected. -/
def bobGoneState : State := cleanup 1 deliveredState

/-- The frame `BroadcastNotificationToUser` writes. -/
def notificationFrame (env : Env) (notificationType : String) (message : String)
    (relatedID : Option Int) : WebSocketMessage :=
  { typ := "notification"
    Data := Payload.notification notificationType message relatedID env.unixTime }

/-- The registered connections that `BroadcastNotificationToUser` picks for a user: the
first entry of the identity table whose connection has that `userID`, if any. -/
def notificationTarget (s : State) (userID : Int) : Option ConnPtr :=
  (s.userConnections.entries.find? (fun e => decide ((s.heap e.2).userID = userID))).map
    (fun e => e.2)

/-- A request with the cookie "tok" for a table `sessions` whose only row gives "tok"
to user 2 and expired at time 100; the nickname of every user is "bob" and the upgrade
succeeds. -/
def staleRequest : UpgradeRequest :=
  { cookie := some "tok"
    sessions := [{ session := "tok", user_id := 2, expires_at := 100 }]
    nicknameOf := fun _ => some "bob"
    upgradeOk := true }

/-- The frame types the `switch` of the read loop knows. -/
def knownTypes : List String :=
  ["chat", "group_subscribe", "subscribe", "group_unsubscribe", "unsubscribe", "group_chat"]

/-- The frame is one the dispatcher skips: its type is unknown, or its payload does not
decode into the structure of its type. -/
def Skipped (typ : String) (data : RawData) : Prop :=
  typ ∉ knownTypes ∨
  (typ = "chat" ∧ data.asChat = none) ∨
  ((typ = "group_subscribe" ∨ typ = "subscribe" ∨ typ = "group_unsubscribe" ∨
      typ = "unsubscribe") ∧ data.asSubscription = none) ∨
  (typ = "group_chat" ∧ data.asGroupChat = none)

/-- The pattern shared by the server-push functions: write the frame on `conn` and, when
the write errs, `delete(userConnections, nickname)`. -/
def writeOrDrop (env : Env) (nickname : String) (conn : ConnPtr) (m : WebSocketMessage)
    (s : State) : State :=
  let r := writeJSON env conn m s
  if r.1 then r.2
  else { r.2 with userConnections := r.2.userConnections.erase nickname }

/-- The function `NotifyFollowStatusUpdate`. -/
def NotifyFollowStatusUpdate (env : Env) (nickname : String) (status : String) (s : State) :
    State :=
  match s.userConnections.lookup nickname with
  | none => s
  | some conn =>
    writeOrDrop env nickname conn
      { typ := "follow_status_update", Data := Payload.followStatus status } s

/-- The function `BroadcastRequestUpdate`. -/
def BroadcastRequestUpdate (env : Env) (nickname : String) (requestType : String)
    (s : State) : State :=
  match s.userConnections.lookup nickname with
  | none => s
  | some conn =>
    writeOrDrop env nickname conn { typ := requestType, Data := Payload.requestUpdate } s

/-- The frame `BroadcastUserListUpdate` writes. -/
def userListFrame : WebSocketMessage :=
  { typ := "user_list_update", Data := Payload.userListUpdate }

/-- The function `BroadcastUserListUpdate`: range over the identity table. -/
def BroadcastUserListUpdate (env : Env) (s : State) : State :=
  s.userConnections.entries.foldl (fun st e => writeOrDrop env e.1 e.2 userListFrame st) s

/-- A Go map after a loop over the entries `l` that deletes the key of every entry
whose value fails the test. -/
def keepOk {K V : Type} [DecidableEq K] (ok : V → Bool) (l : List (Sigma (fun _ : K => V)))
    (cur : GoMap K V) : GoMap K V :=
  l.foldl (fun m e => if ok e.2 = true then m else m.erase e.1) cur

/-- The struct `sessions.Session`; `ExpiresAt` is a time in seconds. -/
structure Session where
  ID : String
  UserID : Int
  ExpiresAt : Int
deriving DecidableEq, Repr

/-- What the database answers to the statements the session resolver sends. -/
structure ResolverOutcome where
  /-- The error of the query of `GetSession`, or of its `Scan`, other than the absence
  of a row; `none` when the query runs and the row, if any, is scanned. -/
  queryError : Option String
  /-- Whether the `DELETE` of `DeleteSession` succeeds. -/
  deleteOk : Bool

/-- The method `SessionStore.GetSession`:
`SELECT session, user_id, expires_at FROM sessions WHERE session = ?`, scanned from the
first row.  Any error of the query or of `Scan` is returned, also when the row is
stored; without such an error `Scan` errs exactly for want of a row. -/
def GetSession (queryError : Option String) (store : List SessionRow) (sessionID : String) :
    Except String Session :=
  match queryError with
  | some e => Except.error e
  | none =>
    match store.find? (fun row => decide (row.session = sessionID)) with
    | none => Except.error "sql: no rows in result set"
    | some row =>
      Except.ok { ID := row.session, UserID := row.user_id, ExpiresAt := row.expires_at }

/-- The method `SessionStore.DeleteSession`: `DELETE FROM sessions WHERE session = ?`.
The result is whether the error is nil, and the table after the statement, which is
unchanged when the statement errs. -/
def DeleteSession (deleteOk : Bool) (store : List SessionRow) (sessionID : String) :
    Bool × List SessionRow :=
  if deleteOk then (true, store.filter (fun row => decide (row.session ≠ sessionID)))
  else (false, store)

/-- A Go result `(int, error)`; `err` is `none` for a nil error. -/
structure IntResult where
  value : Int
  err : Option String
deriving DecidableEq, Repr

/-- The function `sessions.GetUserIDFromSession` (lines 107-125): `cookie` is the value
of the cookie `session_id`, `none` when `r.Cookie` errs; `now` is `time.Now()`.  Every
error of `GetSession` becomes "invalid session"; the error of `DeleteSession` is not
looked at (line 120). -/
def GetUserIDFromSession (o : ResolverOutcome) (cookie : Option String) (now : Int)
    (store : List SessionRow) : IntResult × List SessionRow :=
  match cookie with
  | none => ({ value := -1, err := some "http: named cookie not present" }, store)
  | some value =>
    match GetSession o.queryError store value with
    | Except.error _ => ({ value := -1, err := some "invalid session" }, store)
    | Except.ok session =>
      if now > session.ExpiresAt then
        ({ value := -1, err := some "session expired" },
          (DeleteSession o.deleteOk store session.ID).2)
      else ({ value := session.UserID, err := none }, store)

/-- The method `SessionStore.GetUserIDFromSession` (lines 28-47): as the function, but
the error of `GetSession` is returned as it is; the error of `DeleteSession` is not
looked at (line 42). -/
def SessionStore_GetUserIDFromSession (o : ResolverOutcome) (cookie : Option String)
    (now : Int) (store : List SessionRow) : IntResult × List SessionRow :=
  match cookie with
  | none => ({ value := -1, err := some "http: named cookie not present" }, store)
  | some value =>
    match GetSession o.queryError store value with
    | Except.error e => ({ value := -1, err := some e }, store)
    | Except.ok session =>
      if now > session.ExpiresAt then
        ({ value := -1, err := some "session expired" },
          (DeleteSession o.deleteOk store session.ID).2)
      else ({ value := session.UserID, err := none }, store)

/-- Whether each statement `CreateSession` may send to the store succeeds. -/
structure StoreOutcome where
  /-- The first `InsertSession`. -/
  firstInsertOk : Bool
  /-- The call `DeleteSessionsByUserID`. -/
  deleteOk : Bool
  /-- The second `InsertSession`. -/
  retryInsertOk : Bool

/-- The method `SessionStore.InsertSession`: the table after the statement, which is
one row longer when the statement succeeds. -/
def InsertSession (ok : Bool) (store : List SessionRow) (id : String) (userID : Int)
    (expiresAt : Int) : List SessionRow :=
  if ok then store ++ [{ session := id, user_id := userID, expires_at := expiresAt }]
  else store

/-- The method `SessionStore.DeleteSessionsByUserID`: the table after
`DELETE FROM sessions WHERE user_id = ?`, unchanged when the statement errs. -/
def DeleteSessionsByUserID (ok : Bool) (store : List SessionRow) (userID : Int) :
    List SessionRow :=
  if ok then store.filter (fun row => decide (row.user_id ≠ userID)) else store

/-- A Go result `(*Session, error)`: `session` is `none` for a nil pointer, `failed` is
true for a non-nil error. -/
structure SessionResult where
  session : Option Session
  failed : Bool
deriving DecidableEq, Repr

/-- The method `SessionStore.CreateSession` (lines 49-75): `id` is the fresh uuid, `now`
is `time.Now()` in seconds, so that 24 hours are 86400. -/
def CreateSession (id : String) (now : Int) (o : StoreOutcome) (userID : Int)
    (store : List SessionRow) : SessionResult × List SessionRow :=
  let expiresAt := now + 24 * 3600
  let store1 := InsertSession o.firstInsertOk store id userID expiresAt
  if o.firstInsertOk then
    ({ session := some { ID := id, UserID := userID, ExpiresAt := expiresAt },
       failed := false }, store1)
  else
    let store2 := DeleteSessionsByUserID o.deleteOk store1 userID
    if o.deleteOk then
      let store3 := InsertSession o.retryInsertOk store2 id userID expiresAt
      if o.retryInsertOk then ({ session := none, failed := false }, store3)
      else ({ session := none, failed := true }, store3)
    else ({ session := none, failed := true }, store2)

/-- The unread counter of (group, user) that the committed increments of a trace add
up to, a missing row counting as 0. -/
def unreadCount (trace : List Event) (groupID : Int) (userID : Int) : Nat :=
  trace.count (Event.unreadIncrement groupID userID)

/-- The environment `calmEnv` with a group whose other members are the users 2 and 3,
and a database that refuses the counter update of user 3. -/
def flakyEnv : Env :=
  { calmEnv with
    txMembers := fun _ _ => some [some 2, some 3]
    txUpsertOk := fun _ u => decide (u ≠ 3) }

/-- The chat frames one dispatched frame of the connection `S` delivers in the state
`s`: for a chat frame that decodes and persists, the frame for the connection
registered under `To`, if any. -/
def chatDeliveries (env : Env) (S : ConnPtr) (typ : String) (data : RawData) (s : State) :
    List (ConnPtr × WebSocketMessage) :=
  if typ = "chat" then
    match data.asChat with
    | none => []
    | some m =>
      if env.saveMessageOk m.To (s.heap S).nickname m.Message env.timestamp = true then
        (s.userConnections.lookup m.To).toList.map
          (fun R => (R, chatFrame (s.heap S).nickname m env.timestamp))
      else []
  else []

/-- The sequence the ordering guarantee promises for the inbound frames of `S`, in
arrival order up to the read error: the chat frames that persisted, each for the
connection registered under its addressee in `s`. -/
def persistedChatsInOrder (S : ConnPtr) (s : State) :
    List Inbound → List (ConnPtr × WebSocketMessage)
  | [] => []
  | Inbound.readError :: _ => []
  | Inbound.malformed :: rest => persistedChatsInOrder S s rest
  | Inbound.frame env typ data :: rest =>
    chatDeliveries env S typ data s ++ persistedChatsInOrder S s rest

/-- Every write succeeds while the frames of the list are handled. -/
def WritesSucceed : List Inbound → Prop
  | [] => True
  | Inbound.frame env _ _ :: rest => (∀ c m, env.writeOk c m = true) ∧ WritesSucceed rest
  | Inbound.readError :: rest => WritesSucceed rest
  | Inbound.malformed :: rest => WritesSucceed rest

/-- The state after user 1 connected twice as "ann" (connections 0 and 1) and both
connections subscribed to group 7, connection 0 first. -/
def twoTabsState : State :=
  handleGroupSubscription calmEnv 1 (some { GroupID := 7 })
    (handleGroupSubscription calmEnv 0 (some { GroupID := 7 }) annTwiceState)

/-- The environment `calmEnv` with a dead connection 0: every write on it fails. -/
def annDeafEnv : Env :=
  { calmEnv with writeOk := fun c _ => decide (c ≠ 0) }

/-- The contract of a session resolver `f` taking the answers of the database, the
cookie, the current time and the table `sessions`, stated on the rows of the table.  The
row of a token `v` is the first row of the table whose `session` is `v`.  The resolver
errs, with value -1, exactly when the cookie is missing, the query or its scan errs, no
row of the table has the token, or the current time is after the `expires_at` of the row
of the token.  When the query runs and the row of the token is not expired, the result
is the `user_id` of that row with a nil error and the table is unchanged; so it is for
any row with the token when no other row has it.  When the query runs and the row of
the token is expired, the table afterwards is the table without the rows of the token
if the `DELETE` succeeds, and the table as it was if the `DELETE` errs.  In every other
case the table is unchanged. -/
def ResolvesSessions
    (f : ResolverOutcome → Option String → Int → List SessionRow →
      IntResult × List SessionRow) : Prop :=
  ∀ (o : ResolverOutcome) (cookie : Option String) (now : Int) (store : List SessionRow),
    (((f o cookie now store).1.err ≠ none) ↔
      (cookie = none ∨
        ∃ v, cookie = some v ∧
          (o.queryError ≠ none ∨ (∀ row ∈ store, row.session ≠ v) ∨
            ∃ row, store.find? (fun r => decide (r.session = v)) = some row ∧
              now > row.expires_at))) ∧
    ((f o cookie now store).1.err ≠ none → (f o cookie now store).1.value = -1) ∧
    (∀ v row, cookie = some v → o.queryError = none →
      store.find? (fun r => decide (r.session = v)) = some row → ¬ now > row.expires_at →
        f o cookie now store = ({ value := row.user_id, err := none }, store)) ∧
    (∀ v row, cookie = some v → o.queryError = none → row ∈ store → row.session = v →
      (∀ r ∈ store, r.session = v → r = row) → ¬ now > row.expires_at →
        f o cookie now store = ({ value := row.user_id, err := none }, store)) ∧
    (∀ v row, cookie = some v → o.queryError = none →
      store.find? (fun r => decide (r.session = v)) = some row → now > row.expires_at →
        (f o cookie now store).2
          = (if o.deleteOk = true then store.filter (fun r => decide (r.session ≠ v))
             else store) ∧
        (o.deleteOk = true → ∀ r ∈ (f o cookie now store).2, r.session ≠ v)) ∧
    ((¬ ∃ v row, cookie = some v ∧ o.queryError = none ∧
        store.find? (fun r => decide (r.session = v)) = some row ∧ now > row.expires_at) →
      (f o cookie now store).2 = store)

/-- The event is a write on a connection. -/
def IsWrite (e : Event) : Prop := ∃ c m ok, e = Event.write c m ok

/-- The frames of two chats that "ann" sends to "bob", both handled by a database that
knows "bob" as user 2. -/
def twoChats : List Inbound :=
  [Inbound.frame bobEnv "chat"
      { asChat := some { To := "bob", Message := "one" }, asSubscription := none,
        asGroupChat := none },
   Inbound.frame bobEnv "chat"
      { asChat := some { To := "bob", Message := "two" }, asSubscription := none,
        asGroupChat := none }]

/-- An inbound frame of type "subscribe" for group 7, handled by `calmEnv`. -/
def subscribeSeven : Inbound :=
  Inbound.frame calmEnv "subscribe"
    { asChat := none, asSubscription := some { GroupID := 7 }, asGroupChat := none }

/-- The events lines 193-202 of `handlePrivateChat` produce for a persisted chat of
`nickname` in the state `s`: nothing when the table `users` has no row for `To`;
otherwise the insert of the "new_message" notification for that user id and, when the
insert succeeded, one write of the notification frame on the connection picked for that
user id, if any. -/
def recipientNotification (env : Env) (s : State) (nickname : String) (m : ChatMessage) :
    List Event :=
  match env.recipientID m.To with
  | none => []
  | some recipientID =>
    Event.insertNotification recipientID "new_message"
        (nickname ++ " sent you a new message") none
        (env.insertNotificationOk recipientID "new_message"
          (nickname ++ " sent you a new message") none) ::
      (if env.insertNotificationOk recipientID "new_message"
          (nickname ++ " sent you a new message") none = true then
        (notificationTarget s recipientID).toList.map (fun c =>
          Event.write c
            (notificationFrame env "new_message" (nickname ++ " sent you a new message") none)
            (env.writeOk c
              (notificationFrame env "new_message" (nickname ++ " sent you a new message")
                none)))
      else [])

/-- The state after "ann", the only connected user, sent the chat "hi" to "bob", who is
offline: the message is stored and nothing is written. -/
def offlineChatState : State :=
  handlePrivateChat calmEnv 0 (some { To := "bob", Message := "hi" }) annState

/-- The state when "bob" has connected to `offlineChatState` and been registered as
connection 1 (line 109), and, before his handler reaches line 112, the handler of "ann"
has dispatched her chat "live" to "bob". -/
def liveBeforeBacklog : State :=
  handlePrivateChat calmEnv 0 (some { To := "bob", Message := "live" })
    (register 2 "bob" offlineChatState).2

/-- A row of the table `group_members`. -/
structure MemberRow where
  group_id : Int
  user_id : Int
deriving DecidableEq, Repr

/-- The member query of `UpdateUnreadCounts` on a table `group_members`:
`SELECT user_id FROM group_members WHERE group_id = ? AND user_id != ?`. -/
def otherMembers (table : List MemberRow) (groupID : Int) (senderID : Int) : List Int :=
  (table.filter (fun row => decide (row.group_id = groupID ∧ row.user_id ≠ senderID))).map
    (fun row => row.user_id)

/-- The rows the loop `rows.Next` / `rows.Scan` of `UpdateUnreadCounts` sees for the
result `result` of the member query: one per row of the result, in order, `none` where
`Scan` errs and the user id of the row where it does not. -/
def Scanned (rows : List (Option Int)) (result : List Int) : Prop :=
  List.Forall₂ (fun row userID => row = none ∨ row = some userID) rows result

/-- A table `group_members` with the users 1, 2 and 3 in group 7 and the user 4 in
group 8. -/
def groupSevenTable : List MemberRow :=
  [{ group_id := 7, user_id := 1 }, { group_id := 7, user_id := 2 },
   { group_id := 7, user_id := 3 }, { group_id := 8, user_id := 4 }]

/-! ## Go maps -/

theorem dlookup_kreplace {K V : Type} [DecidableEq K] (l : List (Sigma (fun _ : K => V)))
    (k k' : K) (v : V) :
    List.dlookup k' (List.kreplace k v l) =
      if k' = k then (List.dlookup k l).map (fun _ => v) else List.dlookup k' l := by
  induction l with
  | nil => simp [List.kreplace]
  | cons hd tl ih =>
    obtain ⟨a, b⟩ := hd
    by_cases h : k = a
    · subst h
      have e : List.kreplace k v (⟨k, b⟩ :: tl) = ⟨k, v⟩ :: tl := by
        unfold List.kreplace
        exact List.lookmap_cons_some _ _ (by simp)
      rw [e]
      by_cases h2 : k' = k
      · subst h2; simp
      · simp [h2, List.dlookup_cons_ne]
    · have e : List.kreplace k v (⟨a, b⟩ :: tl) = ⟨a, b⟩ :: List.kreplace k v tl := by
        unfold List.kreplace
        exact List.lookmap_cons_none _ _ (by simp [h])
      rw [e]
      by_cases h2 : k' = a
      · subst h2
        have h3 : ¬ k' = k := fun h' => h h'.symm
        simp [h3]
      · have e1 : ∀ L : List (Sigma (fun _ : K => V)),
            List.dlookup k' (⟨a, b⟩ :: L) = List.dlookup k' L :=
          fun L => List.dlookup_cons_ne L ⟨a, b⟩ h2
        have e2 : List.dlookup k (⟨a, b⟩ :: tl) = List.dlookup k tl :=
          List.dlookup_cons_ne tl ⟨a, b⟩ h
        rw [e1, e1, e2, ih]

theorem lookup_replace {K V : Type} [DecidableEq K] (m : GoMap K V) (k k' : K) (v : V) :
    (m.replace k v).lookup k' =
      if k' = k then (m.lookup k).map (fun _ => v) else m.lookup k' :=
  dlookup_kreplace m.entries k k' v

theorem lookup_replace_self {K V : Type} [DecidableEq K] (m : GoMap K V) (k : K) (v : V) :
    (m.replace k v).lookup k = (m.lookup k).map (fun _ => v) := by
  simp [lookup_replace]

theorem lookup_replace_ne {K V : Type} [DecidableEq K] (m : GoMap K V) {k k' : K} (v : V)
    (h : k' ≠ k) : (m.replace k v).lookup k' = m.lookup k' := by
  simp [lookup_replace, h]

theorem lookup_erase_eq {K V : Type} [DecidableEq K] (m : GoMap K V) (k k' : K) :
    (m.erase k).lookup k' = if k' = k then none else m.lookup k' := by
  by_cases h : k' = k
  · subst h; simp [AList.lookup_erase]
  · simp [h, AList.lookup_erase_ne h]

theorem lookup_insert_eq {K V : Type} [DecidableEq K] (m : GoMap K V) (k k' : K) (v : V) :
    (m.insert k v).lookup k' = if k' = k then some v else m.lookup k' := by
  by_cases h : k' = k
  · subst h; simp [AList.lookup_insert]
  · simp [h, AList.lookup_insert_ne h]

theorem len_eq_zero {K V : Type} (m : GoMap K V) : len m = 0 ↔ m = ∅ := by
  unfold len
  constructor
  · intro h
    apply AList.ext
    simpa using h
  · intro h
    subst h
    rfl

theorem lookup_of_len_zero {K V : Type} [DecidableEq K] (m : GoMap K V) (h : len m = 0)
    (k : K) : m.lookup k = none := by
  rw [(len_eq_zero m).1 h]
  exact AList.lookup_empty k

theorem len_pos_of_lookup {K V : Type} [DecidableEq K] (m : GoMap K V) {k : K} {v : V}
    (h : m.lookup k = some v) : len m ≠ 0 := by
  intro h0
  rw [lookup_of_len_zero m h0 k] at h
  exact Option.noConfusion h

/-! ## The group table -/

theorem innerOf_of_lookup {gc : GoMap Int (GoMap Int ConnPtr)} {g : Int}
    {inner : GoMap Int ConnPtr} (h : gc.lookup g = some inner) : innerOf gc g = inner := by
  simp [innerOf, h]

theorem innerOf_of_none {gc : GoMap Int (GoMap Int ConnPtr)} {g : Int}
    (h : gc.lookup g = none) : innerOf gc g = ∅ := by
  simp [innerOf, h]

/-- The group table after `dropMember`, read key by key. -/
theorem lookup_dropMember (gc : GoMap Int (GoMap Int ConnPtr)) (g u g' : Int) :
    (dropMember gc g u).lookup g' =
      if g' = g then
        (match gc.lookup g with
          | none => none
          | some inner => if len (inner.erase u) = 0 then none else some (inner.erase u))
      else gc.lookup g' := by
  unfold dropMember
  cases hg : gc.lookup g with
  | none =>
    by_cases h : g' = g
    · subst h; simp [hg]
    · simp [h]
  | some inner =>
    have hin : innerOf (gc.replace g (inner.erase u)) g = inner.erase u := by
      apply innerOf_of_lookup
      rw [lookup_replace_self, hg]
      rfl
    simp only [hin]
    by_cases hl : len (inner.erase u) = 0
    · simp only [hl, if_true]
      rw [lookup_erase_eq]
      by_cases h : g' = g
      · simp [h]
      · simp [h, lookup_replace_ne]
    · simp only [hl, if_false]
      rw [lookup_replace]
      by_cases h : g' = g
      · simp [h, hg]
      · simp [h]

theorem subGC_refl (gc : GoMap Int (GoMap Int ConnPtr)) : SubGC gc gc :=
  fun _ inner _ _ h1 h2 => ⟨inner, h1, h2⟩

theorem subGC_trans {a b c : GoMap Int (GoMap Int ConnPtr)} (h1 : SubGC a b)
    (h2 : SubGC b c) : SubGC a c := by
  intro g inner u p hg hu
  obtain ⟨inner1, hg1, hu1⟩ := h1 g inner u p hg hu
  exact h2 g inner1 u p hg1 hu1

theorem subGC_dropMember (gc : GoMap Int (GoMap Int ConnPtr)) (g u : Int) :
    SubGC (dropMember gc g u) gc := by
  intro g' inner' u' c hg hu
  rw [lookup_dropMember] at hg
  by_cases h : g' = g
  · subst h
    simp only [if_true] at hg
    cases hgc : gc.lookup g' with
    | none => simp [hgc] at hg
    | some inner =>
      simp only [hgc] at hg
      by_cases hl : len (inner.erase u) = 0
      · simp [hl] at hg
      · simp only [hl, if_false, Option.some.injEq] at hg
        subst hg
        rw [lookup_erase_eq] at hu
        by_cases hu' : u' = u
        · simp [hu'] at hu
        · simp only [hu', if_false] at hu
          exact ⟨inner, rfl, hu⟩
  · simp only [h, if_false] at hg
    exact ⟨inner', hg, hu⟩

/-- The group table after an in-place delete of one user from one group's set. -/
theorem subGC_replace_erase (gc : GoMap Int (GoMap Int ConnPtr)) (g u : Int) :
    SubGC (gc.replace g ((innerOf gc g).erase u)) gc := by
  intro g' inner' u' c hg hu
  rw [lookup_replace] at hg
  by_cases h : g' = g
  · subst h
    simp only [if_true] at hg
    cases hgc : gc.lookup g' with
    | none => simp [hgc] at hg
    | some inner =>
      rw [innerOf_of_lookup hgc] at hg
      simp only [hgc, Option.map_some', Option.some.injEq] at hg
      subst hg
      rw [lookup_erase_eq] at hu
      by_cases hu' : u' = u
      · simp [hu'] at hu
      · simp only [hu', if_false] at hu
        exact ⟨inner, rfl, hu⟩
  · simp only [h, if_false] at hg
    exact ⟨inner', hg, hu⟩

theorem subGC_foldl_dropMember (u : Int) (l : List Int) (gc : GoMap Int (GoMap Int ConnPtr)) :
    SubGC (l.foldl (fun gc groupID => dropMember gc groupID u) gc) gc := by
  induction l generalizing gc with
  | nil => exact subGC_refl gc
  | cons g tl ih =>
    simp only [List.foldl_cons]
    exact subGC_trans (ih (dropMember gc g u)) (subGC_dropMember gc g u)

theorem dropped_dropMember (gc : GoMap Int (GoMap Int ConnPtr)) (g u : Int) :
    Dropped u g (dropMember gc g u) := by
  intro inner hg
  rw [lookup_dropMember] at hg
  simp only [if_true] at hg
  cases hgc : gc.lookup g with
  | none => simp [hgc] at hg
  | some inner0 =>
    simp only [hgc] at hg
    by_cases hl : len (inner0.erase u) = 0
    · simp [hl] at hg
    · simp only [hl, if_false, Option.some.injEq] at hg
      subst hg
      exact ⟨AList.lookup_erase u inner0, hl⟩

theorem dropped_preserved (gc : GoMap Int (GoMap Int ConnPtr)) (g g' u : Int)
    (h : Dropped u g gc) : Dropped u g (dropMember gc g' u) := by
  by_cases hg : g = g'
  · subst hg; exact dropped_dropMember gc g u
  · intro inner hl
    rw [lookup_dropMember] at hl
    simp only [hg, if_false] at hl
    exact h inner hl

theorem dropped_foldl_preserved (u g : Int) (l : List Int)
    (gc : GoMap Int (GoMap Int ConnPtr)) (h : Dropped u g gc) :
    Dropped u g (l.foldl (fun gc groupID => dropMember gc groupID u) gc) := by
  induction l generalizing gc with
  | nil => exact h
  | cons g' tl ih =>
    simp only [List.foldl_cons]
    exact ih _ (dropped_preserved gc g g' u h)

theorem dropped_foldl (u g : Int) (l : List Int) (gc : GoMap Int (GoMap Int ConnPtr))
    (hg : g ∈ l) : Dropped u g (l.foldl (fun gc groupID => dropMember gc groupID u) gc) := by
  induction l generalizing gc with
  | nil => simp at hg
  | cons g' tl ih =>
    simp only [List.foldl_cons]
    by_cases h : g = g'
    · subst h
      exact dropped_foldl_preserved u g tl _ (dropped_dropMember gc g u)
    · have : g ∈ tl := by
        rcases List.mem_cons.1 hg with h1 | h1
        · exact absurd h1 h
        · exact h1
      exact ih _ this

/-! ## Steps that only extend the trace -/

theorem traceOnly_refl (s : State) : TraceOnly s s :=
  ⟨[], by simp [addTrace]⟩

theorem traceOnly_trans {a b c : State} (h1 : TraceOnly a b) (h2 : TraceOnly b c) :
    TraceOnly a c := by
  obtain ⟨e1, rfl⟩ := h1
  obtain ⟨e2, rfl⟩ := h2
  exact ⟨e1 ++ e2, by simp [addTrace, List.append_assoc]⟩

theorem traceOnly_emit (e : Event) (s : State) : TraceOnly s (emit e s) :=
  ⟨[e], rfl⟩

theorem traceOnly_writeJSON (env : Env) (c : ConnPtr) (m : WebSocketMessage) (s : State) :
    TraceOnly s (writeJSON env c m s).2 :=
  traceOnly_emit _ s

theorem traceOnly_foldl {α : Type} (f : State → α → State)
    (hf : ∀ st a, TraceOnly st (f st a)) (l : List α) (s : State) :
    TraceOnly s (l.foldl f s) := by
  induction l generalizing s with
  | nil => exact traceOnly_refl s
  | cons a tl ih => exact traceOnly_trans (hf s a) (ih (f s a))

theorem traceOnly_pushPending (env : Env) (c : ConnPtr) (s : State) :
    TraceOnly s (pushPending env c s) := by
  unfold pushPending
  cases env.pendingMessages (s.heap c).nickname with
  | none => exact traceOnly_refl s
  | some l => exact traceOnly_foldl _ (fun st _ => traceOnly_writeJSON env c _ st) l s

theorem traceOnly_BroadcastNotificationToUser (env : Env) (userID : Int) (ty msg : String)
    (rel : Option Int) (s : State) :
    TraceOnly s (BroadcastNotificationToUser env userID ty msg rel s) := by
  unfold BroadcastNotificationToUser
  split
  · exact traceOnly_refl s
  · exact traceOnly_writeJSON env _ _ s

theorem traceOnly_CreateNotification (env : Env) (userID : Int) (ty msg : String)
    (rel : Option Int) (s : State) :
    TraceOnly s (CreateNotification env userID ty msg rel s).2 := by
  unfold CreateNotification
  by_cases h : env.insertNotificationOk userID ty msg rel = true
  · simp only [h, if_true]
    exact traceOnly_trans (traceOnly_emit _ s) (traceOnly_BroadcastNotificationToUser _ _ _ _ _ _)
  · simp only [h]
    exact traceOnly_emit _ s

theorem traceOnly_deliverChat (env : Env) (nickname : String) (chatMsg : ChatMessage)
    (timestamp : String) (s : State) :
    TraceOnly s (deliverChat env nickname chatMsg timestamp s) := by
  unfold deliverChat
  split
  · exact traceOnly_writeJSON _ _ _ _
  · exact traceOnly_refl _

theorem traceOnly_notifyRecipient (env : Env) (nickname : String) (chatMsg : ChatMessage)
    (s : State) : TraceOnly s (notifyRecipient env nickname chatMsg s) := by
  unfold notifyRecipient
  split
  · exact traceOnly_refl _
  · exact traceOnly_CreateNotification _ _ _ _ _ _

theorem traceOnly_handlePrivateChat (env : Env) (conn : ConnPtr) (data : Option ChatMessage)
    (s : State) : TraceOnly s (handlePrivateChat env conn data s) := by
  unfold handlePrivateChat
  cases data with
  | none => exact traceOnly_refl s
  | some chatMsg =>
    simp only
    split
    · exact traceOnly_trans (traceOnly_emit _ s)
        (traceOnly_trans (traceOnly_deliverChat _ _ _ _ _) (traceOnly_notifyRecipient _ _ _ _))
    · exact traceOnly_emit _ s

/-! ## Steps that keep the heap and only delete from the group table -/

theorem shrinks_refl (s : State) : Shrinks s s :=
  ⟨rfl, rfl, subGC_refl _⟩

theorem shrinks_trans {a b c : State} (h1 : Shrinks a b) (h2 : Shrinks b c) : Shrinks a c :=
  ⟨h2.1.trans h1.1, h2.2.1.trans h1.2.1, subGC_trans h2.2.2 h1.2.2⟩

theorem shrinks_of_traceOnly {s s' : State} (h : TraceOnly s s') : Shrinks s s' := by
  obtain ⟨evs, rfl⟩ := h
  exact ⟨rfl, rfl, subGC_refl _⟩

theorem shrinks_foldl {α : Type} (f : State → α → State)
    (hf : ∀ st a, Shrinks st (f st a)) (l : List α) (s : State) :
    Shrinks s (l.foldl f s) := by
  induction l generalizing s with
  | nil => exact shrinks_refl s
  | cons a tl ih => exact shrinks_trans (hf s a) (ih (f s a))

theorem shrinks_broadcastOne (env : Env) (g : Int) (msg : GroupChatResponse) (st : State)
    (e : Sigma (fun _ : Int => ConnPtr)) : Shrinks st (broadcastOne env g msg st e) := by
  unfold broadcastOne
  by_cases h : env.writeOk e.2 { typ := "group_chat", Data := Payload.groupChat msg } = true
  · simp only [writeJSON, h, if_true]
    exact shrinks_of_traceOnly (traceOnly_emit _ st)
  · simp only [writeJSON, h]
    exact ⟨rfl, rfl, subGC_replace_erase st.groupConnections g e.1⟩

theorem shrinks_broadcastToGroup (env : Env) (g : Int) (msg : GroupChatResponse) (s : State) :
    Shrinks s (broadcastToGroup env g msg s) := by
  unfold broadcastToGroup
  split
  · exact shrinks_refl s
  · exact shrinks_foldl _ (shrinks_broadcastOne env g msg) _ s

theorem shrinks_notificationUpdateOne (env : Env) (g : Int) (st : State) (row : Option Int) :
    Shrinks st (notificationUpdateOne env g st row) := by
  unfold notificationUpdateOne
  split
  · exact shrinks_refl st
  · split
    · exact shrinks_refl st
    · split
      · exact shrinks_refl st
      · rename_i conn _
        by_cases h : env.writeOk conn
            { typ := "notification_update", Data := Payload.notificationUpdate g } = true
        · simp only [writeJSON, h, if_true]
          exact shrinks_of_traceOnly (traceOnly_emit _ st)
        · simp only [writeJSON, h]
          exact ⟨rfl, rfl, subGC_refl _⟩

theorem shrinks_BroadcastNotificationUpdate (env : Env) (g sender : Int) (s : State) :
    Shrinks s (BroadcastNotificationUpdate env g sender s) := by
  unfold BroadcastNotificationUpdate
  split
  · exact shrinks_refl s
  · exact shrinks_foldl _ (shrinks_notificationUpdateOne env g) _ s

theorem shrinks_UpdateUnreadCounts (env : Env) (g sender : Int) (s : State) :
    Shrinks s (UpdateUnreadCounts env g sender s).2 := by
  unfold UpdateUnreadCounts
  split
  · exact shrinks_refl s
  · split
    · exact shrinks_refl s
    · split
      · exact shrinks_refl s
      · refine shrinks_trans ?_ (shrinks_BroadcastNotificationUpdate env g sender _)
        exact shrinks_of_traceOnly
          (traceOnly_foldl _ (fun st _ => traceOnly_emit _ st) _ s)

theorem traceOnly_notifyGroupMembers (env : Env) (g u : Int) (nick : String) (s : State) :
    TraceOnly s (notifyGroupMembers env g u nick s) := by
  unfold notifyGroupMembers
  simp only
  split
  · exact traceOnly_refl s
  · refine traceOnly_foldl _ (fun st row => ?_) _ s
    unfold groupNotifyOne
    split
    · exact traceOnly_refl st
    · exact traceOnly_CreateNotification _ _ _ _ _ _

theorem shrinks_handleGroupChat (env : Env) (conn : ConnPtr) (data : Option GroupChatMessage)
    (s : State) : Shrinks s (handleGroupChat env conn data s) := by
  unfold handleGroupChat
  cases data with
  | none => exact shrinks_refl s
  | some groupMsg =>
    simp only
    split
    · exact shrinks_refl s
    · split
      · exact shrinks_trans (shrinks_of_traceOnly (traceOnly_emit _ s))
          (shrinks_trans (shrinks_UpdateUnreadCounts _ _ _ _)
            (shrinks_trans (shrinks_broadcastToGroup _ _ _ _)
              (shrinks_of_traceOnly (traceOnly_notifyGroupMembers _ _ _ _ _))))
      · exact shrinks_of_traceOnly (traceOnly_emit _ s)

theorem shrinks_cleanup (conn : ConnPtr) (s : State) : Shrinks s (cleanup conn s) :=
  ⟨rfl, rfl, subGC_foldl_dropMember _ _ _⟩

theorem inv_of_shrinks {s s' : State} (h : Shrinks s s') (hi : Inv s) : Inv s' := by
  intro g inner u c hg hu
  obtain ⟨inner0, hg0, hu0⟩ := h.2.2 g inner u c hg hu
  have := hi g inner0 u c hg0 hu0
  rw [h.1, h.2.1]
  exact this

/-! ## Subscription and the invariant -/

theorem traceOnly_next {s s' : State} (h : TraceOnly s s') : s'.next = s.next := by
  obtain ⟨evs, rfl⟩ := h
  rfl

theorem inv_of_traceOnly {s s' : State} (h : TraceOnly s s') (hi : Inv s) : Inv s' :=
  inv_of_shrinks (shrinks_of_traceOnly h) hi

/-- The group table built by lines 228-231 of `handleGroupSubscription`, read key by key. -/
theorem lookup_subscribe_table (gc : GoMap Int (GoMap Int ConnPtr)) (g u : Int) (conn : ConnPtr)
    (g' : Int) :
    (AList.replace g
        ((innerOf (if gc.lookup g = none then gc.insert g ∅ else gc) g).insert u conn)
        (if gc.lookup g = none then gc.insert g ∅ else gc)).lookup g' =
      if g' = g then some ((innerOf gc g).insert u conn) else gc.lookup g' := by
  cases hg : gc.lookup g with
  | none =>
    simp only [if_true]
    have h1 : innerOf (gc.insert g ∅) g = ∅ := by
      apply innerOf_of_lookup
      exact AList.lookup_insert gc
    rw [h1, innerOf_of_none hg, lookup_replace]
    by_cases h : g' = g
    · subst h
      simp [AList.lookup_insert]
    · simp [h, AList.lookup_insert_ne h]
  | some inner =>
    simp only [if_false, reduceCtorEq]
    rw [lookup_replace]
    by_cases h : g' = g
    · subst h
      simp [hg]
    · simp [h]

theorem inv_register (userID : Int) (nickname : String) (s : State) (hi : Inv s) :
    Inv (register userID nickname s).2 := by
  intro g inner u c hg hu
  obtain ⟨h1, h2, h3⟩ := hi g inner u c hg hu
  have hne : c ≠ s.next := Nat.ne_of_lt h1
  simp only [register, Function.update_noteq hne]
  exact ⟨Nat.lt_succ_of_lt h1, h2, h3⟩

theorem inv_handleGroupSubscription (env : Env) (conn : ConnPtr)
    (data : Option GroupSubscription) (s : State) (hc : conn < s.next) (hi : Inv s) :
    Inv (handleGroupSubscription env conn data s) := by
  unfold handleGroupSubscription
  cases data with
  | none => exact hi
  | some sub =>
    simp only
    split
    · exact inv_of_traceOnly (traceOnly_emit _ s) hi
    · split
      · exact inv_of_traceOnly (traceOnly_emit _ s) hi
      · intro g inner u c hg hu
        simp only [emit] at hg ⊢
        rw [lookup_subscribe_table] at hg
        by_cases h : g = sub.GroupID
        · subst h
          simp only [if_true, Option.some.injEq] at hg
          subst hg
          rw [lookup_insert_eq] at hu
          by_cases hu' : u = (s.heap conn).userID
          · simp only [hu', if_true, Option.some.injEq] at hu
            subst hu
            simp only [Function.update_same, hu']
            exact ⟨hc, trivial, (AList.mem_insert _).2 (Or.inl rfl)⟩
          · simp only [hu', if_false] at hu
            cases hgc : s.groupConnections.lookup sub.GroupID with
            | none =>
              rw [innerOf_of_none hgc] at hu
              simp at hu
            | some inner0 =>
              rw [innerOf_of_lookup hgc] at hu
              obtain ⟨h1, h2, h3⟩ := hi _ inner0 u c hgc hu
              by_cases hcc : c = conn
              · subst hcc
                simp only [Function.update_same]
                exact ⟨h1, h2, (AList.mem_insert _).2 (Or.inl rfl)⟩
              · simp only [Function.update_noteq hcc]
                exact ⟨h1, h2, h3⟩
        · simp only [h, if_false] at hg
          obtain ⟨h1, h2, h3⟩ := hi g inner u c hg hu
          by_cases hcc : c = conn
          · subst hcc
            simp only [Function.update_same]
            exact ⟨h1, h2, (AList.mem_insert _).2 (Or.inr h3)⟩
          · simp only [Function.update_noteq hcc]
            exact ⟨h1, h2, h3⟩

theorem inv_handleGroupUnsubscription (conn : ConnPtr) (data : Option GroupSubscription)
    (s : State) (hi : Inv s) : Inv (handleGroupUnsubscription conn data s) := by
  unfold handleGroupUnsubscription
  cases data with
  | none => exact hi
  | some sub =>
    intro g inner u c hg hu
    simp only at hg ⊢
    rw [lookup_dropMember] at hg
    by_cases h : g = sub.GroupID
    · subst h
      simp only [if_true] at hg
      cases hgc : s.groupConnections.lookup sub.GroupID with
      | none => simp [hgc] at hg
      | some inner0 =>
        simp only [hgc] at hg
        by_cases hl : len (inner0.erase (s.heap conn).userID) = 0
        · simp [hl] at hg
        · simp only [hl, if_false, Option.some.injEq] at hg
          subst hg
          rw [lookup_erase_eq] at hu
          by_cases hu' : u = (s.heap conn).userID
          · simp [hu'] at hu
          · simp only [hu', if_false] at hu
            obtain ⟨h1, h2, h3⟩ := hi _ inner0 u c hgc hu
            have hcc : c ≠ conn := by
              intro e
              subst e
              exact hu' h2.symm
            simp only [Function.update_noteq hcc]
            exact ⟨h1, h2, h3⟩
    · simp only [h, if_false] at hg
      obtain ⟨h1, h2, h3⟩ := hi g inner u c hg hu
      by_cases hcc : c = conn
      · subst hcc
        simp only [Function.update_same]
        exact ⟨h1, h2, AList.mem_erase.2 ⟨h, h3⟩⟩
      · simp only [Function.update_noteq hcc]
        exact ⟨h1, h2, h3⟩

theorem inv_dispatch (env : Env) (c : ConnPtr) (typ : String) (data : RawData) (s : State)
    (hc : c < s.next) (hi : Inv s) : Inv (dispatch env c typ data s) := by
  unfold dispatch
  split
  · exact inv_of_traceOnly (traceOnly_handlePrivateChat _ _ _ _) hi
  · split
    · exact inv_handleGroupSubscription _ _ _ _ hc hi
    · split
      · exact inv_handleGroupUnsubscription _ _ _ hi
      · split
        · exact inv_of_shrinks (shrinks_handleGroupChat _ _ _ _) hi
        · exact hi

theorem inv_step {s s' : State} (h : Step s s') (hi : Inv s) : Inv s' := by
  cases h with
  | connect env s userID nickname =>
    exact inv_of_traceOnly (traceOnly_pushPending _ _ _) (inv_register _ _ _ hi)
  | frame env s c typ data hc => exact inv_dispatch _ _ _ _ _ hc hi
  | cleanup s c hc => exact inv_of_shrinks (shrinks_cleanup _ _) hi

theorem inv_initState : Inv initState := by
  intro g inner u c hg
  simp [initState] at hg

theorem inv_of_reachable {s : State} (h : Reachable s) : Inv s := by
  unfold Reachable at h
  induction h with
  | refl => exact inv_initState
  | tail _ hstep ih => exact inv_step hstep ih

theorem next_handleGroupSubscription (env : Env) (conn : ConnPtr)
    (data : Option GroupSubscription) (s : State) :
    (handleGroupSubscription env conn data s).next = s.next := by
  unfold handleGroupSubscription
  cases data with
  | none => rfl
  | some sub =>
    simp only
    split
    · rfl
    · split <;> rfl

theorem next_handleGroupUnsubscription (conn : ConnPtr) (data : Option GroupSubscription)
    (s : State) : (handleGroupUnsubscription conn data s).next = s.next := by
  unfold handleGroupUnsubscription
  cases data <;> rfl

theorem next_dispatch (env : Env) (c : ConnPtr) (typ : String) (data : RawData) (s : State) :
    (dispatch env c typ data s).next = s.next := by
  unfold dispatch
  split
  · exact traceOnly_next (traceOnly_handlePrivateChat _ _ _ _)
  · split
    · exact next_handleGroupSubscription _ _ _ _
    · split
      · exact next_handleGroupUnsubscription _ _ _
      · split
        · exact (shrinks_handleGroupChat _ _ _ _).2.1
        · rfl

theorem next_le_of_step {s s' : State} (h : Step s s') : s.next ≤ s'.next := by
  cases h with
  | connect env s userID nickname =>
    rw [traceOnly_next (traceOnly_pushPending _ _ _)]
    exact Nat.le_succ _
  | frame env s c typ data hc => exact le_of_eq (next_dispatch _ _ _ _ _).symm
  | cleanup s c hc => exact le_refl _

theorem next_le_of_steps {s s' : State} (h : Relation.ReflTransGen Step s s') :
    s.next ≤ s'.next := by
  induction h with
  | refl => exact le_refl _
  | tail _ hstep ih => exact le_trans ih (next_le_of_step hstep)

/-! ## The trace -/

theorem newEvents_of_append {s s' : State} {evs : List Event}
    (h : s'.trace = s.trace ++ evs) : newEvents s s' = evs := by
  unfold newEvents
  rw [h]
  exact List.drop_left _ _

theorem newEvents_emit (e : Event) (s : State) : newEvents s (emit e s) = [e] :=
  newEvents_of_append rfl

theorem newEvents_self (s : State) : newEvents s s = [] :=
  newEvents_of_append (List.append_nil _).symm

theorem ext_refl (P : Event → Prop) (s : State) : Ext P s s :=
  ⟨[], (List.append_nil _).symm, fun _ h => absurd h (List.not_mem_nil _)⟩

theorem ext_trans {P : Event → Prop} {a b c : State} (h1 : Ext P a b) (h2 : Ext P b c) :
    Ext P a c := by
  obtain ⟨e1, t1, p1⟩ := h1
  obtain ⟨e2, t2, p2⟩ := h2
  refine ⟨e1 ++ e2, by rw [t2, t1, List.append_assoc], ?_⟩
  intro e he
  rcases List.mem_append.1 he with h | h
  · exact p1 e h
  · exact p2 e h

theorem ext_emit {P : Event → Prop} {e : Event} (h : P e) (s : State) : Ext P s (emit e s) :=
  ⟨[e], rfl, fun e' he' => by rw [List.mem_singleton.1 he']; exact h⟩

theorem ext_foldl {α : Type} {P : Event → Prop} (f : State → α → State)
    (hf : ∀ st a, Ext P st (f st a)) (l : List α) (s : State) : Ext P s (l.foldl f s) := by
  induction l generalizing s with
  | nil => exact ext_refl P s
  | cons a tl ih => exact ext_trans (hf s a) (ih (f s a))

theorem quiet_of_not_write {allowed : List String} {e : Event} (h : e.writeTyp = none) :
    Quiet allowed e := by
  intro ty hty
  rw [h] at hty
  exact Option.noConfusion hty

theorem quiet_write {allowed : List String} (c : ConnPtr) (m : WebSocketMessage) (ok : Bool)
    (h : m.typ ∈ allowed) : Quiet allowed (Event.write c m ok) := by
  intro ty hty
  have : m.typ = ty := Option.some.inj hty
  rw [← this]
  exact h

theorem writesOfType_append (ty : String) (a b : List Event) :
    writesOfType ty (a ++ b) = writesOfType ty a ++ writesOfType ty b := by
  simp [writesOfType, List.filterMap_append]

theorem writesOfType_of_quiet {allowed : List String} {ty : String} (hty : ty ∉ allowed)
    (evs : List Event) (h : ∀ e ∈ evs, Quiet allowed e) : writesOfType ty evs = [] := by
  induction evs with
  | nil => rfl
  | cons e tl ih =>
    have htl := ih (fun e' he' => h e' (List.mem_cons_of_mem _ he'))
    have he := h e (List.mem_cons_self _ _)
    cases e with
    | write c m ok =>
      have hne : m.typ ≠ ty := by
        intro heq
        exact hty (heq ▸ he m.typ rfl)
      simp only [writesOfType, List.filterMap_cons, hne, if_false]
      exact htl
    | close c => exact htl
    | saveMessage a b c d ok => exact htl
    | queryMemberCount g u => exact htl
    | insertGroupMessage g u c ts ok => exact htl
    | unreadIncrement g u => exact htl
    | insertNotification u ty' msg rel ok => exact htl

theorem wrote_of_ext {allowed : List String} (ty : String) (hty : ty ∉ allowed) {s s' : State}
    (h : Ext (Quiet allowed) s s') : Wrote ty [] s s' := by
  obtain ⟨evs, ht, hq⟩ := h
  exact ⟨evs, ht, writesOfType_of_quiet hty evs hq⟩

theorem wrote_refl (ty : String) (s : State) : Wrote ty [] s s :=
  ⟨[], (List.append_nil _).symm, rfl⟩

theorem wrote_trans {ty : String} {wa wb : List (ConnPtr × WebSocketMessage)} {a b c : State}
    (h1 : Wrote ty wa a b) (h2 : Wrote ty wb b c) : Wrote ty (wa ++ wb) a c := by
  obtain ⟨e1, t1, p1⟩ := h1
  obtain ⟨e2, t2, p2⟩ := h2
  exact ⟨e1 ++ e2, by rw [t2, t1, List.append_assoc], by rw [writesOfType_append, p1, p2]⟩

theorem writes_newEvents {ty : String} {ws : List (ConnPtr × WebSocketMessage)} {s s' : State}
    (h : Wrote ty ws s s') : writesOfType ty (newEvents s s') = ws := by
  obtain ⟨evs, ht, hw⟩ := h
  rw [newEvents_of_append ht]
  exact hw

theorem quiet_newEvents {P : Event → Prop} {s s' : State} (h : Ext P s s') :
    ∀ e ∈ newEvents s s', P e := by
  obtain ⟨evs, ht, hp⟩ := h
  rw [newEvents_of_append ht]
  exact hp

/-! ## What the notification helpers write -/

theorem ext_BroadcastNotificationToUser (env : Env) (userID : Int) (ty msg : String)
    (rel : Option Int) (s : State) :
    Ext (Quiet ["notification"]) s (BroadcastNotificationToUser env userID ty msg rel s) := by
  unfold BroadcastNotificationToUser
  split
  · exact ext_refl _ s
  · exact ext_emit (quiet_write _ _ _ (List.mem_singleton.2 rfl)) s

theorem ext_CreateNotification (env : Env) (userID : Int) (ty msg : String)
    (rel : Option Int) (s : State) :
    Ext (Quiet ["notification"]) s (CreateNotification env userID ty msg rel s).2 := by
  unfold CreateNotification
  by_cases h : env.insertNotificationOk userID ty msg rel = true
  · simp only [h, if_true]
    refine ext_trans ?_ (ext_BroadcastNotificationToUser _ _ _ _ _ _)
    apply ext_emit
    exact quiet_of_not_write rfl
  · simp only [h]
    apply ext_emit
    exact quiet_of_not_write rfl

theorem ext_notifyRecipient (env : Env) (nickname : String) (chatMsg : ChatMessage)
    (s : State) : Ext (Quiet ["notification"]) s (notifyRecipient env nickname chatMsg s) := by
  unfold notifyRecipient
  split
  · exact ext_refl _ s
  · exact ext_CreateNotification _ _ _ _ _ _

theorem ext_notifyGroupMembers (env : Env) (g u : Int) (nick : String) (s : State) :
    Ext (Quiet ["notification"]) s (notifyGroupMembers env g u nick s) := by
  unfold notifyGroupMembers
  simp only
  split
  · exact ext_refl _ s
  · refine ext_foldl _ (fun st row => ?_) _ s
    unfold groupNotifyOne
    split
    · exact ext_refl _ st
    · exact ext_CreateNotification _ _ _ _ _ _

theorem ext_notificationUpdateOne (env : Env) (g : Int) (st : State) (row : Option Int) :
    Ext (Quiet ["notification_update"]) st (notificationUpdateOne env g st row) := by
  have hw : ∀ conn : ConnPtr, ∀ ok : Bool, Quiet ["notification_update"]
      (Event.write conn
        { typ := "notification_update", Data := Payload.notificationUpdate g } ok) :=
    fun conn ok => quiet_write _ _ _ (List.mem_singleton.2 rfl)
  unfold notificationUpdateOne
  split
  · exact ext_refl _ st
  · split
    · exact ext_refl _ st
    · split
      · exact ext_refl _ st
      · rename_i conn _
        by_cases h : env.writeOk conn
            { typ := "notification_update", Data := Payload.notificationUpdate g } = true
        · simp only [writeJSON, h, if_true]
          exact ext_emit (hw conn true) st
        · simp only [writeJSON, h]
          exact ⟨[_], rfl, fun e he => by rw [List.mem_singleton.1 he]; exact hw conn _⟩

theorem ext_UpdateUnreadCounts (env : Env) (g sender : Int) (s : State) :
    Ext (Quiet ["notification_update"]) s (UpdateUnreadCounts env g sender s).2 := by
  unfold UpdateUnreadCounts
  split
  · exact ext_refl _ s
  · split
    · exact ext_refl _ s
    · split
      · exact ext_refl _ s
      · have hinc : ∀ (st : State) (userID : Int), Ext (Quiet ["notification_update"]) st
            (emit (Event.unreadIncrement g userID) st) := by
          intro st userID
          apply ext_emit
          exact quiet_of_not_write rfl
        rename_i rows _ _
        have hb : ∀ st : State, Ext (Quiet ["notification_update"]) st
            (BroadcastNotificationUpdate env g sender st) := by
          intro st
          unfold BroadcastNotificationUpdate
          split
          · exact ext_refl _ _
          · exact ext_foldl _ (ext_notificationUpdateOne env g) _ _
        exact ext_trans (ext_foldl _ hinc (unreadTargets env g rows) s) (hb _)

/-- The group table and the heap are not touched by `UpdateUnreadCounts`. -/
theorem groups_UpdateUnreadCounts (env : Env) (g sender : Int) (s : State) :
    (UpdateUnreadCounts env g sender s).2.groupConnections = s.groupConnections ∧
    (UpdateUnreadCounts env g sender s).2.heap = s.heap := by
  have hone : ∀ st row,
      (notificationUpdateOne env g st row).groupConnections = st.groupConnections ∧
      (notificationUpdateOne env g st row).heap = st.heap := by
    intro st row
    unfold notificationUpdateOne
    split
    · exact ⟨rfl, rfl⟩
    · split
      · exact ⟨rfl, rfl⟩
      · split
        · exact ⟨rfl, rfl⟩
        · rename_i conn _
          by_cases h : env.writeOk conn
              { typ := "notification_update", Data := Payload.notificationUpdate g } = true
          · simp only [writeJSON, h, if_true]
            exact ⟨rfl, rfl⟩
          · simp only [writeJSON, h]
            exact ⟨rfl, rfl⟩
  have hfold : ∀ (l : List (Option Int)) (st : State),
      (l.foldl (notificationUpdateOne env g) st).groupConnections = st.groupConnections ∧
      (l.foldl (notificationUpdateOne env g) st).heap = st.heap := by
    intro l
    induction l with
    | nil => exact fun st => ⟨rfl, rfl⟩
    | cons a tl ih =>
      intro st
      simp only [List.foldl_cons]
      exact ⟨(ih _).1.trans (hone st a).1, (ih _).2.trans (hone st a).2⟩
  have hemit : ∀ (l : List Int) (st : State),
      (l.foldl (fun st userID => emit (Event.unreadIncrement g userID) st) st).groupConnections
        = st.groupConnections ∧
      (l.foldl (fun st userID => emit (Event.unreadIncrement g userID) st) st).heap
        = st.heap := by
    intro l
    induction l with
    | nil => exact fun st => ⟨rfl, rfl⟩
    | cons a tl ih =>
      intro st
      simp only [List.foldl_cons]
      exact ⟨(ih _).1, (ih _).2⟩
  unfold UpdateUnreadCounts
  split
  · exact ⟨rfl, rfl⟩
  · split
    · exact ⟨rfl, rfl⟩
    · split
      · exact ⟨rfl, rfl⟩
      · unfold BroadcastNotificationUpdate
        split
        · exact hemit _ s
        · exact ⟨(hfold _ _).1.trans (hemit _ s).1, (hfold _ _).2.trans (hemit _ s).2⟩

/-! ## What the group broadcast writes -/

theorem trace_broadcastOne (env : Env) (g : Int) (msg : GroupChatResponse) (st : State)
    (e : Sigma (fun _ : Int => ConnPtr)) :
    Wrote "group_chat" [(e.2, groupChatFrame msg)] st (broadcastOne env g msg st e) := by
  unfold broadcastOne
  by_cases h : env.writeOk e.2 { typ := "group_chat", Data := Payload.groupChat msg } = true
  · simp only [writeJSON, h, if_true]
    exact ⟨[Event.write e.2 (groupChatFrame msg) true], rfl,
      by simp [writesOfType, groupChatFrame]⟩
  · simp only [writeJSON, h]
    exact ⟨[Event.write e.2 (groupChatFrame msg) false, Event.close e.2],
      by simp [emit, groupChatFrame], by simp [writesOfType, groupChatFrame]⟩

theorem trace_broadcast_foldl (env : Env) (g : Int) (msg : GroupChatResponse)
    (l : List (Sigma (fun _ : Int => ConnPtr))) (st : State) :
    Wrote "group_chat" (l.map (fun e => (e.2, groupChatFrame msg))) st
      (l.foldl (broadcastOne env g msg) st) := by
  induction l generalizing st with
  | nil => exact wrote_refl _ st
  | cons e tl ih =>
    simp only [List.foldl_cons, List.map_cons]
    exact wrote_trans (trace_broadcastOne env g msg st e) (ih _)

/-- The function `broadcastToGroup` writes the frame once to every connection of the set
of the group, in stored order. -/
theorem trace_broadcastToGroup (env : Env) (g : Int) (msg : GroupChatResponse) (s : State) :
    Wrote "group_chat"
      ((innerOf s.groupConnections g).entries.map (fun e => (e.2, groupChatFrame msg))) s
      (broadcastToGroup env g msg s) := by
  unfold broadcastToGroup
  cases hg : s.groupConnections.lookup g with
  | none =>
    rw [innerOf_of_none hg]
    exact wrote_refl _ s
  | some inner =>
    rw [innerOf_of_lookup hg]
    exact trace_broadcast_foldl env g msg inner.entries s

theorem ext_mono {P Q : Event → Prop} (h : ∀ e, P e → Q e) {s s' : State}
    (he : Ext P s s') : Ext Q s s' := by
  obtain ⟨evs, ht, hp⟩ := he
  exact ⟨evs, ht, fun e hm => h e (hp e hm)⟩

theorem quiet_mono {a b : List String} (h : ∀ x, x ∈ a → x ∈ b) (e : Event)
    (hq : Quiet a e) : Quiet b e :=
  fun ty hty => h ty (hq ty hty)

theorem registry_of_traceOnly {s s' : State} (h : TraceOnly s s') :
    s'.userConnections = s.userConnections ∧ s'.groupConnections = s.groupConnections ∧
    s'.heap = s.heap := by
  obtain ⟨evs, rfl⟩ := h
  exact ⟨rfl, rfl, rfl⟩

theorem trace_of_traceOnly {s s' : State} (h : TraceOnly s s') :
    ∃ evs, s'.trace = s.trace ++ evs := by
  obtain ⟨evs, rfl⟩ := h
  exact ⟨evs, rfl⟩

/-- The function `deliverChat` writes the chat frame to the connection registered under
`To`, and to nobody when there is none. -/
theorem trace_deliverChat (env : Env) (nickname : String) (chatMsg : ChatMessage)
    (timestamp : String) (s : State) :
    Wrote "chat"
      ((s.userConnections.lookup chatMsg.To).toList.map
        (fun R => (R, chatFrame nickname chatMsg timestamp))) s
      (deliverChat env nickname chatMsg timestamp s) ∧
    Ext (Quiet ["chat", "notification"]) s (deliverChat env nickname chatMsg timestamp s) := by
  unfold deliverChat
  cases h : s.userConnections.lookup chatMsg.To with
  | none => exact ⟨wrote_refl _ s, ext_refl _ s⟩
  | some R =>
    constructor
    · exact ⟨[Event.write R (chatFrame nickname chatMsg timestamp)
        (env.writeOk R (chatFrame nickname chatMsg timestamp))], rfl,
        by simp [writesOfType, chatFrame]⟩
    · apply ext_emit
      exact quiet_write _ _ _ (List.mem_cons_self _ _)

/-! ## The claims -/

/-- C1: after `register` of a connection with nickname `N` the identity table maps `N` to
it, and after any later registration of a second connection under the same `N` the table
maps `N` to the second one and no longer to the first.  `register` is a total function:
neither registration can fail. -/
theorem C1_register_last_write_wins (s : State) (userID : Int) (N : String) (s2 : State)
    (userID2 : Int) (hlater : Relation.ReflTransGen Step (register userID N s).2 s2) :
    ((register userID N s).2.heap (register userID N s).1).nickname = N ∧
    (register userID N s).2.userConnections.lookup N = some (register userID N s).1 ∧
    ((register userID2 N s2).2.heap (register userID2 N s2).1).nickname = N ∧
    (register userID2 N s2).2.userConnections.lookup N = some (register userID2 N s2).1 ∧
    (register userID2 N s2).2.userConnections.lookup N ≠ some (register userID N s).1 := by
  have hn := next_le_of_steps hlater
  have hlookup : ∀ (u : Int) (st : State),
      (register u N st).2.userConnections.lookup N = some (register u N st).1 :=
    fun u st => AList.lookup_insert st.userConnections
  refine ⟨by simp [register], hlookup userID s, by simp [register], hlookup userID2 s2, ?_⟩
  rw [hlookup userID2 s2]
  intro h
  have h' : s2.next = s.next := Option.some.inj h
  have h'' : s.next + 1 ≤ s2.next := hn
  rw [h'] at h''
  exact Nat.not_succ_le_self _ h''

/-- C1 at a concrete input: "ann" connects twice in a row from the initial state. -/
theorem C1_register_last_write_wins_witness :
    ((register 1 "ann" initState).2.heap (register 1 "ann" initState).1).nickname = "ann" ∧
    (register 1 "ann" initState).2.userConnections.lookup "ann"
      = some (register 1 "ann" initState).1 ∧
    ((register 1 "ann" annState).2.heap (register 1 "ann" annState).1).nickname = "ann" ∧
    (register 1 "ann" annState).2.userConnections.lookup "ann"
      = some (register 1 "ann" annState).1 ∧
    (register 1 "ann" annState).2.userConnections.lookup "ann"
      ≠ some (register 1 "ann" initState).1 :=
  C1_register_last_write_wins initState 1 "ann" annState 1 Relation.ReflTransGen.refl

/-- C2: when the membership check for (g, C.userID) succeeds, after
`handleGroupSubscription` the group table has key `g`, the set of `g` maps `C.userID` to
`C`, `g` is in `C.groups`, and every other group's set and every other user's entry in the
set of `g` are as before. -/
theorem C2_subscribe_inserts (env : Env) (s : State) (C : ConnPtr) (g : Int) (n : Int)
    (hm : env.memberCount g (s.heap C).userID = some n) (hn : n ≠ 0) :
    g ∈ (handleGroupSubscription env C (some { GroupID := g }) s).groupConnections ∧
    (∃ inner,
      (handleGroupSubscription env C (some { GroupID := g }) s).groupConnections.lookup g
        = some inner ∧ inner.lookup (s.heap C).userID = some C ∧
      ∀ u, u ≠ (s.heap C).userID → inner.lookup u = (innerOf s.groupConnections g).lookup u) ∧
    ((handleGroupSubscription env C (some { GroupID := g }) s).heap C).groups.lookup g
      = some true ∧
    (∀ g', g' ≠ g →
      (handleGroupSubscription env C (some { GroupID := g }) s).groupConnections.lookup g'
        = s.groupConnections.lookup g') := by
  have hgc : ∀ g', (handleGroupSubscription env C (some { GroupID := g }) s).groupConnections.lookup g'
      = if g' = g then some ((innerOf s.groupConnections g).insert (s.heap C).userID C)
        else s.groupConnections.lookup g' := by
    intro g'
    simp only [handleGroupSubscription, hm, hn, if_false, emit]
    exact lookup_subscribe_table _ _ _ _ _
  refine ⟨?_, ?_, ?_, ?_⟩
  · rw [← AList.lookup_isSome, hgc]
    simp
  · refine ⟨(innerOf s.groupConnections g).insert (s.heap C).userID C, ?_, ?_, ?_⟩
    · rw [hgc]; simp
    · exact AList.lookup_insert _
    · intro u hu
      exact AList.lookup_insert_ne hu
  · simp only [handleGroupSubscription, hm, hn, if_false, emit, Function.update_same]
    exact AList.lookup_insert _
  · intro g' hg'
    rw [hgc]
    simp [hg']

/-- C2 at a concrete input: "ann" (user 1, connection 0) subscribes to group 7. -/
theorem C2_subscribe_inserts_witness :
    (7 : Int) ∈ (handleGroupSubscription calmEnv 0 (some { GroupID := 7 }) annState).groupConnections ∧
    (∃ inner,
      (handleGroupSubscription calmEnv 0 (some { GroupID := 7 }) annState).groupConnections.lookup 7
        = some inner ∧ inner.lookup (annState.heap 0).userID = some 0 ∧
      ∀ u, u ≠ (annState.heap 0).userID →
        inner.lookup u = (innerOf annState.groupConnections 7).lookup u) ∧
    ((handleGroupSubscription calmEnv 0 (some { GroupID := 7 }) annState).heap 0).groups.lookup 7
      = some true ∧
    (∀ g', g' ≠ 7 →
      (handleGroupSubscription calmEnv 0 (some { GroupID := 7 }) annState).groupConnections.lookup g'
        = annState.groupConnections.lookup g') :=
  C2_subscribe_inserts calmEnv annState 0 7 1 rfl (by decide)

/-- C3: after `handleGroupUnsubscription`, whatever the state, `g` is not in `C.groups`,
`C.userID` is not a key of the set of `g`, a set left without members is no longer in the
group table, and nothing is asked of the database: the trace is as before (the handler
does not even read an environment). -/
theorem C3_unsubscribe_removes (s : State) (C : ConnPtr) (g : Int) :
    g ∉ ((handleGroupUnsubscription C (some { GroupID := g }) s).heap C).groups ∧
    (∀ inner,
      (handleGroupUnsubscription C (some { GroupID := g }) s).groupConnections.lookup g
        = some inner → inner.lookup (s.heap C).userID = none ∧ len inner ≠ 0) ∧
    (∀ inner, s.groupConnections.lookup g = some inner →
      len (inner.erase (s.heap C).userID) = 0 →
      g ∉ (handleGroupUnsubscription C (some { GroupID := g }) s).groupConnections) ∧
    (handleGroupUnsubscription C (some { GroupID := g }) s).trace = s.trace := by
  refine ⟨?_, ?_, ?_, rfl⟩
  · simp only [handleGroupUnsubscription, Function.update_same]
    intro h
    exact (AList.mem_erase.1 h).1 rfl
  · exact dropped_dropMember s.groupConnections g (s.heap C).userID
  · intro inner hg hl
    rw [← AList.lookup_eq_none]
    simp only [handleGroupUnsubscription]
    rw [lookup_dropMember]
    simp [hg, hl]

/-- A dispatched frame leaves the `userID` and the `nickname` of every connection as
they were: only `groups` is ever assigned after line 102. -/
theorem fields_dispatch (env : Env) (S : ConnPtr) (typ : String) (data : RawData)
    (s : State) (c : ConnPtr) :
    ((dispatch env S typ data s).heap c).nickname = (s.heap c).nickname ∧
    ((dispatch env S typ data s).heap c).userID = (s.heap c).userID := by
  unfold dispatch
  split
  · rw [(registry_of_traceOnly (traceOnly_handlePrivateChat env S data.asChat s)).2.2]
    exact ⟨rfl, rfl⟩
  · split
    · unfold handleGroupSubscription
      cases data.asSubscription with
      | none => exact ⟨rfl, rfl⟩
      | some sub =>
        simp only
        split
        · exact ⟨rfl, rfl⟩
        · split
          · exact ⟨rfl, rfl⟩
          · by_cases hc : c = S
            · subst hc
              simp [emit]
            · simp [emit, Function.update_noteq hc]
    · split
      · unfold handleGroupUnsubscription
        cases data.asSubscription with
        | none => exact ⟨rfl, rfl⟩
        | some sub =>
          by_cases hc : c = S
          · subst hc
            simp
          · simp [Function.update_noteq hc]
      · split
        · rw [(shrinks_handleGroupChat env S data.asGroupChat s).1]
          exact ⟨rfl, rfl⟩
        · exact ⟨rfl, rfl⟩

/-- The read loop of line 127: when the read of line 129 fails after the frames
`frames`, none of which is that failure, the loop breaks and `UnifiedWebSocketHandler`
runs `cleanup` (line 156) on the state those frames left; what would have come after the
failed read is never read. -/
theorem readLoop_until_error (C : ConnPtr) (frames rest : List Inbound) (s : State)
    (hlive : ∀ f ∈ frames, f ≠ Inbound.readError) :
    readLoop C (frames ++ Inbound.readError :: rest) s = cleanup C (readLoop C frames s) := by
  induction frames generalizing s with
  | nil => rfl
  | cons f tl ih =>
    have htl : ∀ f' ∈ tl, f' ≠ Inbound.readError :=
      fun f' hf' => hlive f' (List.mem_cons_of_mem _ hf')
    cases f with
    | readError => exact absurd rfl (hlive _ (List.mem_cons_self _ _))
    | malformed => exact ih s htl
    | frame env typ data => exact ih (dispatch env C typ data s) htl

/-- While its reads succeed, the read loop of an allocated connection takes the server
through reachable states, allocates nothing, and leaves the `userID` and the `nickname`
of every connection as they were. -/
theorem reachable_readLoop (C : ConnPtr) (frames : List Inbound) (s : State)
    (hr : Reachable s) (hC : C < s.next) (hlive : ∀ f ∈ frames, f ≠ Inbound.readError) :
    Reachable (readLoop C frames s) ∧ (readLoop C frames s).next = s.next ∧
    ∀ c, ((readLoop C frames s).heap c).nickname = (s.heap c).nickname ∧
      ((readLoop C frames s).heap c).userID = (s.heap c).userID := by
  induction frames generalizing s with
  | nil => exact ⟨hr, rfl, fun _ => ⟨rfl, rfl⟩⟩
  | cons f tl ih =>
    have htl : ∀ f' ∈ tl, f' ≠ Inbound.readError :=
      fun f' hf' => hlive f' (List.mem_cons_of_mem _ hf')
    cases f with
    | readError => exact absurd rfl (hlive _ (List.mem_cons_self _ _))
    | malformed => exact ih s hr hC htl
    | frame env typ data =>
      have hn := next_dispatch env C typ data s
      obtain ⟨h1, h2, h3⟩ := ih (dispatch env C typ data s)
        (Relation.ReflTransGen.tail hr (Step.frame env s C typ data hC))
        (by rw [hn]; exact hC) htl
      refine ⟨h1, h2.trans hn, fun c => ?_⟩
      obtain ⟨f1, f2⟩ := fields_dispatch env C typ data s c
      exact ⟨(h3 c).1.trans f1, (h3 c).2.trans f2⟩

/-- C4: the read loop of an allocated connection `C` (lines 127-154) is run from a
reachable state on the frames `frames`, all read successfully, and then its read fails:
the loop ends. The state it ends in is `cleanup C` of the state the frames left (line
156), which is itself reachable and in which `C` still has the `nickname` and `userID`
it was created with. In that final state the identity table has no entry under
`C.nickname`, no set of the group table holds `C`, and for every group `C` was subscribed
to when the loop ended the set of that group has no key `C.userID` and, if still in the
table, is not empty. -/
theorem C4_cleanup_removes_everywhere (s : State) (C : ConnPtr) (frames rest : List Inbound)
    (hr : Reachable s) (hC : C < s.next) (hlive : ∀ f ∈ frames, f ≠ Inbound.readError) :
    readLoop C (frames ++ Inbound.readError :: rest) s = cleanup C (readLoop C frames s) ∧
    Reachable (readLoop C frames s) ∧
    ((readLoop C frames s).heap C).nickname = (s.heap C).nickname ∧
    ((readLoop C frames s).heap C).userID = (s.heap C).userID ∧
    (readLoop C (frames ++ Inbound.readError :: rest) s).userConnections.lookup
      (s.heap C).nickname = none ∧
    (∀ g inner u,
      (readLoop C (frames ++ Inbound.readError :: rest) s).groupConnections.lookup g
        = some inner → inner.lookup u ≠ some C) ∧
    (∀ g, g ∈ ((readLoop C frames s).heap C).groups → ∀ inner,
      (readLoop C (frames ++ Inbound.readError :: rest) s).groupConnections.lookup g
        = some inner → inner.lookup (s.heap C).userID = none ∧ len inner ≠ 0) := by
  obtain ⟨hpre, _, hfields⟩ := reachable_readLoop C frames s hr hC hlive
  obtain ⟨hnick, huid⟩ := hfields C
  rw [readLoop_until_error C frames rest s hlive]
  have hdrop : ∀ g, g ∈ ((readLoop C frames s).heap C).groups →
      Dropped ((readLoop C frames s).heap C).userID g
        (cleanup C (readLoop C frames s)).groupConnections := by
    intro g hg
    exact dropped_foldl _ g _ _ (AList.mem_keys.1 hg)
  refine ⟨rfl, hpre, hnick, huid, ?_, ?_, ?_⟩
  · rw [← hnick]
    exact AList.lookup_erase _ _
  · intro g inner u hg hu
    obtain ⟨inner0, hg0, hu0⟩ := (shrinks_cleanup C (readLoop C frames s)).2.2 g inner u C hg hu
    obtain ⟨_, h2, h3⟩ := inv_of_reachable hpre g inner0 u C hg0 hu0
    have := (hdrop g h3 inner hg).1
    rw [h2, hu] at this
    exact Option.noConfusion this
  · intro g hg inner hin
    rw [← huid]
    exact hdrop g hg inner hin

/-- C4 at a concrete input: "ann" connects, her read loop reads a subscription to group
7 and then fails; a frame that would have followed is never read. -/
theorem C4_cleanup_removes_everywhere_witness :
    (readLoop 0 ([subscribeSeven] ++ Inbound.readError :: [subscribeSeven])
        annState).userConnections.lookup (annState.heap 0).nickname = none ∧
    (7 : Int) ∈ ((readLoop 0 [subscribeSeven] annState).heap 0).groups ∧
    (readLoop 0 ([subscribeSeven] ++ Inbound.readError :: [subscribeSeven])
        annState).groupConnections.lookup 7 = none :=
  ⟨(C4_cleanup_removes_everywhere annState 0 [subscribeSeven] [subscribeSeven]
      (Relation.ReflTransGen.tail Relation.ReflTransGen.refl
        (Step.connect calmEnv initState 1 "ann"))
      (by decide)
      (fun f hf => by
        rw [List.mem_singleton.1 hf]
        exact fun h => Inbound.noConfusion h)).2.2.2.2.1,
   by decide, by decide⟩

/-- C5, refuted as stated: "ann" connects as connection 0 and then again as connection 1,
so the identity table maps "ann" to connection 1; `cleanup` of connection 0 removes that
entry all the same. -/
theorem C5_cleanup_evicts_successor :
    (annTwiceState.heap 0).nickname = "ann" ∧
    (annTwiceState.heap 1).nickname = "ann" ∧
    annTwiceState.userConnections.lookup "ann" = some 1 ∧
    (cleanup 0 annTwiceState).userConnections.lookup "ann" ≠ some 1 := by
  decide

/-- C5, amended: `cleanup C` deletes the identity entry under `C.nickname` whichever
connection it holds, so when a later connection `C2` of the same nickname `N` holds the
entry, the table has no entry under `N` afterwards; entries under other nicknames are as
before. -/
theorem C5_cleanup_deletes_by_nickname (s : State) (C C2 : ConnPtr) (N : String)
    (hN : (s.heap C).nickname = N) (h2 : s.userConnections.lookup N = some C2) :
    (cleanup C s).userConnections.lookup N = none ∧
    (cleanup C s).userConnections.lookup N ≠ s.userConnections.lookup N ∧
    (∀ N', N' ≠ N → (cleanup C s).userConnections.lookup N' = s.userConnections.lookup N') := by
  subst hN
  have h0 : (cleanup C s).userConnections.lookup (s.heap C).nickname = none :=
    AList.lookup_erase _ _
  refine ⟨h0, ?_, ?_⟩
  · rw [h0, h2]
    exact fun h => Option.noConfusion h
  · intro N' hN'
    exact AList.lookup_erase_ne hN'

/-- C5 amended, at a concrete input: the two connections of "ann". -/
theorem C5_cleanup_deletes_by_nickname_witness :
    (cleanup 0 annTwiceState).userConnections.lookup "ann" = none ∧
    (cleanup 0 annTwiceState).userConnections.lookup "ann"
      ≠ annTwiceState.userConnections.lookup "ann" ∧
    (∀ N', N' ≠ "ann" →
      (cleanup 0 annTwiceState).userConnections.lookup N'
        = annTwiceState.userConnections.lookup N') :=
  C5_cleanup_deletes_by_nickname annTwiceState 0 1 "ann" (by decide) (by decide)

/-- C7: when the durable write fails (`SaveMessage` for a chat frame, the insert into
`group_messages` for a group_chat frame of a subscribed connection), the only thing the
handler does is that failed write: no frame is written, no notification is inserted, no
counter is incremented, the heap and both routing tables are as before, and the read
loop goes on with the next read. -/
theorem C7_persist_failure_abandons (env : Env) (s : State) (conn : ConnPtr) (m : ChatMessage)
    (gm : GroupChatMessage) :
    (env.saveMessageOk m.To (s.heap conn).nickname m.Message env.timestamp = false →
      newEvents s (handlePrivateChat env conn (some m) s)
        = [Event.saveMessage m.To (s.heap conn).nickname m.Message env.timestamp false] ∧
      (handlePrivateChat env conn (some m) s).userConnections = s.userConnections ∧
      (handlePrivateChat env conn (some m) s).groupConnections = s.groupConnections ∧
      (handlePrivateChat env conn (some m) s).heap = s.heap ∧
      ∀ (d : RawData) (rest : List Inbound), d.asChat = some m →
        readLoop conn (Inbound.frame env "chat" d :: rest) s
          = readLoop conn rest (handlePrivateChat env conn (some m) s)) ∧
    ((s.heap conn).groups.lookup gm.GroupID = some true →
      env.insertGroupMessageOk gm.GroupID (s.heap conn).userID gm.Content = false →
      newEvents s (handleGroupChat env conn (some gm) s)
        = [Event.insertGroupMessage gm.GroupID (s.heap conn).userID gm.Content
            env.timestamp false] ∧
      (handleGroupChat env conn (some gm) s).userConnections = s.userConnections ∧
      (handleGroupChat env conn (some gm) s).groupConnections = s.groupConnections ∧
      (handleGroupChat env conn (some gm) s).heap = s.heap ∧
      ∀ (d : RawData) (rest : List Inbound), d.asGroupChat = some gm →
        readLoop conn (Inbound.frame env "group_chat" d :: rest) s
          = readLoop conn rest (handleGroupChat env conn (some gm) s)) := by
  constructor
  · intro hfail
    have e : handlePrivateChat env conn (some m) s
        = emit (Event.saveMessage m.To (s.heap conn).nickname m.Message env.timestamp false)
            s := by
      simp [handlePrivateChat, hfail]
    refine ⟨?_, ?_, ?_, ?_, ?_⟩
    · rw [e]; exact newEvents_emit _ _
    · rw [e]; rfl
    · rw [e]; rfl
    · rw [e]; rfl
    · intro d rest hd
      simp [readLoop, dispatch, hd]
  · intro hsub hfail
    have e : handleGroupChat env conn (some gm) s
        = emit (Event.insertGroupMessage gm.GroupID (s.heap conn).userID gm.Content
            env.timestamp false) s := by
      simp [handleGroupChat, hsub, hfail]
    refine ⟨?_, ?_, ?_, ?_, ?_⟩
    · rw [e]; exact newEvents_emit _ _
    · rw [e]; rfl
    · rw [e]; rfl
    · rw [e]; rfl
    · intro d rest hd
      simp [readLoop, dispatch, hd]

/-- C7 at a concrete input: "ann", subscribed to group 7, sends a chat to "bob" and a
group_chat to group 7 while the database refuses every insert. -/
theorem C7_persist_failure_abandons_witness :
    (newEvents annInGroupState
        (handlePrivateChat failEnv 0 (some { To := "bob", Message := "hi" }) annInGroupState)
      = [Event.saveMessage "bob" "ann" "hi" "2025-06-18T14:16:56Z" false]) ∧
    (newEvents annInGroupState
        (handleGroupChat failEnv 0 (some { GroupID := 7, Content := "hi" }) annInGroupState)
      = [Event.insertGroupMessage 7 1 "hi" "2025-06-18T14:16:56Z" false]) :=
  ⟨((C7_persist_failure_abandons failEnv annInGroupState 0 { To := "bob", Message := "hi" }
      { GroupID := 7, Content := "hi" }).1 rfl).1,
   ((C7_persist_failure_abandons failEnv annInGroupState 0 { To := "bob", Message := "hi" }
      { GroupID := 7, Content := "hi" }).2 (by decide) rfl).1⟩

/-- C9: a group_chat frame for a group that is not in `C.groups` is dropped whatever the
database says about membership: the handler returns the state it was given, so nothing
is persisted, counted, written or notified and both routing tables are as before. -/
theorem C9_unsubscribed_group_chat_rejected (env : Env) (s : State) (C : ConnPtr) (g : Int)
    (content : String) (hg : g ∉ (s.heap C).groups) :
    handleGroupChat env C (some { GroupID := g, Content := content }) s = s ∧
    newEvents s (handleGroupChat env C (some { GroupID := g, Content := content }) s) = [] := by
  have e : handleGroupChat env C (some { GroupID := g, Content := content }) s = s := by
    have hl : (s.heap C).groups.lookup g = none := AList.lookup_eq_none.2 hg
    simp [handleGroupChat, hl]
  rw [e]
  exact ⟨rfl, newEvents_self s⟩

/-- C9 at a concrete input: "ann", subscribed to group 7 only, sends to group 8 while the
database counts her as a member of every group. -/
theorem C9_unsubscribed_group_chat_rejected_witness :
    handleGroupChat calmEnv 0 (some { GroupID := 8, Content := "hi" }) annInGroupState
      = annInGroupState ∧
    newEvents annInGroupState
      (handleGroupChat calmEnv 0 (some { GroupID := 8, Content := "hi" }) annInGroupState)
      = [] :=
  C9_unsubscribed_group_chat_rejected calmEnv annInGroupState 0 8 "hi" (by decide)

/-- C10, refuted as stated: "ann" is in the set of group 7 from an earlier subscription;
a new subscribe attempt while she is no longer a member (count 0) leaves her there. -/
theorem C10_failed_subscribe_keeps_old_entry :
    strangerEnv.memberCount 7 (annInGroupState.heap 0).userID = some 0 ∧
    (innerOf (handleGroupSubscription strangerEnv 0 (some { GroupID := 7 })
      annInGroupState).groupConnections 7).lookup (annInGroupState.heap 0).userID
      = some 0 := by
  decide

/-- C10, amended: when the membership count is 0 or the lookup errs, the subscribe attempt
only performs that lookup and leaves the heap and both routing tables as they were; so
when the set of `g` did not hold `A` before the attempt, it does not hold `A` after it. -/
theorem C10_failed_subscribe_changes_nothing (env : Env) (s : State) (A : ConnPtr) (g : Int)
    (hm : env.memberCount g (s.heap A).userID = none ∨
      env.memberCount g (s.heap A).userID = some 0) :
    (handleGroupSubscription env A (some { GroupID := g }) s).groupConnections
      = s.groupConnections ∧
    (handleGroupSubscription env A (some { GroupID := g }) s).userConnections
      = s.userConnections ∧
    (handleGroupSubscription env A (some { GroupID := g }) s).heap = s.heap ∧
    newEvents s (handleGroupSubscription env A (some { GroupID := g }) s)
      = [Event.queryMemberCount g (s.heap A).userID] ∧
    ((∀ u, (innerOf s.groupConnections g).lookup u ≠ some A) →
      ∀ u, (innerOf (handleGroupSubscription env A (some { GroupID := g })
        s).groupConnections g).lookup u ≠ some A) := by
  have e : handleGroupSubscription env A (some { GroupID := g }) s
      = emit (Event.queryMemberCount g (s.heap A).userID) s := by
    rcases hm with hm | hm <;> simp [handleGroupSubscription, hm]
  rw [e]
  exact ⟨rfl, rfl, rfl, newEvents_emit _ _, fun h => h⟩

/-- C10 amended, at a concrete input: "ann", in no group, tries to subscribe to group 5
of which she is not a member. -/
theorem C10_failed_subscribe_changes_nothing_witness :
    (handleGroupSubscription strangerEnv 0 (some { GroupID := 5 }) annState).groupConnections
      = annState.groupConnections ∧
    (handleGroupSubscription strangerEnv 0 (some { GroupID := 5 }) annState).userConnections
      = annState.userConnections ∧
    (handleGroupSubscription strangerEnv 0 (some { GroupID := 5 }) annState).heap
      = annState.heap ∧
    newEvents annState (handleGroupSubscription strangerEnv 0 (some { GroupID := 5 }) annState)
      = [Event.queryMemberCount 5 (annState.heap 0).userID] ∧
    ((∀ u, (innerOf annState.groupConnections 5).lookup u ≠ some 0) →
      ∀ u, (innerOf (handleGroupSubscription strangerEnv 0 (some { GroupID := 5 })
        annState).groupConnections 5).lookup u ≠ some 0) :=
  C10_failed_subscribe_changes_nothing strangerEnv annState 0 5 (Or.inr rfl)

/-- C6, refuted as stated: "ann" (connection 0), subscribed to group 7, sends a group_chat
that is accepted and persisted; the broadcast writes the group_chat frame to her own
connection. -/
theorem C6_sender_receives_own_message :
    (annInGroupState.heap 0).groups.lookup 7 = some true ∧
    calmEnv.insertGroupMessageOk 7 (annInGroupState.heap 0).userID "hi" = true ∧
    (0, groupChatFrame
        { Sender := "ann", Content := "hi", Timestamp := "2025-06-18T14:16:56Z", GroupID := 7 })
      ∈ writesOfType "group_chat" (newEvents annInGroupState
          (handleGroupChat calmEnv 0 (some { GroupID := 7, Content := "hi" })
            annInGroupState)) := by
  decide

/-- C6, amended: for an accepted and persisted group_chat of `M` to `g`, the group_chat
frame is written once to every connection that the set of `g` holds when the handler
starts, in stored order; the sender is not excluded, so when the set holds `M` under
`M.userID` the frame is written to `M` too. -/
theorem C6_broadcast_reaches_whole_set (env : Env) (s : State) (M : ConnPtr)
    (gm : GroupChatMessage) (hsub : (s.heap M).groups.lookup gm.GroupID = some true)
    (hok : env.insertGroupMessageOk gm.GroupID (s.heap M).userID gm.Content = true) :
    writesOfType "group_chat" (newEvents s (handleGroupChat env M (some gm) s))
      = (innerOf s.groupConnections gm.GroupID).entries.map
          (fun e => (e.2, groupChatFrame
            { Sender := (s.heap M).nickname, Content := gm.Content,
              Timestamp := env.timestamp, GroupID := gm.GroupID })) ∧
    ((innerOf s.groupConnections gm.GroupID).lookup (s.heap M).userID = some M →
      (M, groupChatFrame
          { Sender := (s.heap M).nickname, Content := gm.Content,
            Timestamp := env.timestamp, GroupID := gm.GroupID })
        ∈ writesOfType "group_chat" (newEvents s (handleGroupChat env M (some gm) s))) := by
  have e : handleGroupChat env M (some gm) s
      = notifyGroupMembers env gm.GroupID (s.heap M).userID (s.heap M).nickname
          (broadcastToGroup env gm.GroupID
            { Sender := (s.heap M).nickname, Content := gm.Content,
              Timestamp := env.timestamp, GroupID := gm.GroupID }
            (UpdateUnreadCounts env gm.GroupID (s.heap M).userID
              (emit (Event.insertGroupMessage gm.GroupID (s.heap M).userID gm.Content
                env.timestamp true) s)).2) := by
    simp [handleGroupChat, hsub, hok]
  have h1 : Wrote "group_chat" [] s
      (emit (Event.insertGroupMessage gm.GroupID (s.heap M).userID gm.Content
        env.timestamp true) s) := ⟨[_], rfl, rfl⟩
  have h2 := wrote_of_ext "group_chat" (by decide)
    (ext_UpdateUnreadCounts env gm.GroupID (s.heap M).userID
      (emit (Event.insertGroupMessage gm.GroupID (s.heap M).userID gm.Content
        env.timestamp true) s))
  have h3 := trace_broadcastToGroup env gm.GroupID
    { Sender := (s.heap M).nickname, Content := gm.Content,
      Timestamp := env.timestamp, GroupID := gm.GroupID }
    (UpdateUnreadCounts env gm.GroupID (s.heap M).userID
      (emit (Event.insertGroupMessage gm.GroupID (s.heap M).userID gm.Content
        env.timestamp true) s)).2
  rw [(groups_UpdateUnreadCounts _ _ _ _).1] at h3
  have h4 := wrote_of_ext "group_chat" (by decide)
    (ext_notifyGroupMembers env gm.GroupID (s.heap M).userID (s.heap M).nickname
      (broadcastToGroup env gm.GroupID
        { Sender := (s.heap M).nickname, Content := gm.Content,
          Timestamp := env.timestamp, GroupID := gm.GroupID }
        (UpdateUnreadCounts env gm.GroupID (s.heap M).userID
          (emit (Event.insertGroupMessage gm.GroupID (s.heap M).userID gm.Content
            env.timestamp true) s)).2))
  have hall := wrote_trans h1 (wrote_trans h2 (wrote_trans h3 h4))
  rw [← e] at hall
  have hw := writes_newEvents hall
  simp only [List.nil_append, List.append_nil] at hw
  refine ⟨hw, ?_⟩
  intro hM
  rw [hw]
  have hmem : (⟨(s.heap M).userID, M⟩ : Sigma (fun _ : Int => ConnPtr))
      ∈ (innerOf s.groupConnections gm.GroupID).entries := AList.mem_lookup_iff.1 hM
  exact List.mem_map.2 ⟨_, hmem, rfl⟩

/-- C6 amended, at a concrete input: the group_chat of "ann" to group 7. -/
theorem C6_broadcast_reaches_whole_set_witness :
    writesOfType "group_chat" (newEvents annInGroupState
        (handleGroupChat calmEnv 0 (some { GroupID := 7, Content := "hi" }) annInGroupState))
      = (innerOf annInGroupState.groupConnections 7).entries.map
          (fun e => (e.2, groupChatFrame
            { Sender := (annInGroupState.heap 0).nickname, Content := "hi",
              Timestamp := calmEnv.timestamp, GroupID := 7 })) :=
  (C6_broadcast_reaches_whole_set calmEnv annInGroupState 0 { GroupID := 7, Content := "hi" }
    (by decide) rfl).1

/-- C8, refuted as stated: "ann" sends a chat to "bob", who is registered as connection 1
and known to the database as user 2; the message persists, and two writes are attempted
on the connection of "bob": the chat frame and then the notification frame. -/
theorem C8_recipient_is_written_twice :
    annBobState.userConnections.lookup "bob" = some 1 ∧
    bobEnv.saveMessageOk "bob" (annBobState.heap 0).nickname "hi" bobEnv.timestamp = true ∧
    writesOf (newEvents annBobState
        (handlePrivateChat bobEnv 0 (some { To := "bob", Message := "hi" }) annBobState))
      = [(1, chatFrame "ann" { To := "bob", Message := "hi" } "2025-06-18T14:16:56Z"),
         (1, { typ := "notification"
               Data := Payload.notification "new_message" "ann sent you a new message" none
                 1750256216 })] := by
  decide

/-- The events of `CreateNotification`: the insert, and after a successful insert one
write of the notification frame on the connection picked for the user, if any. -/
theorem trace_CreateNotification (env : Env) (userID : Int) (ty msg : String)
    (rel : Option Int) (s : State) :
    (CreateNotification env userID ty msg rel s).2.trace
      = s.trace ++ (Event.insertNotification userID ty msg rel
            (env.insertNotificationOk userID ty msg rel) ::
          (if env.insertNotificationOk userID ty msg rel = true then
            (notificationTarget s userID).toList.map (fun c =>
              Event.write c (notificationFrame env ty msg rel)
                (env.writeOk c (notificationFrame env ty msg rel)))
          else [])) := by
  by_cases h : env.insertNotificationOk userID ty msg rel = true
  · simp only [CreateNotification, h, if_true, BroadcastNotificationToUser, notificationTarget,
      emit]
    cases hf : s.userConnections.entries.find?
        (fun e => decide ((s.heap e.2).userID = userID)) with
    | none => simp
    | some e => simp [writeJSON, emit, notificationFrame]
  · have h' : env.insertNotificationOk userID ty msg rel = false := by simpa using h
    simp [CreateNotification, h', emit]

/-- A connection picked by `notificationTarget` is registered and has the `userID` asked
for. -/
theorem notificationTarget_spec (s : State) (userID : Int) (c : ConnPtr)
    (hc : notificationTarget s userID = some c) :
    (s.heap c).userID = userID ∧ ∃ nickname, s.userConnections.lookup nickname = some c := by
  unfold notificationTarget at hc
  cases hf : s.userConnections.entries.find?
      (fun e => decide ((s.heap e.2).userID = userID)) with
  | none => rw [hf] at hc; exact Option.noConfusion hc
  | some e =>
    rw [hf] at hc
    have hce : e.2 = c := Option.some.inj hc
    have hp := List.find?_some hf
    have hm := List.mem_of_find?_eq_some hf
    rw [← hce]
    refine ⟨of_decide_eq_true hp, e.1, ?_⟩
    exact AList.mem_lookup_iff.2 hm

/-- The events of `deliverChat`: one write of the chat frame on the connection registered
under `To`, if any. -/
theorem events_deliverChat (env : Env) (nickname : String) (chatMsg : ChatMessage)
    (timestamp : String) (s : State) :
    (deliverChat env nickname chatMsg timestamp s).trace
      = s.trace ++ (s.userConnections.lookup chatMsg.To).toList.map (fun R =>
          Event.write R (chatFrame nickname chatMsg timestamp)
            (env.writeOk R (chatFrame nickname chatMsg timestamp))) := by
  unfold deliverChat
  cases h : s.userConnections.lookup chatMsg.To with
  | none => simp
  | some R => simp [writeJSON, emit, chatFrame]

/-- The events of `notifyRecipient` in a state with the identity table and the heap of
`s`. -/
theorem events_notifyRecipient (env : Env) (nickname : String) (chatMsg : ChatMessage)
    (s st : State) (hu : st.userConnections = s.userConnections) (hh : st.heap = s.heap) :
    (notifyRecipient env nickname chatMsg st).trace
      = st.trace ++ recipientNotification env s nickname chatMsg := by
  have ht : ∀ u, notificationTarget st u = notificationTarget s u := by
    intro u
    unfold notificationTarget
    rw [hu, hh]
  unfold notifyRecipient recipientNotification
  cases env.recipientID chatMsg.To with
  | none => simp
  | some rid =>
    simp only [CreateNewMessageNotification]
    rw [trace_CreateNotification, ht]

/-- C8, amended: for a chat frame whose durable write succeeds, the new events are
exactly: the durable write with the handler's timestamp; then one write of the chat frame
{from, to, message, that same timestamp} on the connection `R` registered under `to`,
and none when nobody is registered; then, when the table `users` knows `to` as user
`rid`, the insert of the "new_message" notification for `rid` and, when that insert
succeeded, one write of the notification frame on the connection picked for `rid`, if
any.  A connection picked for `rid` is registered and has `userID = rid`.  So the writes
of the handler are at most one chat frame and at most one notification frame, and the
heap and both routing tables are as before. -/
theorem C8_chat_delivery (env : Env) (s : State) (S : ConnPtr) (m : ChatMessage)
    (hsave : env.saveMessageOk m.To (s.heap S).nickname m.Message env.timestamp = true) :
    (newEvents s (handlePrivateChat env S (some m) s)).head?
      = some (Event.saveMessage m.To (s.heap S).nickname m.Message env.timestamp true) ∧
    writesOfType "chat" (newEvents s (handlePrivateChat env S (some m) s))
      = (s.userConnections.lookup m.To).toList.map
          (fun R => (R, chatFrame (s.heap S).nickname m env.timestamp)) ∧
    (∀ e ∈ newEvents s (handlePrivateChat env S (some m) s),
      Quiet ["chat", "notification"] e) ∧
    (handlePrivateChat env S (some m) s).userConnections = s.userConnections ∧
    (handlePrivateChat env S (some m) s).groupConnections = s.groupConnections ∧
    (handlePrivateChat env S (some m) s).heap = s.heap ∧
    newEvents s (handlePrivateChat env S (some m) s)
      = Event.saveMessage m.To (s.heap S).nickname m.Message env.timestamp true ::
          ((s.userConnections.lookup m.To).toList.map (fun R =>
              Event.write R (chatFrame (s.heap S).nickname m env.timestamp)
                (env.writeOk R (chatFrame (s.heap S).nickname m env.timestamp)))
            ++ recipientNotification env s (s.heap S).nickname m) ∧
    writesOf (newEvents s (handlePrivateChat env S (some m) s))
      = (s.userConnections.lookup m.To).toList.map
            (fun R => (R, chatFrame (s.heap S).nickname m env.timestamp))
          ++ (match env.recipientID m.To with
              | none => []
              | some rid =>
                if env.insertNotificationOk rid "new_message"
                    ((s.heap S).nickname ++ " sent you a new message") none = true then
                  (notificationTarget s rid).toList.map (fun c =>
                    (c, notificationFrame env "new_message"
                      ((s.heap S).nickname ++ " sent you a new message") none))
                else []) ∧
    (∀ rid c, notificationTarget s rid = some c →
      (s.heap c).userID = rid ∧ ∃ nickname, s.userConnections.lookup nickname = some c) := by
  have e : handlePrivateChat env S (some m) s
      = notifyRecipient env (s.heap S).nickname m
          (deliverChat env (s.heap S).nickname m env.timestamp
            (emit (Event.saveMessage m.To (s.heap S).nickname m.Message env.timestamp true)
              s)) := by
    simp [handlePrivateChat, hsave]
  have hd := trace_deliverChat env (s.heap S).nickname m env.timestamp
    (emit (Event.saveMessage m.To (s.heap S).nickname m.Message env.timestamp true) s)
  have hn := ext_notifyRecipient env (s.heap S).nickname m
    (deliverChat env (s.heap S).nickname m env.timestamp
      (emit (Event.saveMessage m.To (s.heap S).nickname m.Message env.timestamp true) s))
  have hsub : ∀ x, x ∈ ["notification"] → x ∈ ["chat", "notification"] := by
    intro x hx
    rw [List.mem_singleton.1 hx]
    decide
  have hreg1 := registry_of_traceOnly
    (traceOnly_deliverChat env (s.heap S).nickname m env.timestamp
      (emit (Event.saveMessage m.To (s.heap S).nickname m.Message env.timestamp true) s))
  have hall : (handlePrivateChat env S (some m) s).trace
      = s.trace ++
        (Event.saveMessage m.To (s.heap S).nickname m.Message env.timestamp true ::
          ((s.userConnections.lookup m.To).toList.map (fun R =>
              Event.write R (chatFrame (s.heap S).nickname m env.timestamp)
                (env.writeOk R (chatFrame (s.heap S).nickname m env.timestamp)))
            ++ recipientNotification env s (s.heap S).nickname m)) := by
    rw [e, events_notifyRecipient env (s.heap S).nickname m s _ hreg1.1 hreg1.2.2,
      events_deliverChat]
    simp [emit]
  have hev := newEvents_of_append hall
  refine ⟨?_, ?_, ?_, ?_⟩
  · rw [hev]
    rfl
  · have h1 : Wrote "chat" [] s
        (emit (Event.saveMessage m.To (s.heap S).nickname m.Message env.timestamp true) s) :=
      ⟨[_], rfl, rfl⟩
    have hall := wrote_trans h1 (wrote_trans hd.1 (wrote_of_ext "chat" (by decide) hn))
    rw [← e] at hall
    have hw := writes_newEvents hall
    simpa using hw
  · have h1 : Ext (Quiet ["chat", "notification"]) s
        (emit (Event.saveMessage m.To (s.heap S).nickname m.Message env.timestamp true) s) := by
      apply ext_emit
      exact quiet_of_not_write rfl
    have hall := ext_trans h1 (ext_trans hd.2 (ext_mono (quiet_mono hsub) hn))
    rw [← e] at hall
    exact quiet_newEvents hall
  · have hreg := registry_of_traceOnly (traceOnly_handlePrivateChat env S (some m) s)
    refine ⟨hreg.1, hreg.2.1, hreg.2.2, hev, ?_, fun rid c => notificationTarget_spec s rid c⟩
    rw [hev]
    unfold recipientNotification
    cases env.recipientID m.To with
    | none =>
      cases s.userConnections.lookup m.To with
      | none => simp [writesOf]
      | some R => simp [writesOf]
    | some rid =>
      dsimp only
      by_cases hi : env.insertNotificationOk rid "new_message"
          ((s.heap S).nickname ++ " sent you a new message") none = true
      · generalize notificationTarget s rid = target
        cases s.userConnections.lookup m.To with
        | none =>
          cases target with
          | none => simp [writesOf, hi]
          | some c => simp [writesOf, hi]
        | some R =>
          cases target with
          | none => simp [writesOf, hi]
          | some c => simp [writesOf, hi]
      · have hi' : env.insertNotificationOk rid "new_message"
            ((s.heap S).nickname ++ " sent you a new message") none = false := by
          simpa using hi
        cases s.userConnections.lookup m.To with
        | none => simp [writesOf, hi']
        | some R => simp [writesOf, hi']

/-- C8 amended, at a concrete input: the chat of "ann" to the registered "bob", whom the
database knows as user 2: the chat frame and the notification frame, both on the
connection 1 of "bob". -/
theorem C8_chat_delivery_witness :
    bobEnv.saveMessageOk "bob" (annBobState.heap 0).nickname "hi" bobEnv.timestamp = true ∧
    writesOf (newEvents annBobState
        (handlePrivateChat bobEnv 0 (some { To := "bob", Message := "hi" }) annBobState))
      = (annBobState.userConnections.lookup "bob").toList.map
            (fun R => (R, chatFrame (annBobState.heap 0).nickname
              { To := "bob", Message := "hi" } bobEnv.timestamp))
          ++ (match bobEnv.recipientID "bob" with
              | none => []
              | some rid =>
                if bobEnv.insertNotificationOk rid "new_message"
                    ((annBobState.heap 0).nickname ++ " sent you a new message") none = true then
                  (notificationTarget annBobState rid).toList.map (fun c =>
                    (c, notificationFrame bobEnv "new_message"
                      ((annBobState.heap 0).nickname ++ " sent you a new message") none))
                else []) :=
  ⟨rfl, (C8_chat_delivery bobEnv annBobState 0 { To := "bob", Message := "hi" }
    rfl).2.2.2.2.2.2.2.1⟩

/-! ## Group chat: who is written -/

/-- The writes of group_chat frames by an accepted and persisted `handleGroupChat`: one
per entry of the set of the group as it is when the handler starts. -/
theorem writes_handleGroupChat (env : Env) (s : State) (M : ConnPtr) (gm : GroupChatMessage)
    (hsub : (s.heap M).groups.lookup gm.GroupID = some true)
    (hok : env.insertGroupMessageOk gm.GroupID (s.heap M).userID gm.Content = true) :
    writesOfType "group_chat" (newEvents s (handleGroupChat env M (some gm) s))
      = (innerOf s.groupConnections gm.GroupID).entries.map
          (fun e => (e.2, groupChatFrame
            { Sender := (s.heap M).nickname, Content := gm.Content,
              Timestamp := env.timestamp, GroupID := gm.GroupID })) := by
  have e : handleGroupChat env M (some gm) s
      = notifyGroupMembers env gm.GroupID (s.heap M).userID (s.heap M).nickname
          (broadcastToGroup env gm.GroupID
            { Sender := (s.heap M).nickname, Content := gm.Content,
              Timestamp := env.timestamp, GroupID := gm.GroupID }
            (UpdateUnreadCounts env gm.GroupID (s.heap M).userID
              (emit (Event.insertGroupMessage gm.GroupID (s.heap M).userID gm.Content
                env.timestamp true) s)).2) := by
    simp [handleGroupChat, hsub, hok]
  have h1 : Wrote "group_chat" [] s
      (emit (Event.insertGroupMessage gm.GroupID (s.heap M).userID gm.Content
        env.timestamp true) s) := ⟨[_], rfl, rfl⟩
  have h2 := wrote_of_ext "group_chat" (by decide)
    (ext_UpdateUnreadCounts env gm.GroupID (s.heap M).userID
      (emit (Event.insertGroupMessage gm.GroupID (s.heap M).userID gm.Content
        env.timestamp true) s))
  have h3 := trace_broadcastToGroup env gm.GroupID
    { Sender := (s.heap M).nickname, Content := gm.Content,
      Timestamp := env.timestamp, GroupID := gm.GroupID }
    (UpdateUnreadCounts env gm.GroupID (s.heap M).userID
      (emit (Event.insertGroupMessage gm.GroupID (s.heap M).userID gm.Content
        env.timestamp true) s)).2
  rw [(groups_UpdateUnreadCounts _ _ _ _).1] at h3
  have h4 := wrote_of_ext "group_chat" (by decide)
    (ext_notifyGroupMembers env gm.GroupID (s.heap M).userID (s.heap M).nickname
      (broadcastToGroup env gm.GroupID
        { Sender := (s.heap M).nickname, Content := gm.Content,
          Timestamp := env.timestamp, GroupID := gm.GroupID }
        (UpdateUnreadCounts env gm.GroupID (s.heap M).userID
          (emit (Event.insertGroupMessage gm.GroupID (s.heap M).userID gm.Content
            env.timestamp true) s)).2))
  have hall := wrote_trans h1 (wrote_trans h2 (wrote_trans h3 h4))
  rw [← e] at hall
  have hw := writes_newEvents hall
  simpa using hw

/-- The state after a subscribe command whose membership check succeeds. -/
theorem handleGroupSubscription_ok (env : Env) (s : State) (A : ConnPtr) (g : Int) (n : Int)
    (hm : env.memberCount g (s.heap A).userID = some n) (hn : n ≠ 0) :
    (handleGroupSubscription env A (some { GroupID := g }) s).heap A
      = { s.heap A with groups := (s.heap A).groups.insert g true } ∧
    innerOf (handleGroupSubscription env A (some { GroupID := g }) s).groupConnections g
      = (innerOf s.groupConnections g).insert (s.heap A).userID A := by
  constructor
  · simp only [handleGroupSubscription, hm, hn, if_false, emit, Function.update_same]
  · apply innerOf_of_lookup
    simp only [handleGroupSubscription, hm, hn, if_false, emit]
    rw [lookup_subscribe_table]
    simp

/-- C11, refuted as stated: "ann" (connection 0) and "bob" (connection 1) are connected
and members of group 7, only "ann" subscribes; her persisted group_chat is written to her
own connection and to no other: "bob" is written no group_chat frame. -/
theorem C11_only_subscribers_are_written :
    calmEnv.memberCount 7 (annBobState.heap 0).userID = some 1 ∧
    calmEnv.memberCount 7 (annBobState.heap 1).userID = some 1 ∧
    writesOfType "group_chat" (newEvents annSubscribedBobNot
        (handleGroupChat calmEnv 0 (some { GroupID := 7, Content := "hi" })
          annSubscribedBobNot))
      = [(0, groupChatFrame
          { Sender := "ann", Content := "hi", Timestamp := "2025-06-18T14:16:56Z",
            GroupID := 7 })] := by
  decide

/-- C11, amended: with A and B connected, B not in the set of `g`, after A subscribes to
`g` with a successful membership check and sends a group_chat that persists, the
group_chat frame with sender = A's nickname, content = c and groupId = g is written to
A's own connection, and no group_chat frame is written to B's connection: the broadcast
reaches the connections subscribed to `g`, the sender included. -/
theorem C11_broadcast_reaches_subscribers (env1 env2 : Env) (s : State) (A B : ConnPtr)
    (g : Int) (c : String) (n : Int) (hAB : A ≠ B)
    (hB : ∀ u, (innerOf s.groupConnections g).lookup u ≠ some B)
    (hm : env1.memberCount g (s.heap A).userID = some n) (hn : n ≠ 0)
    (hok : env2.insertGroupMessageOk g (s.heap A).userID c = true) :
    (A, groupChatFrame
        { Sender := (s.heap A).nickname, Content := c, Timestamp := env2.timestamp,
          GroupID := g })
      ∈ writesOfType "group_chat"
          (newEvents (handleGroupSubscription env1 A (some { GroupID := g }) s)
            (handleGroupChat env2 A (some { GroupID := g, Content := c })
              (handleGroupSubscription env1 A (some { GroupID := g }) s))) ∧
    ∀ m, (B, m) ∉ writesOfType "group_chat"
          (newEvents (handleGroupSubscription env1 A (some { GroupID := g }) s)
            (handleGroupChat env2 A (some { GroupID := g, Content := c })
              (handleGroupSubscription env1 A (some { GroupID := g }) s))) := by
  obtain ⟨hheap, hinner⟩ := handleGroupSubscription_ok env1 s A g n hm hn
  have hsub : ((handleGroupSubscription env1 A (some { GroupID := g }) s).heap A).groups.lookup g
      = some true := by
    rw [hheap]
    exact AList.lookup_insert _
  have huid : ((handleGroupSubscription env1 A (some { GroupID := g }) s).heap A).userID
      = (s.heap A).userID := by rw [hheap]
  have hnick : ((handleGroupSubscription env1 A (some { GroupID := g }) s).heap A).nickname
      = (s.heap A).nickname := by rw [hheap]
  have hok' : env2.insertGroupMessageOk g
      ((handleGroupSubscription env1 A (some { GroupID := g }) s).heap A).userID c = true := by
    rw [huid]; exact hok
  have hw := writes_handleGroupChat env2 (handleGroupSubscription env1 A (some { GroupID := g }) s)
    A { GroupID := g, Content := c } hsub hok'
  simp only [hinner, hnick] at hw
  rw [hw]
  constructor
  · have hmem : (⟨(s.heap A).userID, A⟩ : Sigma (fun _ : Int => ConnPtr))
        ∈ ((innerOf s.groupConnections g).insert (s.heap A).userID A).entries :=
      AList.mem_lookup_iff.1 (AList.lookup_insert _)
    exact List.mem_map.2 ⟨_, hmem, rfl⟩
  · intro m hmem
    obtain ⟨e, he, heq⟩ := List.mem_map.1 hmem
    have he2 : e.2 = B := congrArg Prod.fst heq
    have hl : ((innerOf s.groupConnections g).insert (s.heap A).userID A).lookup e.1
        = some e.2 := AList.mem_lookup_iff.2 he
    rw [lookup_insert_eq, he2] at hl
    by_cases hk : e.1 = (s.heap A).userID
    · simp only [hk, if_true, Option.some.injEq] at hl
      exact hAB hl
    · simp only [hk, if_false] at hl
      exact hB e.1 hl

/-- C11 amended, at a concrete input: "ann" subscribes to group 7 and sends "hi" while
"bob" is connected and not subscribed. -/
theorem C11_broadcast_reaches_subscribers_witness :
    (0, groupChatFrame
        { Sender := (annBobState.heap 0).nickname, Content := "hi",
          Timestamp := calmEnv.timestamp, GroupID := 7 })
      ∈ writesOfType "group_chat"
          (newEvents (handleGroupSubscription calmEnv 0 (some { GroupID := 7 }) annBobState)
            (handleGroupChat calmEnv 0 (some { GroupID := 7, Content := "hi" })
              (handleGroupSubscription calmEnv 0 (some { GroupID := 7 }) annBobState))) ∧
    ∀ m, (1, m) ∉ writesOfType "group_chat"
          (newEvents (handleGroupSubscription calmEnv 0 (some { GroupID := 7 }) annBobState)
            (handleGroupChat calmEnv 0 (some { GroupID := 7, Content := "hi" })
              (handleGroupSubscription calmEnv 0 (some { GroupID := 7 }) annBobState))) :=
  C11_broadcast_reaches_subscribers calmEnv calmEnv annBobState 0 1 7 "hi" 1 (by decide)
    (fun u h => Option.noConfusion ((AList.lookup_empty u).symm.trans h)) rfl (by decide) rfl

/-! ## Failed writes -/

theorem broadcastOne_state (env : Env) (g : Int) (msg : GroupChatResponse) (st : State)
    (e : Sigma (fun _ : Int => ConnPtr)) (cur : GoMap Int ConnPtr)
    (hcur : st.groupConnections.lookup g = some cur) :
    (broadcastOne env g msg st e).groupConnections.lookup g
      = some (survivors env msg [e] cur) ∧
    (∀ g', g' ≠ g → (broadcastOne env g msg st e).groupConnections.lookup g'
      = st.groupConnections.lookup g') ∧
    (broadcastOne env g msg st e).trace = st.trace ++ broadcastEvents env msg [e] ∧
    (broadcastOne env g msg st e).userConnections = st.userConnections ∧
    (broadcastOne env g msg st e).heap = st.heap := by
  unfold broadcastOne
  by_cases h : env.writeOk e.2 (groupChatFrame msg) = true
  · have h' : env.writeOk e.2 { typ := "group_chat", Data := Payload.groupChat msg } = true := h
    simp only [writeJSON, h', if_true]
    refine ⟨?_, fun _ _ => rfl, ?_, rfl, rfl⟩
    · simp [survivors, h, emit, hcur]
    · simp [broadcastEvents, emit, groupChatFrame, h']
  · have h' : ¬ env.writeOk e.2 { typ := "group_chat", Data := Payload.groupChat msg } = true := h
    have hb : env.writeOk e.2 { typ := "group_chat", Data := Payload.groupChat msg } = false := by
      simpa using h'
    simp only [writeJSON, hb, Bool.false_eq_true, if_false, emit]
    refine ⟨?_, ?_, ?_, by trivial, by trivial⟩
    · rw [lookup_replace_self, hcur, innerOf_of_lookup hcur]
      simp [survivors, h]
    · intro g' hg'
      exact lookup_replace_ne _ _ hg'
    · simp [broadcastEvents, groupChatFrame, hb]

theorem survivors_cons (env : Env) (msg : GroupChatResponse)
    (e : Sigma (fun _ : Int => ConnPtr)) (tl : List (Sigma (fun _ : Int => ConnPtr)))
    (cur : GoMap Int ConnPtr) :
    survivors env msg (e :: tl) cur = survivors env msg tl (survivors env msg [e] cur) := by
  simp [survivors]

theorem broadcastEvents_cons (env : Env) (msg : GroupChatResponse)
    (e : Sigma (fun _ : Int => ConnPtr)) (tl : List (Sigma (fun _ : Int => ConnPtr))) :
    broadcastEvents env msg (e :: tl) = broadcastEvents env msg [e] ++ broadcastEvents env msg tl := by
  simp [broadcastEvents]

/-- The loop of `broadcastToGroup`, entry by entry: what it leaves in the set of the
group, in the other sets, in the trace, in the identity table and in the heap. -/
theorem broadcast_foldl_state (env : Env) (g : Int) (msg : GroupChatResponse)
    (l : List (Sigma (fun _ : Int => ConnPtr))) (st : State) (cur : GoMap Int ConnPtr)
    (hcur : st.groupConnections.lookup g = some cur) :
    (l.foldl (broadcastOne env g msg) st).groupConnections.lookup g
      = some (survivors env msg l cur) ∧
    (∀ g', g' ≠ g → (l.foldl (broadcastOne env g msg) st).groupConnections.lookup g'
      = st.groupConnections.lookup g') ∧
    (l.foldl (broadcastOne env g msg) st).trace = st.trace ++ broadcastEvents env msg l ∧
    (l.foldl (broadcastOne env g msg) st).userConnections = st.userConnections ∧
    (l.foldl (broadcastOne env g msg) st).heap = st.heap := by
  induction l generalizing st cur with
  | nil => exact ⟨by simp [survivors, hcur], fun _ _ => rfl, by simp [broadcastEvents], rfl, rfl⟩
  | cons e tl ih =>
    obtain ⟨h1, h2, h3, h4, h5⟩ := broadcastOne_state env g msg st e cur hcur
    obtain ⟨i1, i2, i3, i4, i5⟩ := ih (broadcastOne env g msg st e) _ h1
    simp only [List.foldl_cons]
    refine ⟨?_, ?_, ?_, i4.trans h4, i5.trans h5⟩
    · exact i1.trans (congrArg some (survivors_cons env msg e tl cur).symm)
    · intro g' hg'
      rw [i2 g' hg', h2 g' hg']
    · rw [i3, h3, List.append_assoc]
      exact congrArg (fun x => st.trace ++ x) (broadcastEvents_cons env msg e tl).symm

/-- An entry survives the loop exactly when it was there and no entry of `l` under its
key had a failed write. -/
theorem lookup_survivors (env : Env) (msg : GroupChatResponse)
    (l : List (Sigma (fun _ : Int => ConnPtr))) (cur : GoMap Int ConnPtr) (u : Int)
    (c : ConnPtr) :
    (survivors env msg l cur).lookup u = some c ↔
      cur.lookup u = some c ∧
        ¬ ∃ e ∈ l, e.1 = u ∧ env.writeOk e.2 (groupChatFrame msg) = false := by
  induction l generalizing cur with
  | nil => simp [survivors]
  | cons e tl ih =>
    rw [survivors_cons, ih]
    by_cases h : env.writeOk e.2 (groupChatFrame msg) = true
    · have e1 : survivors env msg [e] cur = cur := by simp [survivors, h]
      rw [e1]
      constructor
      · rintro ⟨hc, hn⟩
        refine ⟨hc, ?_⟩
        rintro ⟨e', he', hk, hf⟩
        rcases List.mem_cons.1 he' with rfl | hmem
        · rw [h] at hf
          exact Bool.noConfusion hf
        · exact hn ⟨e', hmem, hk, hf⟩
      · rintro ⟨hc, hn⟩
        exact ⟨hc, fun ⟨e', he', hk, hf⟩ => hn ⟨e', List.mem_cons_of_mem _ he', hk, hf⟩⟩
    · have hb : env.writeOk e.2 (groupChatFrame msg) = false := by simpa using h
      have e1 : survivors env msg [e] cur = cur.erase e.1 := by simp [survivors, h]
      rw [e1, lookup_erase_eq]
      constructor
      · rintro ⟨hc, hn⟩
        by_cases hu : u = e.1
        · simp [hu] at hc
        · simp only [hu, if_false] at hc
          refine ⟨hc, ?_⟩
          rintro ⟨e', he', hk, hf⟩
          rcases List.mem_cons.1 he' with rfl | hmem
          · exact hu hk.symm
          · exact hn ⟨e', hmem, hk, hf⟩
      · rintro ⟨hc, hn⟩
        have hu : u ≠ e.1 := fun hu => hn ⟨e, List.mem_cons_self _ _, hu.symm, hb⟩
        simp only [hu, if_false]
        exact ⟨hc, fun ⟨e', he', hk, hf⟩ => hn ⟨e', List.mem_cons_of_mem _ he', hk, hf⟩⟩

/-- The function `broadcastToGroup` on a group that has a set: the state it leaves. -/
theorem broadcastToGroup_state (env : Env) (g : Int) (msg : GroupChatResponse) (s : State)
    (inner : GoMap Int ConnPtr) (hg : s.groupConnections.lookup g = some inner) :
    (broadcastToGroup env g msg s).groupConnections.lookup g
      = some (survivors env msg inner.entries inner) ∧
    (∀ g', g' ≠ g → (broadcastToGroup env g msg s).groupConnections.lookup g'
      = s.groupConnections.lookup g') ∧
    (broadcastToGroup env g msg s).trace = s.trace ++ broadcastEvents env msg inner.entries ∧
    (broadcastToGroup env g msg s).userConnections = s.userConnections ∧
    (broadcastToGroup env g msg s).heap = s.heap := by
  have e : broadcastToGroup env g msg s = inner.entries.foldl (broadcastOne env g msg) s := by
    simp [broadcastToGroup, hg]
  rw [e]
  exact broadcast_foldl_state env g msg inner.entries s inner hg

/-- C12, refuted as stated: "ann" sends a chat to the registered "bob" (connection 1,
subscribed to groups 7 and 8); the message persists and the write on his connection
fails; after the handler the identity table still maps "bob" to connection 1 and the set
of group 7 still holds it. -/
theorem C12_failed_chat_write_evicts_nothing :
    crowdState.userConnections.lookup "bob" = some 1 ∧
    deafEnv.saveMessageOk "bob" (crowdState.heap 0).nickname "hi" deafEnv.timestamp = true ∧
    deafEnv.writeOk 1 (chatFrame "ann" { To := "bob", Message := "hi" } deafEnv.timestamp)
      = false ∧
    (handlePrivateChat deafEnv 0 (some { To := "bob", Message := "hi" })
      crowdState).userConnections.lookup "bob" = some 1 ∧
    (innerOf (handlePrivateChat deafEnv 0 (some { To := "bob", Message := "hi" })
      crowdState).groupConnections 7).lookup 2 = some 1 := by
  decide

/-- C12, amended: when the recipient is registered and the write on the recipient's
connection errs, the error is only logged: the new events are the persisted message, the
failed write and then what the notification step does, and the handler leaves the heap
and the group table as they were, so the recipient's connection stays in every group set
it was in. -/
theorem C12_failed_chat_write_is_only_logged (env : Env) (s : State) (S R : ConnPtr)
    (m : ChatMessage)
    (hsave : env.saveMessageOk m.To (s.heap S).nickname m.Message env.timestamp = true)
    (hR : s.userConnections.lookup m.To = some R)
    (hfail : env.writeOk R (chatFrame (s.heap S).nickname m env.timestamp) = false) :
    (∃ evs, newEvents s (handlePrivateChat env S (some m) s)
        = Event.saveMessage m.To (s.heap S).nickname m.Message env.timestamp true
          :: Event.write R (chatFrame (s.heap S).nickname m env.timestamp) false :: evs ∧
      ∀ e ∈ evs, Quiet ["notification"] e) ∧
    (handlePrivateChat env S (some m) s).groupConnections = s.groupConnections ∧
    (handlePrivateChat env S (some m) s).heap = s.heap := by
  have e : handlePrivateChat env S (some m) s
      = notifyRecipient env (s.heap S).nickname m
          (emit (Event.write R (chatFrame (s.heap S).nickname m env.timestamp) false)
            (emit (Event.saveMessage m.To (s.heap S).nickname m.Message env.timestamp true)
              s)) := by
    have hfail' : env.writeOk R
        { typ := "chat"
          Data := Payload.chat
            { From := (s.heap S).nickname, To := m.To, Message := m.Message,
              Timestamp := env.timestamp } } = false := hfail
    simp [handlePrivateChat, hsave, deliverChat, emit, hR, writeJSON, hfail', chatFrame]
  have hreg := registry_of_traceOnly (traceOnly_handlePrivateChat env S (some m) s)
  refine ⟨?_, hreg.2.1, hreg.2.2⟩
  obtain ⟨evs, ht, hq⟩ := ext_notifyRecipient env (s.heap S).nickname m
    (emit (Event.write R (chatFrame (s.heap S).nickname m env.timestamp) false)
      (emit (Event.saveMessage m.To (s.heap S).nickname m.Message env.timestamp true) s))
  rw [← e] at ht
  refine ⟨evs, ?_, hq⟩
  apply newEvents_of_append
  rw [ht]
  simp [emit]

/-- C12 amended, at a concrete input: the chat of "ann" to "bob" on dead sockets. -/
theorem C12_failed_chat_write_is_only_logged_witness :
    (handlePrivateChat deafEnv 0 (some { To := "bob", Message := "hi" })
      crowdState).groupConnections = crowdState.groupConnections ∧
    (handlePrivateChat deafEnv 0 (some { To := "bob", Message := "hi" }) crowdState).heap
      = crowdState.heap :=
  (C12_failed_chat_write_is_only_logged deafEnv crowdState 0 1 { To := "bob", Message := "hi" }
    rfl (by decide) rfl).2

/-- C13, refuted as stated: "bob" (connection 1, user 2) is in the sets of groups 7 and
8 and registered as "bob"; the write on his connection fails during a broadcast to group
7.  Afterwards he is gone from the set of group 7, but the identity table still maps
"bob" to connection 1 and the set of group 8 still holds it; and after a broadcast to
group 8, where he is the only member, the emptied set is still in the group table. -/
theorem C13_failed_member_stays_elsewhere :
    (innerOf crowdState.groupConnections 7).lookup 2 = some 1 ∧
    bobDeafEnv.writeOk 1 (groupChatFrame
      { Sender := "ann", Content := "hi", Timestamp := "t", GroupID := 7 }) = false ∧
    (innerOf (broadcastToGroup bobDeafEnv 7
      { Sender := "ann", Content := "hi", Timestamp := "t", GroupID := 7 }
      crowdState).groupConnections 7).lookup 2 = none ∧
    (broadcastToGroup bobDeafEnv 7
      { Sender := "ann", Content := "hi", Timestamp := "t", GroupID := 7 }
      crowdState).userConnections.lookup "bob" = some 1 ∧
    (innerOf (broadcastToGroup bobDeafEnv 7
      { Sender := "ann", Content := "hi", Timestamp := "t", GroupID := 7 }
      crowdState).groupConnections 8).lookup 2 = some 1 ∧
    ((broadcastToGroup bobDeafEnv 8
      { Sender := "bob", Content := "hi", Timestamp := "t", GroupID := 8 }
      crowdState).groupConnections.lookup 8).map len = some 0 := by
  decide

/-- C13, amended: for every member connection `D` of the set of `g` whose write fails
during `broadcastToGroup`, the transport of `D` is closed and its entry is deleted from
the set of `g`, so after the broadcast `D` is absent from that set; the members whose
write succeeded are still in it, and the sets of all other groups are as before (`D`
stays in the other sets it was in). -/
theorem C13_failed_member_leaves_that_set (env : Env) (g : Int) (msg : GroupChatResponse)
    (s : State) (D : ConnPtr) (u : Int)
    (hD : (innerOf s.groupConnections g).lookup u = some D)
    (hfail : env.writeOk D (groupChatFrame msg) = false) :
    (∀ u', (innerOf (broadcastToGroup env g msg s).groupConnections g).lookup u' ≠ some D) ∧
    Event.close D ∈ newEvents s (broadcastToGroup env g msg s) ∧
    (∀ u' c, (innerOf s.groupConnections g).lookup u' = some c →
      env.writeOk c (groupChatFrame msg) = true →
      (innerOf (broadcastToGroup env g msg s).groupConnections g).lookup u' = some c) ∧
    (∀ g', g' ≠ g →
      (broadcastToGroup env g msg s).groupConnections.lookup g'
        = s.groupConnections.lookup g') := by
  cases hg : s.groupConnections.lookup g with
  | none =>
    rw [innerOf_of_none hg] at hD
    exact Option.noConfusion ((AList.lookup_empty u).symm.trans hD)
  | some inner =>
    rw [innerOf_of_lookup hg] at hD
    obtain ⟨h1, h2, h3, _, _⟩ := broadcastToGroup_state env g msg s inner hg
    rw [innerOf_of_lookup hg, innerOf_of_lookup h1]
    refine ⟨?_, ?_, ?_, h2⟩
    · intro u' hu'
      obtain ⟨hc, hn⟩ := (lookup_survivors env msg inner.entries inner u' D).1 hu'
      exact hn ⟨⟨u', D⟩, AList.mem_lookup_iff.1 hc, rfl, hfail⟩
    · rw [newEvents_of_append h3]
      unfold broadcastEvents
      refine List.mem_flatMap.2 ⟨⟨u, D⟩, AList.mem_lookup_iff.1 hD, ?_⟩
      simp [hfail]
    · intro u' c hc hok
      refine (lookup_survivors env msg inner.entries inner u' c).2 ⟨hc, ?_⟩
      rintro ⟨e, he, hk, hf⟩
      have hl : inner.lookup e.1 = some e.2 := AList.mem_lookup_iff.2 he
      rw [hk, hc] at hl
      have : c = e.2 := Option.some.inj hl
      rw [this, hf] at hok
      exact Bool.noConfusion hok

/-- C13 amended, at a concrete input: the broadcast to group 7 with the dead connection
of "bob". -/
theorem C13_failed_member_leaves_that_set_witness :
    (∀ u', (innerOf (broadcastToGroup bobDeafEnv 7
        { Sender := "ann", Content := "hi", Timestamp := "t", GroupID := 7 }
        crowdState).groupConnections 7).lookup u' ≠ some 1) ∧
    Event.close 1 ∈ newEvents crowdState (broadcastToGroup bobDeafEnv 7
        { Sender := "ann", Content := "hi", Timestamp := "t", GroupID := 7 } crowdState) :=
  ⟨(C13_failed_member_leaves_that_set bobDeafEnv 7
      { Sender := "ann", Content := "hi", Timestamp := "t", GroupID := 7 }
      crowdState 1 2 (by decide) (by decide)).1,
   (C13_failed_member_leaves_that_set bobDeafEnv 7
      { Sender := "ann", Content := "hi", Timestamp := "t", GroupID := 7 }
      crowdState 1 2 (by decide) (by decide)).2.1⟩

/-! ## The backlog -/

theorem trace_pending_foldl (env : Env) (c : ConnPtr) (N : String) (msgs : List Message)
    (st : State) :
    (msgs.foldl (fun st msg => (writeJSON env c (pendingFrame N msg) st).2) st).trace
      = st.trace ++ pendingWrites env c N msgs := by
  induction msgs generalizing st with
  | nil => simp [pendingWrites]
  | cons m tl ih =>
    simp only [List.foldl_cons]
    rw [ih]
    simp [pendingWrites, writeJSON, emit]

/-- The function `pushPending` writes one chat frame per stored message, in order, and
nothing when `GetMessagesForUser` errs. -/
theorem trace_pushPending (env : Env) (c : ConnPtr) (s : State) :
    (pushPending env c s).trace
      = s.trace ++ pendingWrites env c (s.heap c).nickname
          ((env.pendingMessages (s.heap c).nickname).getD []) := by
  unfold pushPending
  cases h : env.pendingMessages (s.heap c).nickname with
  | none => simp [pendingWrites]
  | some msgs => exact trace_pending_foldl env c (s.heap c).nickname msgs s

theorem applyToMessages_mono (table : List MessageRow) (e : Event) (row : MessageRow)
    (h : row ∈ table) : row ∈ applyToMessages table e := by
  unfold applyToMessages
  split
  · exact List.mem_append_left _ h
  · exact h

theorem foldl_applyToMessages_mono (trace : List Event) (table : List MessageRow)
    (row : MessageRow) (h : row ∈ table) : row ∈ trace.foldl applyToMessages table := by
  induction trace generalizing table with
  | nil => exact h
  | cons e tl ih => exact ih _ (applyToMessages_mono table e row h)

theorem foldl_applyToMessages_mem (trace : List Event) (table : List MessageRow)
    (recipient sender message timestamp : String)
    (h : Event.saveMessage recipient sender message timestamp true ∈ trace) :
    ∃ key, ({ message_id := key, recipient := recipient, sender := sender,
              message := message, timestamp := timestamp } : MessageRow)
      ∈ trace.foldl applyToMessages table := by
  induction trace generalizing table with
  | nil => exact absurd h (List.not_mem_nil _)
  | cons e tl ih =>
    rcases List.mem_cons.1 h with rfl | hmem
    · refine ⟨table.length + 1, ?_⟩
      rw [List.foldl_cons]
      apply foldl_applyToMessages_mono
      simp [applyToMessages, insertMessage]
    · rw [List.foldl_cons]
      exact ih _ hmem

/-- A message whose `SaveMessage` succeeded is a row of the table `messages`. -/
theorem mem_messagesTable (trace : List Event) (recipient sender message timestamp : String)
    (h : Event.saveMessage recipient sender message timestamp true ∈ trace) :
    ∃ key, ({ message_id := key, recipient := recipient, sender := sender,
              message := message, timestamp := timestamp } : MessageRow)
      ∈ messagesTable trace :=
  foldl_applyToMessages_mem trace [] recipient sender message timestamp h

theorem mem_GetMessagesForUser (table : List MessageRow) (row : MessageRow)
    (h : row ∈ table) :
    ({ MessageID := row.message_id, Sender := row.sender, Message := row.message,
       Timestamp := row.timestamp } : Message) ∈ GetMessagesForUser table row.recipient := by
  unfold GetMessagesForUser
  refine List.mem_map.2 ⟨row, ?_, rfl⟩
  exact List.mem_filter.2 ⟨h, by simp⟩

/-! ## The trace only grows -/

theorem grows_of_ext {P : Event → Prop} {s s' : State} (h : Ext P s s') :
    Ext (fun _ => True) s s' :=
  ext_mono (fun _ _ => trivial) h

theorem grows_of_traceOnly {s s' : State} (h : TraceOnly s s') : Ext (fun _ => True) s s' := by
  obtain ⟨evs, ht⟩ := trace_of_traceOnly h
  exact ⟨evs, ht, fun _ _ => trivial⟩

theorem grows_of_wrote {ty : String} {ws : List (ConnPtr × WebSocketMessage)} {s s' : State}
    (h : Wrote ty ws s s') : Ext (fun _ => True) s s' := by
  obtain ⟨evs, ht, _⟩ := h
  exact ⟨evs, ht, fun _ _ => trivial⟩

theorem grows_handleGroupSubscription (env : Env) (conn : ConnPtr)
    (data : Option GroupSubscription) (s : State) :
    Ext (fun _ => True) s (handleGroupSubscription env conn data s) := by
  unfold handleGroupSubscription
  cases data with
  | none => exact ext_refl _ s
  | some sub =>
    simp only
    split
    · exact ext_emit trivial s
    · split
      · exact ext_emit trivial s
      · exact ⟨[_], rfl, fun _ _ => trivial⟩

theorem grows_handleGroupUnsubscription (conn : ConnPtr) (data : Option GroupSubscription)
    (s : State) : Ext (fun _ => True) s (handleGroupUnsubscription conn data s) := by
  unfold handleGroupUnsubscription
  cases data with
  | none => exact ext_refl _ s
  | some sub => exact ⟨[], (List.append_nil _).symm, fun _ h => absurd h (List.not_mem_nil _)⟩

theorem grows_handleGroupChat (env : Env) (conn : ConnPtr) (data : Option GroupChatMessage)
    (s : State) : Ext (fun _ => True) s (handleGroupChat env conn data s) := by
  unfold handleGroupChat
  cases data with
  | none => exact ext_refl _ s
  | some groupMsg =>
    simp only
    split
    · exact ext_refl _ s
    · split
      · exact ext_trans (ext_emit trivial s)
          (ext_trans (grows_of_ext (ext_UpdateUnreadCounts _ _ _ _))
            (ext_trans (grows_of_wrote (trace_broadcastToGroup _ _ _ _))
              (grows_of_ext (ext_notifyGroupMembers _ _ _ _ _))))
      · exact ext_emit trivial s

theorem grows_dispatch (env : Env) (c : ConnPtr) (typ : String) (data : RawData) (s : State) :
    Ext (fun _ => True) s (dispatch env c typ data s) := by
  unfold dispatch
  split
  · exact grows_of_traceOnly (traceOnly_handlePrivateChat _ _ _ _)
  · split
    · exact grows_handleGroupSubscription _ _ _ _
    · split
      · exact grows_handleGroupUnsubscription _ _ _
      · split
        · exact grows_handleGroupChat _ _ _ _
        · exact ext_refl _ s

theorem grows_readLoop (c : ConnPtr) (inbound : List Inbound) (s : State) :
    Ext (fun _ => True) s (readLoop c inbound s) := by
  induction inbound generalizing s with
  | nil => exact ext_refl _ s
  | cons f tl ih =>
    cases f with
    | readError => exact ⟨[], (List.append_nil _).symm, fun _ h => absurd h (List.not_mem_nil _)⟩
    | malformed => exact ih s
    | frame env typ data => exact ext_trans (grows_dispatch env c typ data s) (ih _)

/-- C14, refuted as stated: "ann" sends the chat "hi" to "bob" while he is offline, and
it is stored.  "bob" connects: his handler registers connection 1 under "bob" (line 109).
Before that handler fetches the stored messages (line 112), the handler of "ann"
dispatches her next chat, "live": it finds connection 1 registered and writes the live
frame on it.  Only then does the handler of "bob" push what `GetMessagesForUser`
returns.  The frames written on connection 1 are "live", "hi", "live": the message sent
while "bob" was offline comes after live traffic on his connection. -/
theorem C14_live_frame_precedes_backlog :
    offlineChatState.userConnections.lookup "bob" = none ∧
    GetMessagesForUser (messagesTable offlineChatState.trace) "bob"
      = [{ MessageID := 1, Sender := "ann", Message := "hi",
           Timestamp := "2025-06-18T14:16:56Z" }] ∧
    (register 2 "bob" offlineChatState).1 = 1 ∧
    writesOf (newEvents offlineChatState
        (pushPending (dbEnv calmEnv liveBeforeBacklog.trace) 1 liveBeforeBacklog))
      = [(1, chatFrame "ann" { To := "bob", Message := "live" } "2025-06-18T14:16:56Z"),
         (1, chatFrame "ann" { To := "bob", Message := "hi" } "2025-06-18T14:16:56Z"),
         (1, chatFrame "ann" { To := "bob", Message := "live" } "2025-06-18T14:16:56Z")] := by
  decide

/-- C14, amended: on a successful upgrade of a user with nickname `N`, when
`GetMessagesForUser` returns `msgs`, the handler writes to the new connection one chat
frame per message of `msgs`, in order, each with data {from: stored sender, to: N,
message: stored text, timestamp: stored timestamp}, and only then runs its read loop:
these writes are the first events of the handler itself, before anything its own inbound
frames cause.  Whatever the table `messages` held at the start, when the answer contains
the rows of the table for `N`, a message persisted for `N` earlier is among the frames
pushed. -/
theorem C14_backlog_pushed_before_reading (env : Env) (req : UpgradeRequest)
    (inbound : List Inbound) (s : State) (sessionID : String) (userID : Int) (N : String)
    (msgs : List Message) (hcookie : req.cookie = some sessionID)
    (hsess : GetUserIDBySession req.sessions sessionID = some userID)
    (hN : (req.nicknameOf userID).getD "Guest" = N) (hup : req.upgradeOk = true)
    (hmsgs : env.pendingMessages N = some msgs) :
    (UnifiedWebSocketHandler env req inbound s).1 = Outcome.upgraded s.next ∧
    (UnifiedWebSocketHandler env req inbound s).2
      = readLoop s.next inbound (pushPending env s.next (register userID N s).2) ∧
    newEvents s (pushPending env s.next (register userID N s).2)
      = pendingWrites env s.next N msgs ∧
    (∃ rest, newEvents s (UnifiedWebSocketHandler env req inbound s).2
      = pendingWrites env s.next N msgs ++ rest) ∧
    (∀ (table : List MessageRow) (sender text timestamp : String),
      (∀ msg ∈ GetMessagesForUser (s.trace.foldl applyToMessages table) N, msg ∈ msgs) →
      Event.saveMessage N sender text timestamp true ∈ s.trace →
      Event.write s.next (chatFrame sender { To := N, Message := text } timestamp)
          (env.writeOk s.next (chatFrame sender { To := N, Message := text } timestamp))
        ∈ pendingWrites env s.next N msgs) := by
  have hrun : UnifiedWebSocketHandler env req inbound s
      = (Outcome.upgraded s.next,
          readLoop s.next inbound (pushPending env s.next (register userID N s).2)) := by
    simp [UnifiedWebSocketHandler, hcookie, hsess, hN, hup, register]
  have hnick : ((register userID N s).2.heap s.next).nickname = N := by
    simp [register]
  have hpush : (pushPending env s.next (register userID N s).2).trace
      = s.trace ++ pendingWrites env s.next N msgs := by
    rw [trace_pushPending, hnick, hmsgs]
    rfl
  refine ⟨by rw [hrun], by rw [hrun], newEvents_of_append hpush, ?_, ?_⟩
  · obtain ⟨rest, hrest, _⟩ := grows_readLoop s.next inbound
      (pushPending env s.next (register userID N s).2)
    refine ⟨rest, ?_⟩
    apply newEvents_of_append
    rw [hrun, hrest, hpush, List.append_assoc]
  · intro table sender text timestamp hdb hsaved
    obtain ⟨key, hrow⟩ := foldl_applyToMessages_mem s.trace table N sender text timestamp hsaved
    have hmem := hdb _ (mem_GetMessagesForUser _ _ hrow)
    unfold pendingWrites
    exact List.mem_map.2 ⟨_, hmem, rfl⟩

/-- C14 amended, at a concrete input: "bob" connects with a valid session while the table
`messages` holds the chat "hi" that "ann" sent him while he was offline. -/
theorem C14_backlog_pushed_before_reading_witness :
    Event.saveMessage "bob" "ann" "hi" "2025-06-18T14:16:56Z" true ∈ offlineChatState.trace ∧
    Event.write offlineChatState.next
        (chatFrame "ann" { To := "bob", Message := "hi" } "2025-06-18T14:16:56Z")
        ((dbEnv calmEnv offlineChatState.trace).writeOk offlineChatState.next
          (chatFrame "ann" { To := "bob", Message := "hi" } "2025-06-18T14:16:56Z"))
      ∈ pendingWrites (dbEnv calmEnv offlineChatState.trace) offlineChatState.next "bob"
          [{ MessageID := 1, Sender := "ann", Message := "hi",
             Timestamp := "2025-06-18T14:16:56Z" }] :=
  ⟨by decide,
   (C14_backlog_pushed_before_reading (dbEnv calmEnv offlineChatState.trace)
    { cookie := some "tok"
      sessions := [{ session := "tok", user_id := 2, expires_at := 100 }]
      nicknameOf := fun _ => some "bob"
      upgradeOk := true }
    [] offlineChatState "tok" 2 "bob"
    [{ MessageID := 1, Sender := "ann", Message := "hi", Timestamp := "2025-06-18T14:16:56Z" }]
    rfl (by decide) rfl rfl (by decide)).2.2.2.2 [] "ann" "hi" "2025-06-18T14:16:56Z"
      (by decide) (by decide)⟩

/-- C15, evaluated at the failing input: "ann" sends the chat "hi" to the connected
"bob"; it is persisted and written live on his connection 1 with success.  "bob"
disconnects and connects again as connection 2: `GetMessagesForUser` returns the row of
that message and the handler writes the same chat frame once more. -/
theorem C15_delivered_message_is_pushed_again :
    newEvents annBobState deliveredState
      = [Event.saveMessage "bob" "ann" "hi" "2025-06-18T14:16:56Z" true,
         Event.write 1
           (chatFrame "ann" { To := "bob", Message := "hi" } "2025-06-18T14:16:56Z") true] ∧
    GetMessagesForUser (messagesTable bobGoneState.trace) "bob"
      = [{ MessageID := 1, Sender := "ann", Message := "hi",
           Timestamp := "2025-06-18T14:16:56Z" }] ∧
    newEvents bobGoneState
        (pushPending (dbEnv calmEnv bobGoneState.trace) 2 (register 2 "bob" bobGoneState).2)
      = [Event.write 2
           (chatFrame "ann" { To := "bob", Message := "hi" } "2025-06-18T14:16:56Z")
           true] := by
  decide

/-- C16: `CreateNotification` attempts the insert first, whoever is connected.  When the
insert fails it returns the error and nothing else happens.  When it succeeds it returns
nil and the only further event is one write of the notification frame
{type, message, related_id, timestamp} on the registered connection picked for the
user, if there is one; a connection that is written is registered and has the target
`userID`, and when no registered connection has it, nothing is written. -/
theorem C16_notification_durable_then_live (env : Env) (s : State) (userID : Int)
    (ty msg : String) (rel : Option Int) :
    (newEvents s (CreateNotification env userID ty msg rel s).2).head?
      = some (Event.insertNotification userID ty msg rel
          (env.insertNotificationOk userID ty msg rel)) ∧
    (env.insertNotificationOk userID ty msg rel = false →
      (CreateNotification env userID ty msg rel s).1 = false ∧
      newEvents s (CreateNotification env userID ty msg rel s).2
        = [Event.insertNotification userID ty msg rel false]) ∧
    (env.insertNotificationOk userID ty msg rel = true →
      (CreateNotification env userID ty msg rel s).1 = true ∧
      newEvents s (CreateNotification env userID ty msg rel s).2
        = Event.insertNotification userID ty msg rel true ::
            (notificationTarget s userID).toList.map (fun c =>
              Event.write c (notificationFrame env ty msg rel)
                (env.writeOk c (notificationFrame env ty msg rel)))) ∧
    (∀ c, notificationTarget s userID = some c →
      (s.heap c).userID = userID ∧ ∃ nickname, s.userConnections.lookup nickname = some c) ∧
    ((∀ nickname c, s.userConnections.lookup nickname = some c → (s.heap c).userID ≠ userID) →
      notificationTarget s userID = none) ∧
    (CreateNotification env userID ty msg rel s).2.userConnections = s.userConnections ∧
    (CreateNotification env userID ty msg rel s).2.groupConnections = s.groupConnections ∧
    (CreateNotification env userID ty msg rel s).2.heap = s.heap := by
  have hfail : env.insertNotificationOk userID ty msg rel = false →
      CreateNotification env userID ty msg rel s
        = (false, emit (Event.insertNotification userID ty msg rel false) s) := by
    intro h
    simp [CreateNotification, h]
  have hok : env.insertNotificationOk userID ty msg rel = true →
      (CreateNotification env userID ty msg rel s).1 = true ∧
      (CreateNotification env userID ty msg rel s).2.trace
        = s.trace ++ (Event.insertNotification userID ty msg rel true ::
            (notificationTarget s userID).toList.map (fun c =>
              Event.write c (notificationFrame env ty msg rel)
                (env.writeOk c (notificationFrame env ty msg rel)))) := by
    intro h
    simp only [CreateNotification, h, if_true, BroadcastNotificationToUser, notificationTarget,
      emit]
    cases hf : s.userConnections.entries.find?
        (fun e => decide ((s.heap e.2).userID = userID)) with
    | none => simp
    | some e => simp [writeJSON, emit, notificationFrame]
  have hreg := registry_of_traceOnly (traceOnly_CreateNotification env userID ty msg rel s)
  refine ⟨?_, ?_, ?_, ?_, ?_, hreg.1, hreg.2.1, hreg.2.2⟩
  · by_cases h : env.insertNotificationOk userID ty msg rel = true
    · rw [newEvents_of_append (hok h).2, h]
      rfl
    · have h' : env.insertNotificationOk userID ty msg rel = false := by simpa using h
      rw [hfail h', h']
      show (newEvents s (emit (Event.insertNotification userID ty msg rel false) s)).head?
        = some (Event.insertNotification userID ty msg rel false)
      rw [newEvents_emit]
      rfl
  · intro h
    rw [hfail h]
    exact ⟨rfl, newEvents_emit _ _⟩
  · intro h
    exact ⟨(hok h).1, newEvents_of_append (hok h).2⟩
  · intro c hc
    unfold notificationTarget at hc
    cases hf : s.userConnections.entries.find?
        (fun e => decide ((s.heap e.2).userID = userID)) with
    | none => rw [hf] at hc; exact Option.noConfusion hc
    | some e =>
      rw [hf] at hc
      have hce : e.2 = c := Option.some.inj hc
      have hp := List.find?_some hf
      have hm := List.mem_of_find?_eq_some hf
      rw [← hce]
      refine ⟨of_decide_eq_true hp, e.1, ?_⟩
      exact AList.mem_lookup_iff.2 hm
  · intro hnone
    unfold notificationTarget
    cases hf : s.userConnections.entries.find?
        (fun e => decide ((s.heap e.2).userID = userID)) with
    | none => rfl
    | some e =>
      have hp := List.find?_some hf
      have hm := List.mem_of_find?_eq_some hf
      exact absurd (of_decide_eq_true hp) (hnone e.1 e.2 (AList.mem_lookup_iff.2 hm))

/-- C16 at a concrete input: a notification for user 2 while "bob" (user 2) is connected
as connection 1, with a database that accepts the insert. -/
theorem C16_notification_durable_then_live_witness :
    (CreateNotification calmEnv 2 "new_message" "ann sent you a new message" none
      annBobState).1 = true ∧
    newEvents annBobState
        (CreateNotification calmEnv 2 "new_message" "ann sent you a new message" none
          annBobState).2
      = Event.insertNotification 2 "new_message" "ann sent you a new message" none true ::
          (notificationTarget annBobState 2).toList.map (fun c =>
            Event.write c
              (notificationFrame calmEnv "new_message" "ann sent you a new message" none)
              (calmEnv.writeOk c
                (notificationFrame calmEnv "new_message" "ann sent you a new message"
                  none))) :=
  (C16_notification_durable_then_live calmEnv annBobState 2 "new_message"
    "ann sent you a new message" none).2.2.1 rfl

/-- C17: an upgrade request without the cookie `session_id`, or whose token is not found
by `GetUserIDBySession`, is answered with status 401 and the state is the one before:
no upgrade, no connection allocated or registered, both routing tables as they were. -/
theorem C17_unauthenticated_upgrade_rejected (env : Env) (req : UpgradeRequest)
    (inbound : List Inbound) (s : State)
    (h : req.cookie = none ∨
      ∃ token, req.cookie = some token ∧ GetUserIDBySession req.sessions token = none) :
    (UnifiedWebSocketHandler env req inbound s).1 = Outcome.httpError 401 ∧
    (UnifiedWebSocketHandler env req inbound s).2 = s ∧
    (UnifiedWebSocketHandler env req inbound s).2.next = s.next ∧
    (UnifiedWebSocketHandler env req inbound s).2.userConnections = s.userConnections ∧
    (UnifiedWebSocketHandler env req inbound s).2.groupConnections = s.groupConnections := by
  have e : UnifiedWebSocketHandler env req inbound s = (Outcome.httpError 401, s) := by
    rcases h with h | ⟨token, h1, h2⟩
    · simp [UnifiedWebSocketHandler, h]
    · simp [UnifiedWebSocketHandler, h1, h2]
  rw [e]
  exact ⟨rfl, rfl, rfl, rfl, rfl⟩

/-- C17 at a concrete input: a request whose token "nope" is not in the table
`sessions`, while "ann" and "bob" are connected. -/
theorem C17_unauthenticated_upgrade_rejected_witness :
    (UnifiedWebSocketHandler calmEnv { staleRequest with cookie := some "nope" } []
      annBobState).1 = Outcome.httpError 401 ∧
    (UnifiedWebSocketHandler calmEnv { staleRequest with cookie := some "nope" } []
      annBobState).2 = annBobState :=
  ⟨(C17_unauthenticated_upgrade_rejected calmEnv { staleRequest with cookie := some "nope" } []
      annBobState (Or.inr ⟨"nope", rfl, by decide⟩)).1,
   (C17_unauthenticated_upgrade_rejected calmEnv { staleRequest with cookie := some "nope" } []
      annBobState (Or.inr ⟨"nope", rfl, by decide⟩)).2.1⟩

/-- C18, evaluated at the failing input: the only row of `sessions` gives the token "tok"
to user 2 and expired at time 100.  Whatever the current time, `GetUserIDBySession`
resolves "tok" to user 2 (it does not read `expires_at`), and `UnifiedWebSocketHandler`
upgrades the request and registers connection 0 under "bob". -/
theorem C18_expired_session_is_accepted :
    staleRequest.sessions = [{ session := "tok", user_id := 2, expires_at := 100 }] ∧
    GetUserIDBySession staleRequest.sessions "tok" = some 2 ∧
    (UnifiedWebSocketHandler calmEnv staleRequest [] initState).1 = Outcome.upgraded 0 ∧
    (UnifiedWebSocketHandler calmEnv staleRequest [] initState).2.userConnections.lookup "bob"
      = some 0 := by
  decide

/-- C19: a frame whose envelope is not valid JSON, whose type is unknown, or whose
payload does not decode into the structure of its type is skipped: the dispatcher
returns the state it was given (heap with every `groups`, both routing tables and the
trace), and the read loop goes on with the next read. -/
theorem C19_bad_frames_skipped (env : Env) (c : ConnPtr) (typ : String) (data : RawData)
    (rest : List Inbound) (s : State) :
    readLoop c (Inbound.malformed :: rest) s = readLoop c rest s ∧
    (Skipped typ data →
      dispatch env c typ data s = s ∧
      newEvents s (dispatch env c typ data s) = [] ∧
      readLoop c (Inbound.frame env typ data :: rest) s = readLoop c rest s) := by
  refine ⟨rfl, ?_⟩
  intro h
  have e : dispatch env c typ data s = s := by
    rcases h with h | ⟨h1, h2⟩ | ⟨h1, h2⟩ | ⟨h1, h2⟩
    · have h' : typ ≠ "chat" ∧ typ ≠ "group_subscribe" ∧ typ ≠ "subscribe" ∧
          typ ≠ "group_unsubscribe" ∧ typ ≠ "unsubscribe" ∧ typ ≠ "group_chat" := by
        simpa [knownTypes] using h
      obtain ⟨a1, a2, a3, a4, a5, a6⟩ := h'
      simp [dispatch, a1, a2, a3, a4, a5, a6]
    · subst h1
      simp [dispatch, h2, handlePrivateChat]
    · rcases h1 with h1 | h1 | h1 | h1 <;> subst h1 <;>
        simp [dispatch, h2, handleGroupSubscription, handleGroupUnsubscription]
    · subst h1
      simp [dispatch, h2, handleGroupChat]
  refine ⟨e, ?_, ?_⟩
  · rw [e]; exact newEvents_self s
  · simp [readLoop, e]

/-- C19 at a concrete input: a frame of the unknown type "ping" and a chat frame whose
payload does not decode, received by "ann". -/
theorem C19_bad_frames_skipped_witness :
    dispatch calmEnv 0 "ping"
        { asChat := none, asSubscription := none, asGroupChat := none } annInGroupState
      = annInGroupState ∧
    dispatch calmEnv 0 "chat"
        { asChat := none, asSubscription := none, asGroupChat := none } annInGroupState
      = annInGroupState :=
  ⟨((C19_bad_frames_skipped calmEnv 0 "ping"
      { asChat := none, asSubscription := none, asGroupChat := none } [] annInGroupState).2
      (Or.inl (by decide))).1,
   ((C19_bad_frames_skipped calmEnv 0 "chat"
      { asChat := none, asSubscription := none, asGroupChat := none } [] annInGroupState).2
      (Or.inr (Or.inl ⟨rfl, rfl⟩))).1⟩

/-! ## Who may enter a group set -/

theorem subGC_keys {gc' gc : GoMap Int (GoMap Int ConnPtr)} (h : SubGC gc' gc) {g u : Int}
    {inner' : GoMap Int ConnPtr} (hg : gc'.lookup g = some inner') (hu : u ∈ inner') :
    ∃ inner, gc.lookup g = some inner ∧ u ∈ inner := by
  obtain ⟨c, hc⟩ := Option.isSome_iff_exists.1 (AList.lookup_isSome.2 hu)
  obtain ⟨inner, h1, h2⟩ := h g inner' u c hg hc
  refine ⟨inner, h1, AList.lookup_isSome.1 ?_⟩
  rw [h2]
  rfl

theorem subGC_of_eq {gc' gc : GoMap Int (GoMap Int ConnPtr)} (h : gc' = gc) : SubGC gc' gc := by
  rw [h]
  exact subGC_refl gc

/-- The keys of the group table after one dispatched frame: those it had, and the pair
whose membership check succeeded in this frame. -/
theorem keys_dispatch (env : Env) (c : ConnPtr) (typ : String) (data : RawData) (s : State)
    (g u : Int) (inner' : GoMap Int ConnPtr)
    (hg : (dispatch env c typ data s).groupConnections.lookup g = some inner')
    (hu : u ∈ inner') :
    (∃ inner, s.groupConnections.lookup g = some inner ∧ u ∈ inner) ∨
      (g, u) ∈ verifiedBy env c typ data s := by
  unfold dispatch at hg
  split at hg
  · exact Or.inl (subGC_keys (subGC_of_eq
      (registry_of_traceOnly (traceOnly_handlePrivateChat _ _ _ _)).2.1) hg hu)
  · split at hg
    · rename_i hty
      cases hd : data.asSubscription with
      | none =>
        rw [hd] at hg
        exact Or.inl ⟨inner', hg, hu⟩
      | some sub =>
        rw [hd] at hg
        cases hm : env.memberCount sub.GroupID (s.heap c).userID with
        | none =>
          simp only [handleGroupSubscription, hm, emit] at hg
          exact Or.inl ⟨inner', hg, hu⟩
        | some n =>
          by_cases hn : n = 0
          · simp only [handleGroupSubscription, hm, hn, if_true, emit] at hg
            exact Or.inl ⟨inner', hg, hu⟩
          · simp only [handleGroupSubscription, hm, hn, if_false, emit] at hg
            rw [lookup_subscribe_table] at hg
            by_cases hgg : g = sub.GroupID
            · subst hgg
              simp only [if_true, Option.some.injEq] at hg
              subst hg
              rcases (AList.mem_insert _).1 hu with hu' | hu'
              · right
                simp [verifiedBy, hty, hd, hm, hn, hu']
              · left
                cases hl : s.groupConnections.lookup sub.GroupID with
                | none =>
                  rw [innerOf_of_none hl] at hu'
                  exact absurd hu' (AList.not_mem_empty u)
                | some inner =>
                  rw [innerOf_of_lookup hl] at hu'
                  exact ⟨inner, rfl, hu'⟩
            · simp only [hgg, if_false] at hg
              exact Or.inl ⟨inner', hg, hu⟩
    · split at hg
      · cases hd : data.asSubscription with
        | none =>
          rw [hd] at hg
          exact Or.inl ⟨inner', hg, hu⟩
        | some sub =>
          rw [hd] at hg
          exact Or.inl (subGC_keys (subGC_dropMember _ _ _) hg hu)
      · split at hg
        · exact Or.inl (subGC_keys (shrinks_handleGroupChat _ _ _ _).2.2 hg hu)
        · exact Or.inl ⟨inner', hg, hu⟩

theorem run_reachable {s : State} {log : List (Int × Int)} (h : Run s log) : Reachable s := by
  induction h with
  | init => exact Relation.ReflTransGen.refl
  | connect env s log userID nickname _ ih =>
    exact Relation.ReflTransGen.tail ih (Step.connect env s userID nickname)
  | frame env s log c typ data _ hc ih =>
    exact Relation.ReflTransGen.tail ih (Step.frame env s c typ data hc)
  | cleanup s log c _ hc ih =>
    exact Relation.ReflTransGen.tail ih (Step.cleanup s c hc)

theorem reachable_run {s : State} (h : Reachable s) : ∃ log, Run s log := by
  unfold Reachable at h
  induction h with
  | refl => exact ⟨[], Run.init⟩
  | tail _ hstep ih =>
    obtain ⟨log, hrun⟩ := ih
    cases hstep with
    | connect env s userID nickname => exact ⟨log, Run.connect env _ log userID nickname hrun⟩
    | frame env s c typ data hc => exact ⟨_, Run.frame env _ log c typ data hrun hc⟩
    | cleanup s c hc => exact ⟨log, Run.cleanup _ log c hrun hc⟩

/-- Every key of a group set was verified by a subscribe command of the run. -/
theorem run_keys_verified {s : State} {log : List (Int × Int)} (h : Run s log) :
    ∀ g inner u, s.groupConnections.lookup g = some inner → u ∈ inner → (g, u) ∈ log := by
  induction h with
  | init =>
    intro g inner u hg
    simp [initState] at hg
  | connect env s log userID nickname _ ih =>
    intro g inner u hg hu
    have hgc := (registry_of_traceOnly (traceOnly_pushPending env
      (register userID nickname s).1 (register userID nickname s).2)).2.1
    rw [hgc] at hg
    exact ih g inner u hg hu
  | frame env s log c typ data _ _ ih =>
    intro g inner u hg hu
    rcases keys_dispatch env c typ data s g u inner hg hu with ⟨inner0, h0, hu0⟩ | hv
    · exact List.mem_append_right _ (ih g inner0 u h0 hu0)
    · exact List.mem_append_left _ hv
  | cleanup s log c _ _ ih =>
    intro g inner u hg hu
    obtain ⟨inner0, h0, hu0⟩ := subGC_keys (shrinks_cleanup c s).2.2 hg hu
    exact ih g inner0 u h0 hu0

/-- C20: every reachable state is the end of a run, and in every run that ends in it,
each key `u` of the set of a group `g` is a pair (g, u) for which a subscribe command of
the run had a membership check that succeeded (count scanned without error and not 0)
when it was handled; no other step adds a key to a group set. -/
theorem C20_group_entries_were_verified (s : State) (hr : Reachable s) :
    (∃ log, Run s log) ∧
    ∀ log, Run s log → ∀ g inner u, s.groupConnections.lookup g = some inner → u ∈ inner →
      (g, u) ∈ log :=
  ⟨reachable_run hr, fun _ hrun => run_keys_verified hrun⟩

/-- C20 at a concrete input: the state after "ann" connected and subscribed to group 7. -/
theorem C20_group_entries_were_verified_witness :
    (∃ log, Run annInGroupState log) ∧
    ∀ log, Run annInGroupState log → ∀ g inner u,
      annInGroupState.groupConnections.lookup g = some inner → u ∈ inner → (g, u) ∈ log :=
  C20_group_entries_were_verified annInGroupState
    (Relation.ReflTransGen.tail
      (Relation.ReflTransGen.tail Relation.ReflTransGen.refl
        (Step.connect calmEnv initState 1 "ann"))
      (Step.frame calmEnv annState 0 "subscribe"
        { asChat := none, asSubscription := some { GroupID := 7 }, asGroupChat := none }
        (by decide)))

/-! ## Doing it twice -/

theorem replace_of_lookup {K V : Type} [DecidableEq K] (m : GoMap K V) {k : K} {v : V}
    (h : m.lookup k = some v) : m.replace k v = m := by
  apply AList.ext
  exact List.kreplace_self m.nodupKeys (AList.mem_lookup_iff.1 h)

theorem erase_of_lookup_none {K V : Type} [DecidableEq K] (m : GoMap K V) {k : K}
    (h : m.lookup k = none) : m.erase k = m := by
  apply AList.ext
  exact List.kerase_of_not_mem_keys (AList.mem_keys.not.1 (AList.lookup_eq_none.1 h))

/-- On a group whose set is already without the user and not empty, or absent,
`dropMember` changes nothing. -/
theorem dropMember_of_dropped (gc : GoMap Int (GoMap Int ConnPtr)) (g u : Int)
    (h : Dropped u g gc) : dropMember gc g u = gc := by
  unfold dropMember
  cases hg : gc.lookup g with
  | none => rfl
  | some inner =>
    obtain ⟨h1, h2⟩ := h inner hg
    have e1 : inner.erase u = inner := erase_of_lookup_none inner h1
    have e2 : gc.replace g inner = gc := replace_of_lookup gc hg
    simp only [e1, e2, innerOf_of_lookup hg, h2, if_false]

theorem foldl_dropMember_of_dropped (u : Int) (l : List Int)
    (gc : GoMap Int (GoMap Int ConnPtr)) (h : ∀ g ∈ l, Dropped u g gc) :
    l.foldl (fun gc groupID => dropMember gc groupID u) gc = gc := by
  induction l with
  | nil => rfl
  | cons g tl ih =>
    simp only [List.foldl_cons]
    rw [dropMember_of_dropped gc g u (h g (List.mem_cons_self _ _))]
    exact ih (fun g' hg' => h g' (List.mem_cons_of_mem _ hg'))

/-- C21: a second subscribe to `g` right after a first one, both with a membership check
that succeeds, leaves the heap (so `C.groups`), the identity table and the group table
exactly as the first one left them. -/
theorem C21_subscribe_idempotent (env env' : Env) (s : State) (C : ConnPtr) (g : Int)
    (n n' : Int) (hm : env.memberCount g (s.heap C).userID = some n) (hn : n ≠ 0)
    (hm' : env'.memberCount g (s.heap C).userID = some n') (hn' : n' ≠ 0) :
    (handleGroupSubscription env' C (some { GroupID := g })
        (handleGroupSubscription env C (some { GroupID := g }) s)).groupConnections
      = (handleGroupSubscription env C (some { GroupID := g }) s).groupConnections ∧
    (handleGroupSubscription env' C (some { GroupID := g })
        (handleGroupSubscription env C (some { GroupID := g }) s)).userConnections
      = (handleGroupSubscription env C (some { GroupID := g }) s).userConnections ∧
    (handleGroupSubscription env' C (some { GroupID := g })
        (handleGroupSubscription env C (some { GroupID := g }) s)).heap
      = (handleGroupSubscription env C (some { GroupID := g }) s).heap ∧
    ((handleGroupSubscription env' C (some { GroupID := g })
        (handleGroupSubscription env C (some { GroupID := g }) s)).heap C).groups
      = ((handleGroupSubscription env C (some { GroupID := g }) s).heap C).groups := by
  obtain ⟨hheap, hinner⟩ := handleGroupSubscription_ok env s C g n hm hn
  have huid : ((handleGroupSubscription env C (some { GroupID := g }) s).heap C).userID
      = (s.heap C).userID := by rw [hheap]
  have hm1 : env'.memberCount g
      ((handleGroupSubscription env C (some { GroupID := g }) s).heap C).userID = some n' := by
    rw [huid]; exact hm'
  have hlook : (handleGroupSubscription env C (some { GroupID := g }) s).groupConnections.lookup g
      = some ((innerOf s.groupConnections g).insert (s.heap C).userID C) := by
    simp only [handleGroupSubscription, hm, hn, if_false, emit]
    rw [lookup_subscribe_table]
    simp
  have hgc : (handleGroupSubscription env' C (some { GroupID := g })
        (handleGroupSubscription env C (some { GroupID := g }) s)).groupConnections
      = (handleGroupSubscription env C (some { GroupID := g }) s).groupConnections := by
    generalize hs1 : handleGroupSubscription env C (some { GroupID := g }) s = s1 at *
    have hne : ¬ s1.groupConnections.lookup g = none := by rw [hlook]; simp
    simp only [handleGroupSubscription, hm1, hn', if_false, emit, hne]
    rw [hinner, huid, AList.insert_insert]
    exact replace_of_lookup _ hlook
  have hh : (handleGroupSubscription env' C (some { GroupID := g })
        (handleGroupSubscription env C (some { GroupID := g }) s)).heap
      = (handleGroupSubscription env C (some { GroupID := g }) s).heap := by
    generalize hs1 : handleGroupSubscription env C (some { GroupID := g }) s = s1 at *
    simp only [handleGroupSubscription, hm1, hn', if_false, emit]
    rw [hheap]
    simp only [AList.insert_insert]
    rw [← hheap]
    exact Function.update_eq_self C s1.heap
  refine ⟨hgc, ?_, hh, by rw [hh]⟩
  generalize hs1 : handleGroupSubscription env C (some { GroupID := g }) s = s1 at *
  simp only [handleGroupSubscription, hm1, hn', if_false, emit]

/-- C21 at a concrete input: "ann" subscribes to group 7 a second time. -/
theorem C21_subscribe_idempotent_witness :
    (handleGroupSubscription calmEnv 0 (some { GroupID := 7 })
        (handleGroupSubscription calmEnv 0 (some { GroupID := 7 }) annState)).groupConnections
      = (handleGroupSubscription calmEnv 0 (some { GroupID := 7 }) annState).groupConnections ∧
    (handleGroupSubscription calmEnv 0 (some { GroupID := 7 })
        (handleGroupSubscription calmEnv 0 (some { GroupID := 7 }) annState)).userConnections
      = (handleGroupSubscription calmEnv 0 (some { GroupID := 7 }) annState).userConnections ∧
    (handleGroupSubscription calmEnv 0 (some { GroupID := 7 })
        (handleGroupSubscription calmEnv 0 (some { GroupID := 7 }) annState)).heap
      = (handleGroupSubscription calmEnv 0 (some { GroupID := 7 }) annState).heap ∧
    ((handleGroupSubscription calmEnv 0 (some { GroupID := 7 })
        (handleGroupSubscription calmEnv 0 (some { GroupID := 7 }) annState)).heap 0).groups
      = ((handleGroupSubscription calmEnv 0 (some { GroupID := 7 }) annState).heap 0).groups :=
  C21_subscribe_idempotent calmEnv calmEnv annState 0 7 1 1 rfl (by decide) rfl (by decide)

/-- C22: `cleanup` of `C` run a second time right after the first leaves the identity
table and the group table (and the heap) exactly as the first run left them. -/
theorem C22_cleanup_idempotent (s : State) (C : ConnPtr) :
    (cleanup C (cleanup C s)).userConnections = (cleanup C s).userConnections ∧
    (cleanup C (cleanup C s)).groupConnections = (cleanup C s).groupConnections ∧
    (cleanup C (cleanup C s)).heap = (cleanup C s).heap := by
  refine ⟨?_, ?_, rfl⟩
  · exact erase_of_lookup_none _ (AList.lookup_erase _ _)
  · have hd : ∀ g ∈ (s.heap C).groups.keys,
        Dropped (s.heap C).userID g (cleanup C s).groupConnections :=
      fun g hg => dropped_foldl _ g _ _ hg
    exact foldl_dropMember_of_dropped (s.heap C).userID (s.heap C).groups.keys
      (cleanup C s).groupConnections hd

/-! ## Which entries a delete by user id takes away -/

theorem innerOf_dropMember_ne (gc : GoMap Int (GoMap Int ConnPtr)) (g uid g' u : Int)
    (hu : u ≠ uid) :
    (innerOf (dropMember gc g uid) g').lookup u = (innerOf gc g').lookup u := by
  unfold innerOf
  rw [lookup_dropMember]
  by_cases hg : g' = g
  · subst hg
    simp only [if_true]
    cases hl : gc.lookup g' with
    | none => rfl
    | some inner =>
      simp only
      by_cases hz : len (inner.erase uid) = 0
      · simp only [hz, if_true, Option.getD_none, Option.getD_some]
        rw [AList.lookup_empty, ← AList.lookup_erase_ne hu]
        exact (lookup_of_len_zero _ hz u).symm
      · simp only [hz, if_false, Option.getD_some]
        exact AList.lookup_erase_ne hu
  · simp only [hg, if_false]

theorem innerOf_foldl_dropMember_ne (uid : Int) (l : List Int)
    (gc : GoMap Int (GoMap Int ConnPtr)) (g' u : Int) (hu : u ≠ uid) :
    (innerOf (l.foldl (fun gc groupID => dropMember gc groupID uid) gc) g').lookup u
      = (innerOf gc g').lookup u := by
  induction l generalizing gc with
  | nil => rfl
  | cons g tl ih =>
    simp only [List.foldl_cons]
    rw [ih, innerOf_dropMember_ne gc g uid g' u hu]

theorem innerOf_lookup_of_dropped {gc : GoMap Int (GoMap Int ConnPtr)} {g u : Int}
    (h : Dropped u g gc) : (innerOf gc g).lookup u = none := by
  cases hl : gc.lookup g with
  | none =>
    rw [innerOf_of_none hl]
    exact AList.lookup_empty u
  | some inner =>
    rw [innerOf_of_lookup hl]
    exact (h inner hl).1

/-- C30, refuted as stated: user 1 has two connections, 0 and 1, both subscribed to
group 7, connection 1 last, so the set of group 7 holds connection 1 under user 1.
After the unsubscribe of connection 0, and likewise after its `cleanup`, that entry of
the other connection is gone. -/
theorem C30_other_connection_entry_removed :
    (innerOf twoTabsState.groupConnections 7).lookup 1 = some 1 ∧
    (innerOf (handleGroupUnsubscription 0 (some { GroupID := 7 })
      twoTabsState).groupConnections 7).lookup 1 = none ∧
    (innerOf (cleanup 0 twoTabsState).groupConnections 7).lookup 1 = none := by
  decide

/-- C30, amended: `handleGroupUnsubscription` and `cleanup` of `C` delete from the group
table by the key `C.userID`: every entry under the key of another user, in any group, is
still present with the same value afterwards, while the entry under `C.userID` in the
set of `g` (for `cleanup`: of every group of `C.groups`) is removed whichever connection
it holds. -/
theorem C30_delete_is_by_user_key (s : State) (C : ConnPtr) (g : Int) :
    (∀ g' u, u ≠ (s.heap C).userID →
      (innerOf (handleGroupUnsubscription C (some { GroupID := g }) s).groupConnections
          g').lookup u
        = (innerOf s.groupConnections g').lookup u) ∧
    (∀ g' u, u ≠ (s.heap C).userID →
      (innerOf (cleanup C s).groupConnections g').lookup u
        = (innerOf s.groupConnections g').lookup u) ∧
    (innerOf (handleGroupUnsubscription C (some { GroupID := g }) s).groupConnections
      g).lookup (s.heap C).userID = none ∧
    (∀ g', g' ∈ (s.heap C).groups →
      (innerOf (cleanup C s).groupConnections g').lookup (s.heap C).userID = none) := by
  refine ⟨?_, ?_, ?_, ?_⟩
  · intro g' u hu
    exact innerOf_dropMember_ne s.groupConnections g (s.heap C).userID g' u hu
  · intro g' u hu
    exact innerOf_foldl_dropMember_ne (s.heap C).userID _ s.groupConnections g' u hu
  · exact innerOf_lookup_of_dropped (dropped_dropMember s.groupConnections g (s.heap C).userID)
  · intro g' hg'
    exact innerOf_lookup_of_dropped
      (dropped_foldl (s.heap C).userID g' _ s.groupConnections (AList.mem_keys.1 hg'))

/-- C30 amended, at a concrete input: "bob" (user 2, connection 1), in the sets of
groups 7 and 8, unsubscribes from group 7 and is cleaned up; the entry of "ann" (user 1)
in the set of group 7 stays. -/
theorem C30_delete_is_by_user_key_witness :
    (innerOf (handleGroupUnsubscription 1 (some { GroupID := 7 }) crowdState).groupConnections
        7).lookup 1 = (innerOf crowdState.groupConnections 7).lookup 1 ∧
    (innerOf (cleanup 1 crowdState).groupConnections 7).lookup 1
      = (innerOf crowdState.groupConnections 7).lookup 1 :=
  ⟨(C30_delete_is_by_user_key crowdState 1 7).1 7 1 (by decide),
   (C30_delete_is_by_user_key crowdState 1 7).2.1 7 1 (by decide)⟩

/-! ## The broadcast, write by write -/

theorem writesOf_broadcastEvents (env : Env) (msg : GroupChatResponse)
    (l : List (Sigma (fun _ : Int => ConnPtr))) :
    writesOf (broadcastEvents env msg l) = l.map (fun e => (e.2, groupChatFrame msg)) := by
  induction l with
  | nil => rfl
  | cons e tl ih =>
    rw [broadcastEvents_cons, List.map_cons, ← ih]
    by_cases h : env.writeOk e.2 (groupChatFrame msg) = true
    · simp [broadcastEvents, writesOf, h]
    · simp [broadcastEvents, writesOf, h]

/-- The entry (u, c) of the set after the loop over the entries of the set itself: kept
when the write on `c` succeeded, deleted when it failed. -/
theorem lookup_survivors_entries (env : Env) (msg : GroupChatResponse)
    (inner : GoMap Int ConnPtr) (u : Int) (c : ConnPtr) (h : inner.lookup u = some c) :
    (survivors env msg inner.entries inner).lookup u
      = if env.writeOk c (groupChatFrame msg) = true then some c else none := by
  by_cases hok : env.writeOk c (groupChatFrame msg) = true
  · simp only [hok, if_true]
    refine (lookup_survivors env msg inner.entries inner u c).2 ⟨h, ?_⟩
    rintro ⟨e, he, hk, hf⟩
    have hl : inner.lookup e.1 = some e.2 := AList.mem_lookup_iff.2 he
    rw [hk, h] at hl
    have : c = e.2 := Option.some.inj hl
    rw [this, hf] at hok
    exact Bool.noConfusion hok
  · simp only [hok, if_false]
    have hb : env.writeOk c (groupChatFrame msg) = false := by simpa using hok
    cases hs : (survivors env msg inner.entries inner).lookup u with
    | none => rfl
    | some c' =>
      obtain ⟨hc, hn⟩ := (lookup_survivors env msg inner.entries inner u c').1 hs
      rw [h] at hc
      have hcc : c = c' := Option.some.inj hc
      exact absurd ⟨⟨u, c⟩, AList.mem_lookup_iff.1 h, rfl, hb⟩ hn

/-- C25, refuted as stated: "ann" (connection 0) and "bob" (connection 1) are in the set
of group 7; "ann" sends a group_chat that persists, while the connection of "bob" is
dead.  The group_chat frame is written on both connections, the sender's own included. -/
theorem C25_sender_is_written_too :
    (crowdState.heap 0).nickname = "ann" ∧
    (crowdState.heap 0).groups.lookup 7 = some true ∧
    writesOfType "group_chat" (newEvents crowdState
        (handleGroupChat bobDeafEnv 0 (some { GroupID := 7, Content := "hi" }) crowdState))
      = [(1, groupChatFrame
            { Sender := "ann", Content := "hi", Timestamp := "2025-06-18T14:16:56Z",
              GroupID := 7 }),
         (0, groupChatFrame
            { Sender := "ann", Content := "hi", Timestamp := "2025-06-18T14:16:56Z",
              GroupID := 7 })] := by
  decide

/-- C25, amended: whatever the outcome of the individual writes, `broadcastToGroup`
attempts exactly one write, of the group_chat frame, on every connection that the set of
`g` holds when the broadcast starts, the sender's included; afterwards an entry of that
set is still there exactly when its own write succeeded, and every other group's set,
the identity table and the heap are unchanged. -/
theorem C25_one_write_per_member (env : Env) (g : Int) (msg : GroupChatResponse) (s : State) :
    writesOf (newEvents s (broadcastToGroup env g msg s))
      = (innerOf s.groupConnections g).entries.map (fun e => (e.2, groupChatFrame msg)) ∧
    (∀ u c, (innerOf s.groupConnections g).lookup u = some c →
      (innerOf (broadcastToGroup env g msg s).groupConnections g).lookup u
        = if env.writeOk c (groupChatFrame msg) = true then some c else none) ∧
    (∀ g', g' ≠ g →
      (broadcastToGroup env g msg s).groupConnections.lookup g'
        = s.groupConnections.lookup g') ∧
    (broadcastToGroup env g msg s).userConnections = s.userConnections ∧
    (broadcastToGroup env g msg s).heap = s.heap := by
  cases hg : s.groupConnections.lookup g with
  | none =>
    have e : broadcastToGroup env g msg s = s := by simp [broadcastToGroup, hg]
    rw [e, innerOf_of_none hg, newEvents_self]
    refine ⟨rfl, ?_, fun _ _ => rfl, rfl, rfl⟩
    intro u c hc
    exact Option.noConfusion ((AList.lookup_empty u).symm.trans hc)
  | some inner =>
    obtain ⟨h1, h2, h3, h4, h5⟩ := broadcastToGroup_state env g msg s inner hg
    rw [innerOf_of_lookup hg, innerOf_of_lookup h1, newEvents_of_append h3]
    exact ⟨writesOf_broadcastEvents env msg inner.entries,
      fun u c hc => lookup_survivors_entries env msg inner u c hc, h2, h4, h5⟩

/-- C25 amended, at a concrete input: the broadcast to group 7 with the dead connection
of "bob": his entry is deleted, the entry of "ann" stays. -/
theorem C25_one_write_per_member_witness :
    (innerOf (broadcastToGroup bobDeafEnv 7
        { Sender := "ann", Content := "hi", Timestamp := "t", GroupID := 7 }
        crowdState).groupConnections 7).lookup 1
      = (if bobDeafEnv.writeOk 0 (groupChatFrame
          { Sender := "ann", Content := "hi", Timestamp := "t", GroupID := 7 }) = true
        then some 0 else none) :=
  (C25_one_write_per_member bobDeafEnv 7
    { Sender := "ann", Content := "hi", Timestamp := "t", GroupID := 7 } crowdState).2.1
    1 0 (by decide)

/-! ## The server-push functions -/

theorem writeOrDrop_state (env : Env) (N : String) (c : ConnPtr) (m : WebSocketMessage)
    (st : State) :
    (writeOrDrop env N c m st).trace = st.trace ++ [Event.write c m (env.writeOk c m)] ∧
    (writeOrDrop env N c m st).userConnections
      = (if env.writeOk c m = true then st.userConnections
         else st.userConnections.erase N) ∧
    (writeOrDrop env N c m st).groupConnections = st.groupConnections ∧
    (writeOrDrop env N c m st).heap = st.heap := by
  unfold writeOrDrop
  by_cases h : env.writeOk c m = true
  · simp only [writeJSON, h, if_true, emit]
    exact ⟨by trivial, by trivial, by trivial, by trivial⟩
  · have hb : env.writeOk c m = false := by simpa using h
    simp only [writeJSON, hb, Bool.false_eq_true, if_false, emit]
    exact ⟨by trivial, by trivial, by trivial, by trivial⟩

theorem writesOf_map_write {α : Type} (l : List α) (f : α → ConnPtr) (m : WebSocketMessage)
    (ok : α → Bool) :
    writesOf (l.map (fun e => Event.write (f e) m (ok e))) = l.map (fun e => (f e, m)) := by
  induction l with
  | nil => rfl
  | cons a tl ih =>
    simp only [List.map_cons]
    rw [← ih]
    rfl

theorem keepOk_cons {K V : Type} [DecidableEq K] (ok : V → Bool)
    (e : Sigma (fun _ : K => V)) (tl : List (Sigma (fun _ : K => V))) (cur : GoMap K V) :
    keepOk ok (e :: tl) cur = keepOk ok tl (keepOk ok [e] cur) := by
  simp [keepOk]

/-- An entry is still in the map after the loop exactly when it was there and no entry
of `l` under its key failed the test. -/
theorem lookup_keepOk {K V : Type} [DecidableEq K] (ok : V → Bool)
    (l : List (Sigma (fun _ : K => V))) (cur : GoMap K V) (k : K) (v : V) :
    (keepOk ok l cur).lookup k = some v ↔
      cur.lookup k = some v ∧ ¬ ∃ e ∈ l, e.1 = k ∧ ok e.2 = false := by
  induction l generalizing cur with
  | nil => simp [keepOk]
  | cons e tl ih =>
    rw [keepOk_cons, ih]
    by_cases h : ok e.2 = true
    · have e1 : keepOk ok [e] cur = cur := by simp [keepOk, h]
      rw [e1]
      constructor
      · rintro ⟨hc, hn⟩
        refine ⟨hc, ?_⟩
        rintro ⟨e', he', hk, hf⟩
        rcases List.mem_cons.1 he' with rfl | hmem
        · rw [h] at hf
          exact Bool.noConfusion hf
        · exact hn ⟨e', hmem, hk, hf⟩
      · rintro ⟨hc, hn⟩
        exact ⟨hc, fun ⟨e', he', hk, hf⟩ => hn ⟨e', List.mem_cons_of_mem _ he', hk, hf⟩⟩
    · have hb : ok e.2 = false := by simpa using h
      have e1 : keepOk ok [e] cur = cur.erase e.1 := by simp [keepOk, h]
      rw [e1, lookup_erase_eq]
      constructor
      · rintro ⟨hc, hn⟩
        by_cases hu : k = e.1
        · simp [hu] at hc
        · simp only [hu, if_false] at hc
          refine ⟨hc, ?_⟩
          rintro ⟨e', he', hk, hf⟩
          rcases List.mem_cons.1 he' with rfl | hmem
          · exact hu hk.symm
          · exact hn ⟨e', hmem, hk, hf⟩
      · rintro ⟨hc, hn⟩
        have hu : k ≠ e.1 := fun hu => hn ⟨e, List.mem_cons_self _ _, hu.symm, hb⟩
        simp only [hu, if_false]
        exact ⟨hc, fun ⟨e', he', hk, hf⟩ => hn ⟨e', List.mem_cons_of_mem _ he', hk, hf⟩⟩

/-- An entry (k, v) of the map after the loop over the entries of the map itself: kept
when `v` passes the test, deleted when it fails. -/
theorem lookup_keepOk_entries {K V : Type} [DecidableEq K] (ok : V → Bool) (m : GoMap K V)
    (k : K) (v : V) (h : m.lookup k = some v) :
    (keepOk ok m.entries m).lookup k = if ok v = true then some v else none := by
  by_cases hok : ok v = true
  · simp only [hok, if_true]
    refine (lookup_keepOk ok m.entries m k v).2 ⟨h, ?_⟩
    rintro ⟨e, he, hk, hf⟩
    have hl : m.lookup e.1 = some e.2 := AList.mem_lookup_iff.2 he
    rw [hk, h] at hl
    have : v = e.2 := Option.some.inj hl
    rw [this, hf] at hok
    exact Bool.noConfusion hok
  · simp only [hok, if_false]
    have hb : ok v = false := by simpa using hok
    cases hs : (keepOk ok m.entries m).lookup k with
    | none => rfl
    | some v' =>
      obtain ⟨hc, hn⟩ := (lookup_keepOk ok m.entries m k v').1 hs
      exact absurd ⟨⟨k, v⟩, AList.mem_lookup_iff.1 h, rfl, hb⟩ hn

/-- The loop of `BroadcastUserListUpdate`, entry by entry. -/
theorem userList_foldl_state (env : Env) (l : List (Sigma (fun _ : String => ConnPtr)))
    (st : State) :
    (l.foldl (fun st e => writeOrDrop env e.1 e.2 userListFrame st) st).trace
      = st.trace ++ l.map (fun e =>
          Event.write e.2 userListFrame (env.writeOk e.2 userListFrame)) ∧
    (l.foldl (fun st e => writeOrDrop env e.1 e.2 userListFrame st) st).userConnections
      = keepOk (fun c => env.writeOk c userListFrame) l st.userConnections ∧
    (l.foldl (fun st e => writeOrDrop env e.1 e.2 userListFrame st) st).groupConnections
      = st.groupConnections ∧
    (l.foldl (fun st e => writeOrDrop env e.1 e.2 userListFrame st) st).heap = st.heap := by
  induction l generalizing st with
  | nil => exact ⟨by simp, by simp [keepOk], rfl, rfl⟩
  | cons e tl ih =>
    obtain ⟨h1, h2, h3, h4⟩ := writeOrDrop_state env e.1 e.2 userListFrame st
    obtain ⟨i1, i2, i3, i4⟩ := ih (writeOrDrop env e.1 e.2 userListFrame st)
    simp only [List.foldl_cons]
    refine ⟨?_, ?_, i3.trans h3, i4.trans h4⟩
    · rw [i1, h1]
      simp
    · rw [i2, h2, keepOk_cons]
      congr 1

/-- C28, refuted as stated: "ann" (connection 0) is registered and in the set of group
7; the write of a follow status update on her connection fails.  Afterwards she is gone
from the identity table, but the set of group 7 still holds her connection. -/
theorem C28_failed_push_keeps_group_entries :
    crowdState.userConnections.lookup "ann" = some 0 ∧
    (innerOf crowdState.groupConnections 7).lookup 1 = some 0 ∧
    (NotifyFollowStatusUpdate annDeafEnv "ann" "accepted" crowdState).userConnections.lookup
      "ann" = none ∧
    (innerOf (NotifyFollowStatusUpdate annDeafEnv "ann" "accepted"
      crowdState).groupConnections 7).lookup 1 = some 0 ∧
    (innerOf (BroadcastUserListUpdate annDeafEnv crowdState).groupConnections 7).lookup 1
      = some 0 := by
  decide

/-- C28, amended: `NotifyFollowStatusUpdate`, `BroadcastRequestUpdate` and
`BroadcastUserListUpdate` write one frame on the connection registered under the given
nickname, or on every registered connection for the user-list broadcast, and on no
other; when a write fails, the entry of that nickname is deleted from the identity
table and every entry whose write succeeded stays; the group table and the heap are
left as they were, so a connection whose write failed stays in its group sets. -/
theorem C28_failed_push_drops_identity_only (env : Env) (s : State) (nickname : String)
    (status requestType : String) :
    (writesOf (newEvents s (NotifyFollowStatusUpdate env nickname status s))
        = (s.userConnections.lookup nickname).toList.map (fun c =>
            (c, { typ := "follow_status_update", Data := Payload.followStatus status })) ∧
      (∀ N c, s.userConnections.lookup N = some c →
        (NotifyFollowStatusUpdate env nickname status s).userConnections.lookup N
          = if N = nickname ∧ env.writeOk c
              { typ := "follow_status_update", Data := Payload.followStatus status } = false
            then none else some c) ∧
      (NotifyFollowStatusUpdate env nickname status s).groupConnections = s.groupConnections ∧
      (NotifyFollowStatusUpdate env nickname status s).heap = s.heap) ∧
    (writesOf (newEvents s (BroadcastRequestUpdate env nickname requestType s))
        = (s.userConnections.lookup nickname).toList.map (fun c =>
            (c, { typ := requestType, Data := Payload.requestUpdate })) ∧
      (∀ N c, s.userConnections.lookup N = some c →
        (BroadcastRequestUpdate env nickname requestType s).userConnections.lookup N
          = if N = nickname ∧ env.writeOk c
              { typ := requestType, Data := Payload.requestUpdate } = false
            then none else some c) ∧
      (BroadcastRequestUpdate env nickname requestType s).groupConnections
        = s.groupConnections ∧
      (BroadcastRequestUpdate env nickname requestType s).heap = s.heap) ∧
    (writesOf (newEvents s (BroadcastUserListUpdate env s))
        = s.userConnections.entries.map (fun e => (e.2, userListFrame)) ∧
      (∀ N c, s.userConnections.lookup N = some c →
        (BroadcastUserListUpdate env s).userConnections.lookup N
          = if env.writeOk c userListFrame = true then some c else none) ∧
      (BroadcastUserListUpdate env s).groupConnections = s.groupConnections ∧
      (BroadcastUserListUpdate env s).heap = s.heap) := by
  have single : ∀ (m : WebSocketMessage) (f : State),
      f = (match s.userConnections.lookup nickname with
            | none => s
            | some conn => writeOrDrop env nickname conn m s) →
      writesOf (newEvents s f)
        = (s.userConnections.lookup nickname).toList.map (fun c => (c, m)) ∧
      (∀ N c, s.userConnections.lookup N = some c →
        f.userConnections.lookup N
          = if N = nickname ∧ env.writeOk c m = false then none else some c) ∧
      f.groupConnections = s.groupConnections ∧ f.heap = s.heap := by
    intro m f hf
    cases hl : s.userConnections.lookup nickname with
    | none =>
      rw [hl] at hf
      subst hf
      refine ⟨by rw [newEvents_self]; rfl, ?_, rfl, rfl⟩
      intro N c hc
      have hne : N ≠ nickname := by
        intro e
        rw [e, hl] at hc
        exact Option.noConfusion hc
      simp [hne, hc]
    | some conn =>
      rw [hl] at hf
      subst hf
      obtain ⟨h1, h2, h3, h4⟩ := writeOrDrop_state env nickname conn m s
      refine ⟨?_, ?_, h3, h4⟩
      · rw [newEvents_of_append h1]
        rfl
      · intro N c hc
        rw [h2]
        by_cases hN : N = nickname
        · subst hN
          rw [hl] at hc
          have hcc : conn = c := Option.some.inj hc
          subst hcc
          by_cases hw : env.writeOk conn m = true
          · simp [hw, hl]
          · have hb : env.writeOk conn m = false := by simpa using hw
            simp [hb, AList.lookup_erase]
        · by_cases hw : env.writeOk conn m = true
          · simp [hw, hN, hc]
          · have hb : env.writeOk conn m = false := by simpa using hw
            simp only [hb, Bool.false_eq_true, if_false, hN, false_and]
            rw [AList.lookup_erase_ne hN]
            exact hc
  refine ⟨single _ _ rfl, single _ _ rfl, ?_⟩
  obtain ⟨h1, h2, h3, h4⟩ := userList_foldl_state env s.userConnections.entries s
  refine ⟨?_, ?_, h3, h4⟩
  · unfold BroadcastUserListUpdate
    rw [newEvents_of_append h1]
    exact writesOf_map_write s.userConnections.entries (fun e => e.2) userListFrame
      (fun e => env.writeOk e.2 userListFrame)
  · intro N c hc
    unfold BroadcastUserListUpdate
    rw [h2]
    exact lookup_keepOk_entries (fun c => env.writeOk c userListFrame) s.userConnections N c hc

/-- C28 amended, at a concrete input: the follow status update for "ann" on her dead
connection. -/
theorem C28_failed_push_drops_identity_only_witness :
    (NotifyFollowStatusUpdate annDeafEnv "ann" "accepted" crowdState).groupConnections
      = crowdState.groupConnections ∧
    (NotifyFollowStatusUpdate annDeafEnv "ann" "accepted" crowdState).heap = crowdState.heap :=
  (C28_failed_push_drops_identity_only annDeafEnv crowdState "ann" "accepted"
    "follow_request_update").1.2.2

/-! ## Sessions -/

/-- The first row with the token is a row of the table with that token, and the only
one when no other row has the token. -/
theorem find_session_of_unique (store : List SessionRow) (v : String) (row : SessionRow)
    (hmem : row ∈ store) (hv : row.session = v)
    (huniq : ∀ r ∈ store, r.session = v → r = row) :
    store.find? (fun r => decide (r.session = v)) = some row := by
  cases hf : store.find? (fun r => decide (r.session = v)) with
  | none =>
    have := List.find?_eq_none.1 hf row hmem
    simp [hv] at this
  | some r =>
    have hd := List.find?_some hf
    have hp : r.session = v := of_decide_eq_true hd
    rw [huniq r (List.mem_of_find?_eq_some hf) hp]

theorem resolvesSessions_of_shape
    (f : ResolverOutcome → Option String → Int → List SessionRow →
      IntResult × List SessionRow)
    (onError : String → String)
    (hf : ∀ o cookie now store, f o cookie now store =
      match cookie with
      | none => ({ value := -1, err := some "http: named cookie not present" }, store)
      | some value =>
        match GetSession o.queryError store value with
        | Except.error e => ({ value := -1, err := some (onError e) }, store)
        | Except.ok session =>
          if now > session.ExpiresAt then
            ({ value := -1, err := some "session expired" },
              (DeleteSession o.deleteOk store session.ID).2)
          else ({ value := session.UserID, err := none }, store)) :
    ResolvesSessions f := by
  intro o cookie now store
  cases cookie with
  | none =>
    have e : f o none now store
        = ({ value := -1, err := some "http: named cookie not present" }, store) := hf _ _ _ _
    rw [e]
    refine ⟨⟨fun _ => Or.inl rfl, fun _ => by simp⟩, fun _ => rfl, ?_, ?_, ?_, fun _ => rfl⟩
    · intro v row h
      exact Option.noConfusion h
    · intro v row h
      exact Option.noConfusion h
    · intro v row h
      exact Option.noConfusion h
  | some value =>
    cases hq : o.queryError with
    | some qe =>
      have e : f o (some value) now store
          = ({ value := -1, err := some (onError qe) }, store) := by
        rw [hf]
        simp only [GetSession, hq]
      rw [e]
      refine ⟨⟨fun _ => Or.inr ⟨value, rfl, Or.inl (fun h => Option.noConfusion h)⟩,
        fun _ => by simp⟩, fun _ => rfl, ?_, ?_, ?_, fun _ => rfl⟩
      · intro v row _ h
        exact Option.noConfusion h
      · intro v row _ h
        exact Option.noConfusion h
      · intro v row _ h
        exact Option.noConfusion h
    | none =>
      cases hfind : store.find? (fun r => decide (r.session = value)) with
      | none =>
        have e : f o (some value) now store
            = ({ value := -1, err := some (onError "sql: no rows in result set") },
                store) := by
          rw [hf]
          simp only [GetSession, hq, hfind]
        have hnone : ∀ row ∈ store, row.session ≠ value := by
          intro row hrow
          have := List.find?_eq_none.1 hfind row hrow
          simpa using this
        rw [e]
        refine ⟨⟨fun _ => Or.inr ⟨value, rfl, Or.inr (Or.inl hnone)⟩, fun _ => by simp⟩,
          fun _ => rfl, ?_, ?_, ?_, fun _ => rfl⟩
        · intro v row h1 _ h2
          have hv : value = v := Option.some.inj h1
          rw [← hv, hfind] at h2
          exact Option.noConfusion h2
        · intro v row h1 _ hmem hrow
          have hv : value = v := Option.some.inj h1
          rw [← hv] at hrow
          exact absurd hrow (hnone row hmem)
        · intro v row h1 _ h2
          have hv : value = v := Option.some.inj h1
          rw [← hv, hfind] at h2
          exact Option.noConfusion h2
      | some found =>
        have hdec := List.find?_some hfind
        have hkey : found.session = value := of_decide_eq_true hdec
        have hin : found ∈ store := List.mem_of_find?_eq_some hfind
        by_cases hexp : now > found.expires_at
        · have e : f o (some value) now store
              = ({ value := -1, err := some "session expired" },
                  (DeleteSession o.deleteOk store value).2) := by
            rw [hf]
            simp only [GetSession, hq, hfind, hexp, if_true, hkey]
          rw [e]
          refine ⟨⟨fun _ => Or.inr ⟨value, rfl, Or.inr (Or.inr ⟨found, hfind, hexp⟩)⟩,
            fun _ => by simp⟩, fun _ => rfl, ?_, ?_, ?_, ?_⟩
          · intro v row h1 _ h2 hnot
            have hv : value = v := Option.some.inj h1
            rw [← hv, hfind] at h2
            rw [← Option.some.inj h2] at hnot
            exact absurd hexp hnot
          · intro v row h1 _ hmem hrow huniq hnot
            have hv : value = v := Option.some.inj h1
            rw [← hv] at huniq
            rw [← huniq found hin hkey] at hnot
            exact absurd hexp hnot
          · intro v row h1 _ _ _
            have hv : value = v := Option.some.inj h1
            rw [← hv]
            cases hd : o.deleteOk with
            | true =>
              refine ⟨rfl, fun _ r hr => ?_⟩
              have hr2 : r ∈ store.filter (fun r => decide (r.session ≠ value)) := hr
              have := (List.mem_filter.1 hr2).2
              simpa using this
            | false => exact ⟨rfl, fun h => Bool.noConfusion h⟩
          · intro hno
            exact absurd ⟨value, found, rfl, rfl, hfind, hexp⟩ hno
        · have e : f o (some value) now store
              = ({ value := found.user_id, err := none }, store) := by
            rw [hf]
            simp only [GetSession, hq, hfind, hexp, if_false]
          rw [e]
          refine ⟨⟨fun h => absurd rfl h, ?_⟩, fun h => absurd rfl h, ?_, ?_, ?_, fun _ => rfl⟩
          · rintro (h | ⟨v, h1, h2 | h2 | ⟨row, h2, h3⟩⟩)
            · exact Option.noConfusion h
            · exact absurd rfl h2
            · have hv : value = v := Option.some.inj h1
              rw [← hv] at h2
              exact absurd hkey (h2 found hin)
            · have hv : value = v := Option.some.inj h1
              rw [← hv, hfind] at h2
              rw [← Option.some.inj h2] at h3
              exact absurd h3 hexp
          · intro v row h1 _ h2 _
            have hv : value = v := Option.some.inj h1
            rw [← hv, hfind] at h2
            rw [← Option.some.inj h2]
          · intro v row h1 _ hmem hrow huniq _
            have hv : value = v := Option.some.inj h1
            rw [← hv] at huniq
            rw [← huniq found hin hkey]
          · intro v row h1 _ h2 h3
            have hv : value = v := Option.some.inj h1
            rw [← hv, hfind] at h2
            rw [← Option.some.inj h2] at h3
            exact absurd h3 hexp

/-- C26, refuted as stated: the table holds the session "tok" of user 2, which expires
at time 100.  At time 50, with the cookie "tok", a query that errs makes both resolvers
return -1 and an error, although the cookie is there, the session is in the store and it
is not expired.  At time 150, when the `DELETE` errs, both resolvers return "session
expired" and the row of the session is still in the store. -/
theorem C26_stored_session_is_refused :
    (GetUserIDFromSession { queryError := some "database is locked", deleteOk := true }
        (some "tok") 50 [{ session := "tok", user_id := 2, expires_at := 100 }])
      = ({ value := -1, err := some "invalid session" },
          [{ session := "tok", user_id := 2, expires_at := 100 }]) ∧
    (SessionStore_GetUserIDFromSession
        { queryError := some "database is locked", deleteOk := true }
        (some "tok") 50 [{ session := "tok", user_id := 2, expires_at := 100 }])
      = ({ value := -1, err := some "database is locked" },
          [{ session := "tok", user_id := 2, expires_at := 100 }]) ∧
    (GetUserIDFromSession { queryError := none, deleteOk := false }
        (some "tok") 150 [{ session := "tok", user_id := 2, expires_at := 100 }])
      = ({ value := -1, err := some "session expired" },
          [{ session := "tok", user_id := 2, expires_at := 100 }]) ∧
    (SessionStore_GetUserIDFromSession { queryError := none, deleteOk := false }
        (some "tok") 150 [{ session := "tok", user_id := 2, expires_at := 100 }])
      = ({ value := -1, err := some "session expired" },
          [{ session := "tok", user_id := 2, expires_at := 100 }]) := by
  decide

/-- C26, amended: `sessions.GetUserIDFromSession`, and the method of the same name on
`SessionStore`, return an error with -1 exactly when the cookie is missing, the query of
`GetSession` or its scan errs, no row of the store has the token, or the current time is
after the `expires_at` of the row of the token.  When the query runs and that row is not
expired they return its `user_id` with a nil error and leave the store unchanged.  When
the query runs and that row is expired, and only then, they send the `DELETE` of the
token: the store afterwards has no row of the token if the `DELETE` succeeds and is
unchanged if it errs. -/
theorem C26_session_resolver_contract :
    ResolvesSessions GetUserIDFromSession ∧
    ResolvesSessions SessionStore_GetUserIDFromSession :=
  ⟨resolvesSessions_of_shape GetUserIDFromSession (fun _ => "invalid session")
    (fun _ _ _ _ => rfl),
   resolvesSessions_of_shape SessionStore_GetUserIDFromSession (fun e => e)
    (fun _ _ _ _ => rfl)⟩

/-- C26 amended, at a concrete input: the cookie "tok" at time 50, the store holding the
session "tok" of user 2 that expires at time 100, and a database that answers: the user
id 2 is returned and the store is as before. -/
theorem C26_session_resolver_contract_witness :
    GetUserIDFromSession { queryError := none, deleteOk := true } (some "tok") 50
        [{ session := "tok", user_id := 2, expires_at := 100 }]
      = ({ value := 2, err := none }, [{ session := "tok", user_id := 2, expires_at := 100 }]) :=
  (C26_session_resolver_contract.1 { queryError := none, deleteOk := true } (some "tok") 50
    [{ session := "tok", user_id := 2, expires_at := 100 }]).2.2.1 "tok"
    { session := "tok", user_id := 2, expires_at := 100 } rfl rfl (by decide) (by decide)

/-- C29, evaluated at the failing input: user 5 has an old session; the first insert of
the new session fails, the delete of the user's old sessions succeeds and the retried
insert succeeds.  `CreateSession` returns a nil error together with a nil session, while
the new row is in the store. -/
theorem C29_retry_returns_nil_session :
    (CreateSession "sid" 1000
        { firstInsertOk := false, deleteOk := true, retryInsertOk := true } 5
        [{ session := "old", user_id := 5, expires_at := 900 }]).1
      = { session := none, failed := false } ∧
    (CreateSession "sid" 1000
        { firstInsertOk := false, deleteOk := true, retryInsertOk := true } 5
        [{ session := "old", user_id := 5, expires_at := 900 }]).2
      = [{ session := "sid", user_id := 5, expires_at := 1000 + 24 * 3600 }] := by
  decide

/-! ## Unread counters -/

theorem isWrite_notificationUpdateOne (env : Env) (g : Int) (st : State) (row : Option Int) :
    Ext IsWrite st (notificationUpdateOne env g st row) := by
  unfold notificationUpdateOne
  split
  · exact ext_refl _ st
  · split
    · exact ext_refl _ st
    · split
      · exact ext_refl _ st
      · rename_i conn _
        by_cases h : env.writeOk conn
            { typ := "notification_update", Data := Payload.notificationUpdate g } = true
        · simp only [writeJSON, h, if_true]
          exact ext_emit ⟨_, _, _, rfl⟩ st
        · simp only [writeJSON, h]
          exact ⟨[_], rfl, fun e he => by rw [List.mem_singleton.1 he]; exact ⟨_, _, _, rfl⟩⟩

theorem isWrite_BroadcastNotificationUpdate (env : Env) (g sender : Int) (s : State) :
    Ext IsWrite s (BroadcastNotificationUpdate env g sender s) := by
  unfold BroadcastNotificationUpdate
  split
  · exact ext_refl _ s
  · exact ext_foldl _ (isWrite_notificationUpdateOne env g) _ s

theorem count_increment_of_writes (evs : List Event) (h : ∀ e ∈ evs, IsWrite e) (g u : Int) :
    evs.count (Event.unreadIncrement g u) = 0 := by
  rw [List.count_eq_zero]
  intro hmem
  obtain ⟨c, m, ok, he⟩ := h _ hmem
  exact Event.noConfusion he

theorem trace_increments (g : Int) (targets : List Int) (st : State) :
    (targets.foldl (fun st userID => emit (Event.unreadIncrement g userID) st) st).trace
      = st.trace ++ targets.map (Event.unreadIncrement g) := by
  induction targets generalizing st with
  | nil => simp
  | cons u tl ih =>
    simp only [List.foldl_cons, List.map_cons]
    rw [ih]
    simp [emit]

theorem count_increments (g g' u : Int) (targets : List Int) :
    (targets.map (Event.unreadIncrement g)).count (Event.unreadIncrement g' u)
      = if g' = g then targets.count u else 0 := by
  induction targets with
  | nil => simp
  | cons a tl ih =>
    simp only [List.map_cons, List.count_cons, ih]
    by_cases hg : g' = g
    · subst hg
      by_cases ha : a = u
      · simp [ha]
      · have ha' : ¬ u = a := fun h => ha h.symm
        simp [ha, ha']
    · have hg' : ¬ g = g' := fun h => hg h.symm
      simp [hg, hg']

theorem mem_otherMembers (table : List MemberRow) (g sender u : Int) :
    u ∈ otherMembers table g sender
      ↔ ({ group_id := g, user_id := u } : MemberRow) ∈ table ∧ u ≠ sender := by
  unfold otherMembers
  constructor
  · intro h
    obtain ⟨row, hrow, hu⟩ := List.mem_map.1 h
    obtain ⟨hmem, hp⟩ := List.mem_filter.1 hrow
    have hp2 : row.group_id = g ∧ row.user_id ≠ sender := of_decide_eq_true hp
    cases row with
    | mk rg ru =>
      simp only at hu hp2
      rw [← hu, ← hp2.1]
      exact ⟨hmem, hp2.2⟩
  · rintro ⟨hmem, hne⟩
    refine List.mem_map.2 ⟨_, List.mem_filter.2 ⟨hmem, ?_⟩, rfl⟩
    exact decide_eq_true ⟨rfl, hne⟩

theorem nodup_otherMembers (table : List MemberRow) (g sender : Int) (hnd : table.Nodup) :
    (otherMembers table g sender).Nodup := by
  unfold otherMembers
  refine List.Nodup.map_on ?_ (hnd.filter _)
  intro x hx y hy hxy
  have px : x.group_id = g ∧ x.user_id ≠ sender := of_decide_eq_true (List.mem_filter.1 hx).2
  have py : y.group_id = g ∧ y.user_id ≠ sender := of_decide_eq_true (List.mem_filter.1 hy).2
  cases x with
  | mk xg xu =>
    cases y with
    | mk yg yu =>
      simp only at hxy px py
      rw [hxy, px.1, py.1]

theorem unreadTargets_nil (env : Env) (g : Int) : unreadTargets env g [] = [] := rfl

theorem unreadTargets_none (env : Env) (g : Int) (rows : List (Option Int)) :
    unreadTargets env g (none :: rows) = unreadTargets env g rows := rfl

theorem unreadTargets_some (env : Env) (g u : Int) (rows : List (Option Int)) :
    unreadTargets env g (some u :: rows)
      = if env.txUpsertOk g u = true then u :: unreadTargets env g rows
        else unreadTargets env g rows := by
  unfold unreadTargets
  by_cases h : env.txUpsertOk g u = true
  · simp [List.filterMap_cons, h]
  · simp [List.filterMap_cons, h]

/-- The users whose counter is incremented are, in order, among the rows of the query. -/
theorem sublist_unreadTargets (env : Env) (g : Int) (rows : List (Option Int))
    (result : List Int) (h : Scanned rows result) :
    (unreadTargets env g rows).Sublist result := by
  unfold Scanned at h
  induction h with
  | nil => exact List.Sublist.slnil
  | cons hr _ ih =>
    rcases hr with rfl | rfl
    · rw [unreadTargets_none]
      exact List.Sublist.cons _ ih
    · rw [unreadTargets_some]
      split
      · exact List.Sublist.cons₂ _ ih
      · exact List.Sublist.cons _ ih

theorem mem_unreadTargets (env : Env) (g u : Int) (rows : List (Option Int)) :
    u ∈ unreadTargets env g rows ↔ some u ∈ rows ∧ env.txUpsertOk g u = true := by
  induction rows with
  | nil => simp [unreadTargets_nil]
  | cons r tl ih =>
    cases r with
    | none =>
      rw [unreadTargets_none, ih]
      simp
    | some a =>
      rw [unreadTargets_some]
      by_cases ha : env.txUpsertOk g a = true
      · rw [if_pos ha]
        simp only [List.mem_cons, ih, Option.some.injEq]
        constructor
        · rintro (h | h)
          · rw [h]
            exact ⟨Or.inl rfl, ha⟩
          · exact ⟨Or.inr h.1, h.2⟩
        · rintro ⟨h | h, hok⟩
          · exact Or.inl h
          · exact Or.inr ⟨h, hok⟩
      · rw [if_neg ha]
        simp only [ih, List.mem_cons, Option.some.injEq]
        constructor
        · rintro ⟨h, hok⟩
          exact ⟨Or.inr h, hok⟩
        · rintro ⟨h | h, hok⟩
          · rw [h] at hok
            exact absurd hok ha
          · exact ⟨h, hok⟩

theorem mem_of_scanned (rows : List (Option Int)) (result : List Int)
    (h : Scanned rows result) (u : Int) (hu : some u ∈ rows) : u ∈ result := by
  unfold Scanned at h
  induction h with
  | nil => exact absurd hu (List.not_mem_nil _)
  | cons hr _ ih =>
    rcases List.mem_cons.1 hu with he | hm
    · rcases hr with rfl | rfl
      · exact Option.noConfusion he
      · rw [Option.some.inj he]
        exact List.mem_cons_self _ _
    · exact List.mem_cons_of_mem _ (ih hm)

theorem scanned_of_mem (rows : List (Option Int)) (result : List Int)
    (h : Scanned rows result) (hall : ∀ row ∈ rows, row ≠ none) (u : Int)
    (hu : u ∈ result) : some u ∈ rows := by
  unfold Scanned at h
  induction h with
  | nil => exact absurd hu (List.not_mem_nil _)
  | @cons r a rs as hr _ ih =>
    have htl : ∀ row ∈ rs, row ≠ none := fun row hrow => hall row (List.mem_cons_of_mem _ hrow)
    rcases List.mem_cons.1 hu with he | hm
    · rcases hr with h0 | h1
      · exact absurd h0 (hall r (List.mem_cons_self _ _))
      · rw [he, h1]
        exact List.mem_cons_self _ _
    · exact List.mem_cons_of_mem _ (ih htl hm)

/-- C27, refuted as stated: the table `group_members` lists the users 1, 2 and 3 in
group 7, so the other members of the sender 1 are the users 2 and 3; the counter update
of user 3 is refused inside the transaction, the commit succeeds.  `UpdateUnreadCounts`
returns nil; the counter of user 2 is one greater and the counter of user 3 is as
before. -/
theorem C27_nil_with_a_member_skipped :
    otherMembers groupSevenTable 7 1 = [2, 3] ∧
    flakyEnv.txMembers 7 1 = some [some 2, some 3] ∧
    (UpdateUnreadCounts flakyEnv 7 1 annState).1 = true ∧
    unreadCount (UpdateUnreadCounts flakyEnv 7 1 annState).2.trace 7 2
      = unreadCount annState.trace 7 2 + 1 ∧
    unreadCount (UpdateUnreadCounts flakyEnv 7 1 annState).2.trace 7 3
      = unreadCount annState.trace 7 3 := by
  decide

/-- C27, amended: when `UpdateUnreadCounts` returns an error no counter has changed, and
when it returns nil the member query returned rows and every counter has grown by the
number of those rows for its user in `g` that scanned and whose update succeeded.  When
that query is answered from a table `group_members` without repeated rows, with the
rows of `WHERE group_id = g AND user_id != sender`, each scanned or not: every scanned
row is a member of `g` other than the sender, and all of them are there when every row
scans; and when the function returns nil, the counter of (g', u) is exactly one greater
if `g' = g` and `u` is a member of `g` other than the sender whose row scanned and whose
update succeeded, and is as before otherwise: so for a member whose scan or update
failed, for the sender, for a user who is no member of `g`, and for every other group. -/
theorem C27_counters_of_committed_updates (env : Env) (g sender : Int) (s : State) :
    ((UpdateUnreadCounts env g sender s).1 = true →
      ∃ rows, env.txMembers g sender = some rows ∧
        ∀ g' u, unreadCount (UpdateUnreadCounts env g sender s).2.trace g' u
          = unreadCount s.trace g' u
            + (if g' = g then (unreadTargets env g rows).count u else 0)) ∧
    ((UpdateUnreadCounts env g sender s).1 = false →
      ∀ g' u, unreadCount (UpdateUnreadCounts env g sender s).2.trace g' u
        = unreadCount s.trace g' u) ∧
    (∀ (table : List MemberRow) (rows : List (Option Int)), table.Nodup →
      env.txMembers g sender = some rows → Scanned rows (otherMembers table g sender) →
      (∀ u, some u ∈ rows →
        ({ group_id := g, user_id := u } : MemberRow) ∈ table ∧ u ≠ sender) ∧
      ((∀ row ∈ rows, row ≠ none) → ∀ u,
        some u ∈ rows ↔ ({ group_id := g, user_id := u } : MemberRow) ∈ table ∧ u ≠ sender) ∧
      ((UpdateUnreadCounts env g sender s).1 = true →
        ∀ g' u, unreadCount (UpdateUnreadCounts env g sender s).2.trace g' u
          = unreadCount s.trace g' u
            + (if g' = g ∧ ({ group_id := g, user_id := u } : MemberRow) ∈ table ∧
                  u ≠ sender ∧ some u ∈ rows ∧ env.txUpsertOk g u = true
               then 1 else 0))) := by
  have hnil : (UpdateUnreadCounts env g sender s).1 = true →
      ∃ rows, env.txMembers g sender = some rows ∧
        ∀ g' u, unreadCount (UpdateUnreadCounts env g sender s).2.trace g' u
          = unreadCount s.trace g' u
            + (if g' = g then (unreadTargets env g rows).count u else 0) := by
    intro hret
    by_cases hb : env.txBeginOk = true
    · cases hrows : env.txMembers g sender with
      | none => simp [UpdateUnreadCounts, hb, hrows] at hret
      | some rows =>
        by_cases hc : env.txCommitOk = true
        · refine ⟨rows, rfl, ?_⟩
          intro g' u
          have e : (UpdateUnreadCounts env g sender s).2
              = BroadcastNotificationUpdate env g sender
                  ((unreadTargets env g rows).foldl
                    (fun st userID => emit (Event.unreadIncrement g userID) st) s) := by
            simp [UpdateUnreadCounts, hb, hrows, hc]
          obtain ⟨evs, ht, hw⟩ := isWrite_BroadcastNotificationUpdate env g sender
            ((unreadTargets env g rows).foldl
              (fun st userID => emit (Event.unreadIncrement g userID) st) s)
          rw [e]
          unfold unreadCount
          rw [ht, trace_increments, List.count_append, List.count_append,
            count_increment_of_writes evs hw, count_increments]
          rfl
        · simp [UpdateUnreadCounts, hb, hrows, hc] at hret
    · simp [UpdateUnreadCounts, hb] at hret
  refine ⟨hnil, ?_, ?_⟩
  · intro hret g' u
    have e : (UpdateUnreadCounts env g sender s).2 = s := by
      by_cases hb : env.txBeginOk = true
      · cases hrows : env.txMembers g sender with
        | none => simp [UpdateUnreadCounts, hb, hrows]
        | some rows =>
          by_cases hc : env.txCommitOk = true
          · simp [UpdateUnreadCounts, hb, hrows, hc] at hret
          · simp [UpdateUnreadCounts, hb, hrows, hc]
      · simp [UpdateUnreadCounts, hb]
    rw [e]
  · intro table rows hnd hq hscan
    have hmem : ∀ u, some u ∈ rows →
        ({ group_id := g, user_id := u } : MemberRow) ∈ table ∧ u ≠ sender :=
      fun u hu => (mem_otherMembers table g sender u).1 (mem_of_scanned rows _ hscan u hu)
    refine ⟨hmem, ?_, ?_⟩
    · intro hall u
      exact ⟨hmem u, fun h =>
        scanned_of_mem rows _ hscan hall u ((mem_otherMembers table g sender u).2 h)⟩
    · intro hret g' u
      obtain ⟨rows', hq', hcount⟩ := hnil hret
      have hrows : rows' = rows := Option.some.inj (hq'.symm.trans hq)
      rw [hcount g' u, hrows]
      have hnodup : (unreadTargets env g rows).Nodup :=
        (nodup_otherMembers table g sender hnd).sublist
          (sublist_unreadTargets env g rows _ hscan)
      by_cases hg : g' = g
      · by_cases hu : some u ∈ rows ∧ env.txUpsertOk g u = true
        · have h1 := List.count_eq_one_of_mem hnodup ((mem_unreadTargets env g u rows).2 hu)
          have hm := hmem u hu.1
          rw [if_pos hg, h1, if_pos ⟨hg, hm.1, hm.2, hu.1, hu.2⟩]
        · have h0 := List.count_eq_zero_of_not_mem
            (fun h => hu ((mem_unreadTargets env g u rows).1 h))
          have hno : ¬ (g' = g ∧ ({ group_id := g, user_id := u } : MemberRow) ∈ table ∧
              u ≠ sender ∧ some u ∈ rows ∧ env.txUpsertOk g u = true) :=
            fun h => hu ⟨h.2.2.2.1, h.2.2.2.2⟩
          rw [if_pos hg, h0, if_neg hno]
      · have hno : ¬ (g' = g ∧ ({ group_id := g, user_id := u } : MemberRow) ∈ table ∧
            u ≠ sender ∧ some u ∈ rows ∧ env.txUpsertOk g u = true) := fun h => hg h.1
        rw [if_neg hg, if_neg hno]

/-- C27 amended, at a concrete input: the update for group 7 with sender 1, the table
listing the users 1, 2 and 3 in group 7 and the user 4 in group 8, on a database that
refuses the counter update of user 3. -/
theorem C27_counters_of_committed_updates_witness :
    groupSevenTable.Nodup ∧ flakyEnv.txMembers 7 1 = some [some 2, some 3] ∧
    Scanned [some 2, some 3] (otherMembers groupSevenTable 7 1) ∧
    (UpdateUnreadCounts flakyEnv 7 1 annState).1 = true ∧
    ∀ g' u, unreadCount (UpdateUnreadCounts flakyEnv 7 1 annState).2.trace g' u
      = unreadCount annState.trace g' u
        + (if g' = 7 ∧ ({ group_id := 7, user_id := u } : MemberRow) ∈ groupSevenTable ∧
              u ≠ 1 ∧ some u ∈ [some 2, some 3] ∧ flakyEnv.txUpsertOk 7 u = true
           then 1 else 0) :=
  ⟨by decide, rfl,
   List.Forall₂.cons (Or.inr rfl) (List.Forall₂.cons (Or.inr rfl) List.Forall₂.nil),
   by decide,
   ((C27_counters_of_committed_updates flakyEnv 7 1 annState).2.2 groupSevenTable
      [some 2, some 3] (by decide) rfl
      (List.Forall₂.cons (Or.inr rfl) (List.Forall₂.cons (Or.inr rfl) List.Forall₂.nil))).2.2
      (by decide)⟩

/-! ## Order of delivery -/

theorem quiet_broadcastOne (env : Env) (g : Int) (msg : GroupChatResponse) (st : State)
    (e : Sigma (fun _ : Int => ConnPtr)) :
    Ext (Quiet ["group_chat"]) st (broadcastOne env g msg st e) := by
  have hq : ∀ ok : Bool, Quiet ["group_chat"]
      (Event.write e.2 { typ := "group_chat", Data := Payload.groupChat msg } ok) :=
    fun ok => quiet_write _ _ _ (List.mem_singleton.2 rfl)
  unfold broadcastOne
  by_cases h : env.writeOk e.2 { typ := "group_chat", Data := Payload.groupChat msg } = true
  · simp only [writeJSON, h, if_true]
    exact ext_emit (hq true) st
  · have hb : env.writeOk e.2 { typ := "group_chat", Data := Payload.groupChat msg } = false := by
      simpa using h
    simp only [writeJSON, hb, Bool.false_eq_true, if_false, emit]
    refine ⟨[Event.write e.2 { typ := "group_chat", Data := Payload.groupChat msg } false,
      Event.close e.2], by simp, ?_⟩
    intro e' he'
    rcases List.mem_cons.1 he' with rfl | h2
    · exact hq false
    · rw [List.mem_singleton.1 h2]
      exact quiet_of_not_write rfl

theorem quiet_broadcastToGroup (env : Env) (g : Int) (msg : GroupChatResponse) (s : State) :
    Ext (Quiet ["group_chat"]) s (broadcastToGroup env g msg s) := by
  unfold broadcastToGroup
  split
  · exact ext_refl _ s
  · exact ext_foldl _ (quiet_broadcastOne env g msg) _ s

/-- A dispatched frame writes the chat frames of `chatDeliveries`, in order, and no
other chat frame. -/
theorem chats_dispatch (env : Env) (S : ConnPtr) (typ : String) (data : RawData) (s : State) :
    Wrote "chat" (chatDeliveries env S typ data s) s (dispatch env S typ data s) := by
  unfold dispatch chatDeliveries
  by_cases h1 : typ = "chat"
  · simp only [h1, if_true]
    cases hd : data.asChat with
    | none => exact wrote_refl _ s
    | some m =>
      by_cases hs : env.saveMessageOk m.To (s.heap S).nickname m.Message env.timestamp = true
      · have e : handlePrivateChat env S (some m) s
            = notifyRecipient env (s.heap S).nickname m
                (deliverChat env (s.heap S).nickname m env.timestamp
                  (emit (Event.saveMessage m.To (s.heap S).nickname m.Message env.timestamp
                    true) s)) := by
          simp [handlePrivateChat, hs]
        have w1 : Wrote "chat" [] s
            (emit (Event.saveMessage m.To (s.heap S).nickname m.Message env.timestamp true)
              s) := ⟨[_], rfl, rfl⟩
        have w2 := (trace_deliverChat env (s.heap S).nickname m env.timestamp
          (emit (Event.saveMessage m.To (s.heap S).nickname m.Message env.timestamp true)
            s)).1
        have w3 := wrote_of_ext "chat" (by decide)
          (ext_notifyRecipient env (s.heap S).nickname m
            (deliverChat env (s.heap S).nickname m env.timestamp
              (emit (Event.saveMessage m.To (s.heap S).nickname m.Message env.timestamp
                true) s)))
        have hall := wrote_trans w1 (wrote_trans w2 w3)
        rw [← e] at hall
        simp only [hs, if_true]
        simpa [emit] using hall
      · have hb : env.saveMessageOk m.To (s.heap S).nickname m.Message env.timestamp
            = false := by simpa using hs
        have e : handlePrivateChat env S (some m) s
            = emit (Event.saveMessage m.To (s.heap S).nickname m.Message env.timestamp false)
                s := by
          simp [handlePrivateChat, hb]
        rw [e]
        simp only [hb, Bool.false_eq_true, if_false]
        exact ⟨[_], rfl, rfl⟩
  · simp only [h1, if_false]
    split
    · have hq : Ext (Quiet []) s (handleGroupSubscription env S data.asSubscription s) := by
        unfold handleGroupSubscription
        cases data.asSubscription with
        | none => exact ext_refl _ s
        | some sub =>
          simp only
          split
          · apply ext_emit
            exact quiet_of_not_write rfl
          · split
            · apply ext_emit
              exact quiet_of_not_write rfl
            · exact ⟨[Event.queryMemberCount sub.GroupID (s.heap S).userID], rfl,
                fun e he => by rw [List.mem_singleton.1 he]; exact quiet_of_not_write rfl⟩
      exact wrote_of_ext "chat" (by decide) hq
    · split
      · have e : (handleGroupUnsubscription S data.asSubscription s).trace = s.trace := by
          unfold handleGroupUnsubscription
          cases data.asSubscription <;> rfl
        exact ⟨[], by rw [e, List.append_nil], rfl⟩
      · split
        · have hq : Ext (Quiet ["notification_update", "group_chat", "notification"]) s
              (handleGroupChat env S data.asGroupChat s) := by
            have m1 : ∀ e, Quiet ["notification_update"] e →
                Quiet ["notification_update", "group_chat", "notification"] e :=
              fun e => quiet_mono (fun x hx => by rw [List.mem_singleton.1 hx]; decide) e
            have m2 : ∀ e, Quiet ["group_chat"] e →
                Quiet ["notification_update", "group_chat", "notification"] e :=
              fun e => quiet_mono (fun x hx => by rw [List.mem_singleton.1 hx]; decide) e
            have m3 : ∀ e, Quiet ["notification"] e →
                Quiet ["notification_update", "group_chat", "notification"] e :=
              fun e => quiet_mono (fun x hx => by rw [List.mem_singleton.1 hx]; decide) e
            unfold handleGroupChat
            cases data.asGroupChat with
            | none => exact ext_refl _ s
            | some groupMsg =>
              simp only
              split
              · exact ext_refl _ s
              · split
                · refine ext_trans ?_
                    (ext_trans (ext_mono m1 (ext_UpdateUnreadCounts _ _ _ _))
                      (ext_trans (ext_mono m2 (quiet_broadcastToGroup _ _ _ _))
                        (ext_mono m3 (ext_notifyGroupMembers _ _ _ _ _))))
                  apply ext_emit
                  exact quiet_of_not_write rfl
                · apply ext_emit
                  exact quiet_of_not_write rfl
          exact wrote_of_ext "chat" (by decide) hq
        · exact wrote_refl _ s

theorem identity_foldl {α : Type} (f : State → α → State)
    (hf : ∀ st a, (f st a).userConnections = st.userConnections) (l : List α) (s : State) :
    (l.foldl f s).userConnections = s.userConnections := by
  induction l generalizing s with
  | nil => rfl
  | cons a tl ih =>
    simp only [List.foldl_cons]
    rw [ih, hf]

theorem identity_UpdateUnreadCounts (env : Env) (hw : ∀ c m, env.writeOk c m = true)
    (g sender : Int) (s : State) :
    (UpdateUnreadCounts env g sender s).2.userConnections = s.userConnections := by
  have hone : ∀ st row,
      (notificationUpdateOne env g st row).userConnections = st.userConnections := by
    intro st row
    unfold notificationUpdateOne
    split
    · rfl
    · split
      · rfl
      · split
        · rfl
        · simp only [writeJSON, hw, if_true]
          rfl
  have hb : ∀ st, (BroadcastNotificationUpdate env g sender st).userConnections
      = st.userConnections := by
    intro st
    unfold BroadcastNotificationUpdate
    split
    · rfl
    · exact identity_foldl _ hone _ st
  unfold UpdateUnreadCounts
  split
  · rfl
  · split
    · rfl
    · split
      · rfl
      · simp only
        rw [hb]
        exact identity_foldl (fun st userID => emit (Event.unreadIncrement g userID) st)
          (fun _ _ => rfl) _ s

theorem identity_broadcastToGroup (env : Env) (g : Int) (msg : GroupChatResponse)
    (s : State) : (broadcastToGroup env g msg s).userConnections = s.userConnections := by
  cases hg : s.groupConnections.lookup g with
  | none => simp [broadcastToGroup, hg]
  | some inner => exact (broadcastToGroup_state env g msg s inner hg).2.2.2.1

/-- While every write succeeds, a dispatched frame leaves the identity table and the
nickname of every connection as they were. -/
theorem identity_dispatch (env : Env) (hw : ∀ c m, env.writeOk c m = true) (S : ConnPtr)
    (typ : String) (data : RawData) (s : State) :
    (dispatch env S typ data s).userConnections = s.userConnections ∧
    ∀ c, ((dispatch env S typ data s).heap c).nickname = (s.heap c).nickname := by
  unfold dispatch
  split
  · have h := registry_of_traceOnly (traceOnly_handlePrivateChat env S data.asChat s)
    exact ⟨h.1, fun c => by rw [h.2.2]⟩
  · split
    · unfold handleGroupSubscription
      cases data.asSubscription with
      | none => exact ⟨rfl, fun _ => rfl⟩
      | some sub =>
        simp only
        split
        · exact ⟨rfl, fun _ => rfl⟩
        · split
          · exact ⟨rfl, fun _ => rfl⟩
          · refine ⟨rfl, fun c => ?_⟩
            by_cases hc : c = S
            · subst hc
              simp [emit]
            · simp [emit, Function.update_noteq hc]
    · split
      · unfold handleGroupUnsubscription
        cases data.asSubscription with
        | none => exact ⟨rfl, fun _ => rfl⟩
        | some sub =>
          refine ⟨rfl, fun c => ?_⟩
          by_cases hc : c = S
          · subst hc
            simp
          · simp [Function.update_noteq hc]
      · split
        · refine ⟨?_, fun c => by rw [(shrinks_handleGroupChat env S data.asGroupChat s).1]⟩
          unfold handleGroupChat
          cases data.asGroupChat with
          | none => rfl
          | some groupMsg =>
            simp only
            split
            · rfl
            · split
              · rw [(registry_of_traceOnly (traceOnly_notifyGroupMembers _ _ _ _ _)).1,
                  identity_broadcastToGroup, identity_UpdateUnreadCounts env hw]
                rfl
              · rfl
        · exact ⟨rfl, fun _ => rfl⟩

theorem persistedChatsInOrder_congr (S : ConnPtr) (s s' : State)
    (hu : s'.userConnections = s.userConnections)
    (hn : (s'.heap S).nickname = (s.heap S).nickname) (l : List Inbound) :
    persistedChatsInOrder S s' l = persistedChatsInOrder S s l := by
  induction l with
  | nil => rfl
  | cons f tl ih =>
    cases f with
    | readError => rfl
    | malformed => exact ih
    | frame env typ data =>
      simp only [persistedChatsInOrder, ih, chatDeliveries, hu, hn]

theorem chats_readLoop (S : ConnPtr) (inbound : List Inbound) (s : State)
    (hw : WritesSucceed inbound) :
    Wrote "chat" (persistedChatsInOrder S s inbound) s (readLoop S inbound s) := by
  induction inbound generalizing s with
  | nil => exact wrote_refl _ s
  | cons f tl ih =>
    cases f with
    | readError => exact ⟨[], (List.append_nil _).symm, rfl⟩
    | malformed => exact ih s hw
    | frame env typ data =>
      obtain ⟨hu, hn⟩ := identity_dispatch env hw.1 S typ data s
      have h1 := chats_dispatch env S typ data s
      have h2 := ih (dispatch env S typ data s) hw.2
      rw [persistedChatsInOrder_congr S s _ hu (hn S)] at h2
      exact wrote_trans h1 h2

/-- C23: while every write succeeds, so that every registered recipient stays
registered, the chat frames written by the read loop of `S` are, in the same order, the
inbound chat frames of `S` that persisted, each written on the connection registered
under its addressee: the loop dispatches a frame completely before it reads the next.
In particular this holds for the frames written on any one connection `R`. -/
theorem C23_chats_delivered_in_arrival_order (S : ConnPtr) (inbound : List Inbound)
    (s : State) (hw : WritesSucceed inbound) :
    writesOfType "chat" (newEvents s (readLoop S inbound s))
      = persistedChatsInOrder S s inbound ∧
    ∀ R : ConnPtr,
      (writesOfType "chat" (newEvents s (readLoop S inbound s))).filter
          (fun w => decide (w.1 = R))
        = (persistedChatsInOrder S s inbound).filter (fun w => decide (w.1 = R)) := by
  have h := writes_newEvents (chats_readLoop S inbound s hw)
  exact ⟨h, fun R => by rw [h]⟩

/-- C23 at a concrete input: "ann" sends the chats "one" and "two" to the connected
"bob". -/
theorem C23_chats_delivered_in_arrival_order_witness :
    writesOfType "chat" (newEvents annBobState (readLoop 0 twoChats annBobState))
      = persistedChatsInOrder 0 annBobState twoChats :=
  (C23_chats_delivered_in_arrival_order 0 twoChats annBobState
    ⟨fun _ _ => rfl, fun _ _ => rfl, trivial⟩).1

end SocialHub
